import Mathlib

/-
  Verification development for the ESP8266HttpRead library
  (src/ESP8266HttpRead.h, src/ESP8266HttpRead.cpp).

  The library filters an incoming byte stream from an ESP8266 WiFi modem,
  eliding the control messages "\n+IPD,<n>:" and "0,CLOSED" that the modem
  injects into the data, and offers layered parsers (a literal scanner, an
  HTTP Date parser and an unsigned decimal parser) on top of the filtered
  stream.

  Modelling conventions of the shallow embedding:
  * The external Byte Source (the ESP8266Client) is modelled as a finite
    `List Nat` of pending bytes (each 0..255).  `available()` is "the list
    is nonempty"; reading a byte pops the head.  The per-call timeout of
    `read()` is modelled by its only observable consequence: when the
    source has no byte to give, `read()` returns `READ_TIMEOUT`.
  * `ESP8266HttpRead::read()`'s busy-wait loop is `readLoop`, structurally
    recursive on the remaining input; each loop iteration of the C++ code
    either returns or consumes exactly one source byte, which makes the
    two coincide.
  * The member variables `_cmdState`, `_cmdBuf`, `_nextIn`, `_nextOut`
    and `_pEsp8266Client` live in the record `State`.  `_cmdBuf` (an
    `int[20]` in the source) is modelled as a total function `Nat → Nat`
    so that an out-of-bounds store is expressible; the ghost field
    `maxStoreIdx` records the largest index ever written by the
    `_cmdBuf[_nextIn] = ...` assignment, letting theorems speak about the
    20-entry capacity of the real array (valid indices 0..19).
  * `double` is modelled as `Rat` (exact arithmetic idealizing IEEE
    doubles); the `DBL_MAX` error sentinel is the exact rational value of
    the IEEE double DBL_MAX.
  * Functions whose C++ loops are not bounded by a structural argument
    (`find`, `readDouble`'s digit loops, the repeated `read()` driver
    `readAll`) take an explicit fuel; every theorem below supplies fuel
    large enough that the fuel bound is never the reason a run stops.
-/

namespace ESP8266HttpRead

/-- The command-recognition states, from the CmdState enum in
ESP8266HttpRead.h lines 42-61. -/
inductive CmdState where
  | CMD_WAIT
  | CMD_NL
  | CMD_PLUS
  | CMD_I
  | CMD_P
  | CMD_D
  | CMD_COMMA
  | CMD_0
  | CMD_0_
  | CMD_0_C
  | CMD_0_CL
  | CMD_0_CLO
  | CMD_0_CLOS
  | CMD_0_CLOSE
deriving DecidableEq

/-- READ_ERROR = -3 (ESP8266HttpRead.h line 75). -/
def READ_ERROR : Int := -3

/-- READ_TIMEOUT = -2 (ESP8266HttpRead.h line 76). -/
def READ_TIMEOUT : Int := -2

/-- READ_CLOSED = -1 (ESP8266HttpRead.h line 77). -/
def READ_CLOSED : Int := -1

/-- The mutable members of class ESP8266HttpRead (header lines 33-69).
`begun` models `_pEsp8266Client != 0`.  `maxStoreIdx` is a ghost field
recording the largest index at which `_cmdBuf[_nextIn] = ...` ever stored;
it does not influence behaviour. -/
structure State where
  begun : Bool
  timeoutMs : Nat
  cmdState : CmdState
  cmdBuf : Nat → Nat
  nextIn : Nat
  nextOut : Nat
  maxStoreIdx : Nat

/-- The `_cmdBuf[_nextIn] = _pEsp8266Client->read()` store
(ESP8266HttpRead.cpp line 84), with the ghost record of the store index. -/
def store (s : State) (c : Nat) : State :=
  { s with cmdBuf := Function.update s.cmdBuf s.nextIn c
           maxStoreIdx := max s.maxStoreIdx s.nextIn }

/-- The "If we're not in the middle of a command, reset _cmdBuf[]" step
(ESP8266HttpRead.cpp lines 70-74). -/
def resetIfIdle (s : State) : State :=
  if s.cmdState = CmdState.CMD_WAIT then { s with nextIn := 0, nextOut := 0 } else s

/-- ESP8266HttpRead::advanceIf (ESP8266HttpRead.cpp lines 499-513),
applied after the current byte has been stored in the buffer. -/
def advanceIf (s : State) (wantChar : Nat) (newState : CmdState) : State :=
  if s.cmdBuf s.nextIn = wantChar then
    { s with nextIn := s.nextIn + 1, nextOut := s.nextIn + 1, cmdState := newState }
  else
    { s with nextIn := s.nextIn + 1, nextOut := 0, cmdState := CmdState.CMD_WAIT }

/-- The `while (true)` body of ESP8266HttpRead::read()
(ESP8266HttpRead.cpp lines 62-159).  Byte codes: 10 '\n', 43 '+', 73 'I',
80 'P', 68 'D', 44 ',', 58 ':', 48 '0', 67 'C', 76 'L', 79 'O', 83 'S',
69 'E'.  Returns the read result, the state after the call and the
remaining source bytes. -/
def readLoop : State → List Nat → Int × State × List Nat
  | s, input =>
    if s.nextOut < s.nextIn then
      ((s.cmdBuf s.nextOut : Int), { s with nextOut := s.nextOut + 1 }, input)
    else
      let s1 := resetIfIdle s
      match input with
      | [] => (READ_TIMEOUT, s1, [])
      | c :: rest =>
        let s2 := store s1 c
        match s2.cmdState with
        | CmdState.CMD_WAIT =>
          if s2.cmdBuf s2.nextIn = 10 then
            readLoop { s2 with nextIn := s2.nextIn + 1, nextOut := s2.nextIn + 1,
                               cmdState := CmdState.CMD_NL } rest
          else if s2.cmdBuf s2.nextIn = 48 then
            readLoop { s2 with nextIn := s2.nextIn + 1, nextOut := s2.nextIn + 1,
                               cmdState := CmdState.CMD_0 } rest
          else
            readLoop { s2 with nextIn := s2.nextIn + 1, nextOut := 0,
                               cmdState := CmdState.CMD_WAIT } rest
        | CmdState.CMD_NL => readLoop (advanceIf s2 43 CmdState.CMD_PLUS) rest
        | CmdState.CMD_PLUS => readLoop (advanceIf s2 73 CmdState.CMD_I) rest
        | CmdState.CMD_I => readLoop (advanceIf s2 80 CmdState.CMD_P) rest
        | CmdState.CMD_P => readLoop (advanceIf s2 68 CmdState.CMD_D) rest
        | CmdState.CMD_D => readLoop (advanceIf s2 44 CmdState.CMD_COMMA) rest
        | CmdState.CMD_COMMA =>
          if s2.cmdBuf s2.nextIn ≠ 58 then
            readLoop { s2 with nextIn := s2.nextIn + 1, nextOut := s2.nextIn + 1,
                               cmdState := CmdState.CMD_COMMA } rest
          else
            readLoop { s2 with nextIn := 0, nextOut := 0,
                               cmdState := CmdState.CMD_WAIT } rest
        | CmdState.CMD_0 => readLoop (advanceIf s2 44 CmdState.CMD_0_) rest
        | CmdState.CMD_0_ => readLoop (advanceIf s2 67 CmdState.CMD_0_C) rest
        | CmdState.CMD_0_C => readLoop (advanceIf s2 76 CmdState.CMD_0_CL) rest
        | CmdState.CMD_0_CL => readLoop (advanceIf s2 79 CmdState.CMD_0_CLO) rest
        | CmdState.CMD_0_CLO => readLoop (advanceIf s2 83 CmdState.CMD_0_CLOS) rest
        | CmdState.CMD_0_CLOS => readLoop (advanceIf s2 69 CmdState.CMD_0_CLOSE) rest
        | CmdState.CMD_0_CLOSE =>
          if s2.cmdBuf s2.nextIn = 68 then
            (READ_CLOSED, s2, rest)
          else
            readLoop { s2 with nextIn := s2.nextIn + 1, nextOut := 0,
                               cmdState := CmdState.CMD_WAIT } rest

/-- ESP8266HttpRead::read() (ESP8266HttpRead.cpp lines 57-161): the
begin()-was-called check followed by the recognition loop. -/
def read (s : State) (input : List Nat) : Int × State × List Nat :=
  if s.begun then readLoop s input else (READ_ERROR, s, input)

/-- ESP8266HttpRead::begin (ESP8266HttpRead.cpp lines 31-40). -/
def begin (timeoutMs : Nat) : State :=
  { begun := true
    timeoutMs := timeoutMs
    cmdState := CmdState.CMD_WAIT
    cmdBuf := fun _ => 0
    nextIn := 0
    nextOut := 0
    maxStoreIdx := 0 }

/-- ESP8266HttpRead::end (ESP8266HttpRead.cpp lines 490-492):
`_pEsp8266Client = 0`. -/
def end' (s : State) : State := { s with begun := false }

/-- Driver that calls read() repeatedly, collecting the returned bytes
until read() yields a negative result.  Returns the delivered bytes, the
final read() result, the final state and the unconsumed source bytes. -/
def readAll : Nat → State → List Nat → List Nat × Int × State × List Nat
  | 0, s, input => ([], READ_TIMEOUT, s, input)
  | fuel + 1, s, input =>
    match read s input with
    | (ch, s1, in1) =>
      if ch < 0 then ([], ch, s1, in1)
      else
        match readAll fuel s1 in1 with
        | (out, r, s2, in2) => (ch.toNat :: out, r, s2, in2)

/-- boolean ESP8266HttpRead::read(char *buf, short count)
(ESP8266HttpRead.cpp lines 167-179): read `count` filtered bytes into a
buffer, failing on the first negative read() result. -/
def readChars : State → List Nat → Nat → Option (List Nat) × State × List Nat
  | s, input, 0 => (some [], s, input)
  | s, input, count + 1 =>
    match read s input with
    | (ch, s1, in1) =>
      if ch < 0 then (none, s1, in1)
      else
        match readChars s1 in1 count with
        | (some l, s2, in2) => (some (ch.toNat :: l), s2, in2)
        | (none, s2, in2) => (none, s2, in2)

/-- The loop of ESP8266HttpRead::find (ESP8266HttpRead.cpp lines 184-200):
`orig` is the full pattern `ppattern`, `cur` the tail the pointer `p`
points into.  On a mismatching byte the pointer is reset to `orig` and the
byte is dropped. -/
def findFrom : Nat → State → List Nat → List Nat → List Nat → Bool × State × List Nat
  | _, s, input, _, [] => (true, s, input)
  | 0, s, input, _, _ :: _ => (false, s, input)
  | fuel + 1, s, input, orig, p :: ps =>
    match read s input with
    | (ch, s1, in1) =>
      if ch < 0 then (false, s1, in1)
      else if ch = (p : Int) then findFrom fuel s1 in1 orig ps
      else findFrom fuel s1 in1 orig orig

/-- boolean ESP8266HttpRead::find(char *ppattern)
(ESP8266HttpRead.cpp lines 184-200). -/
def find (fuel : Nat) (s : State) (input : List Nat) (ppattern : List Nat) :
    Bool × State × List Nat :=
  findFrom fuel s input ppattern ppattern

/-- struct ESP8266HttpRead::HttpDateTime (ESP8266HttpRead.h lines 84-92).
Fields are modelled as Int because they are initialized to the invalid
sentinel -1 before parsing. -/
structure HttpDateTime where
  daySinceSunday : Int
  year : Int
  month : Int
  day : Int
  hour : Int
  minute : Int
  second : Int
deriving DecidableEq

/-- Is the byte an ASCII digit ('0' ≤ b ≤ '9')? -/
def isDigitByte (b : Nat) : Bool := 48 ≤ b && b ≤ 57

/-- boolean ESP8266HttpRead::findDate (ESP8266HttpRead.cpp lines 217-422).
The fuel is passed to the inner find("Date: "); all remaining reads are
count-bounded.  Returns the success flag, the parsed HttpDateTime, the
state and the remaining input. -/
def findDate (fuel : Nat) (s : State) (input : List Nat) :
    Bool × HttpDateTime × State × List Nat :=
  let dt0 : HttpDateTime :=
    { daySinceSunday := -1, year := -1, month := -1, day := -1,
      hour := -1, minute := -1, second := -1 }
  match find fuel s input [68, 97, 116, 101, 58, 32] with
  | (false, s1, in1) => (false, dt0, s1, in1)
  | (true, s1, in1) =>
    -- Day of week: Sun Mon Tue Wed Thu Fri Sat
    match readChars s1 in1 3 with
    | (none, s2, in2) => (false, dt0, s2, in2)
    | (some l, s2, in2) =>
      let b0 := l.getD 0 0
      let b1 := l.getD 1 0
      let dow : Option Int :=
        if b0 = 83 then
          (if b1 = 117 then some 0 else if b1 = 97 then some 6 else none)
        else if b0 = 77 then some 1
        else if b0 = 84 then
          (if b1 = 117 then some 2 else if b1 = 104 then some 4 else none)
        else if b0 = 87 then some 3
        else if b0 = 70 then some 5
        else none
      match dow with
      | none => (false, dt0, s2, in2)
      | some d =>
        let dt1 := { dt0 with daySinceSunday := d }
        -- Skip the ", " after the day of the week.
        match readChars s2 in2 2 with
        | (none, s3, in3) => (false, dt1, s3, in3)
        | (some _, s3, in3) =>
          -- Day of the month: 1..31
          match readChars s3 in3 2 with
          | (none, s4, in4) => (false, dt1, s4, in4)
          | (some l4, s4, in4) =>
            let c0 := l4.getD 0 0
            let c1 := l4.getD 1 0
            if isDigitByte c0 && isDigitByte c1 then
              let dt2 := { dt1 with
                day := ((c0 : Int) - 48) * 10 + ((c1 : Int) - 48) }
              -- Skip the space before the month.
              match read s4 in4 with
              | (ch5, s5, in5) =>
                if ch5 < 0 then (false, dt2, s5, in5)
                else
                  -- Month: Jan Feb Mar Apr May Jun Jul Aug Sep Oct Nov Dec
                  match readChars s5 in5 3 with
                  | (none, s6, in6) => (false, dt2, s6, in6)
                  | (some l6, s6, in6) =>
                    let m0 := l6.getD 0 0
                    let m1 := l6.getD 1 0
                    let m2 := l6.getD 2 0
                    let mon : Option Int :=
                      if m0 = 74 then
                        (if m1 = 97 then some 1
                         else if m2 = 110 then some 6
                         else if m2 = 108 then some 7
                         else none)
                      else if m0 = 70 then some 2
                      else if m0 = 77 then
                        (if m2 = 114 then some 3
                         else if m2 = 121 then some 5
                         else none)
                      else if m0 = 65 then
                        (if m1 = 112 then some 4
                         else if m1 = 117 then some 8
                         else none)
                      else if m0 = 83 then some 9
                      else if m0 = 79 then some 10
                      else if m0 = 78 then some 11
                      else if m0 = 68 then some 12
                      else none
                    match mon with
                    | none => (false, dt2, s6, in6)
                    | some m =>
                      let dt3 := { dt2 with month := m }
                      -- Skip the space before the year.
                      match read s6 in6 with
                      | (ch7, s7, in7) =>
                        if ch7 < 0 then (false, dt3, s7, in7)
                        else
                          -- Year: 1900..2100 or so.
                          match readChars s7 in7 4 with
                          | (none, s8, in8) => (false, dt3, s8, in8)
                          | (some l8, s8, in8) =>
                            let y0 := l8.getD 0 0
                            let y1 := l8.getD 1 0
                            let y2 := l8.getD 2 0
                            let y3 := l8.getD 3 0
                            if isDigitByte y0 && isDigitByte y1 &&
                               isDigitByte y2 && isDigitByte y3 then
                              let dt4 := { dt3 with
                                year := ((y0 : Int) - 48) * 1000 +
                                  ((y1 : Int) - 48) * 100 +
                                  ((y2 : Int) - 48) * 10 +
                                  ((y3 : Int) - 48) }
                              -- Skip the space before the hour.
                              match read s8 in8 with
                              | (ch9, s9, in9) =>
                                if ch9 < 0 then (false, dt4, s9, in9)
                                else
                                  -- Hour: 00..23
                                  match readChars s9 in9 2 with
                                  | (none, s10, in10) => (false, dt4, s10, in10)
                                  | (some l10, s10, in10) =>
                                    let h0 := l10.getD 0 0
                                    let h1 := l10.getD 1 0
                                    if isDigitByte h0 && isDigitByte h1 then
                                      let dt5 := { dt4 with
                                        hour := ((h0 : Int) - 48) * 10 + ((h1 : Int) - 48) }
                                      -- Skip the : before the minute.
                                      match read s10 in10 with
                                      | (ch11, s11, in11) =>
                                        if ch11 < 0 then (false, dt5, s11, in11)
                                        else
                                          -- Minute: 00..59
                                          match readChars s11 in11 2 with
                                          | (none, s12, in12) => (false, dt5, s12, in12)
                                          | (some l12, s12, in12) =>
                                            let n0 := l12.getD 0 0
                                            let n1 := l12.getD 1 0
                                            if isDigitByte n0 && isDigitByte n1 then
                                              let dt6 := { dt5 with
                                                minute := ((n0 : Int) - 48) * 10 + ((n1 : Int) - 48) }
                                              -- Skip the : before the second.
                                              match read s12 in12 with
                                              | (ch13, s13, in13) =>
                                                if ch13 < 0 then (false, dt6, s13, in13)
                                                else
                                                  -- Second: 00..61
                                                  match readChars s13 in13 2 with
                                                  | (none, s14, in14) => (false, dt6, s14, in14)
                                                  | (some l14, s14, in14) =>
                                                    let e0 := l14.getD 0 0
                                                    let e1 := l14.getD 1 0
                                                    if isDigitByte e0 && isDigitByte e1 then
                                                      let dt7 := { dt6 with
                                                        second := ((e0 : Int) - 48) * 10 + ((e1 : Int) - 48) }
                                                      -- Skip the space before the Timezone.
                                                      match read s14 in14 with
                                                      | (ch15, s15, in15) =>
                                                        if ch15 < 0 then (false, dt7, s15, in15)
                                                        else
                                                          -- Timezone: GMT hopefully.
                                                          match readChars s15 in15 3 with
                                                          | (none, s16, in16) => (false, dt7, s16, in16)
                                                          | (some l16, s16, in16) =>
                                                            let g0 := l16.getD 0 0
                                                            let g1 := l16.getD 1 0
                                                            let g2 := l16.getD 2 0
                                                            if g0 ≠ 71 ∨ g1 ≠ 77 ∨ g2 ≠ 84 then
                                                              (false, dt7, s16, in16)
                                                            else
                                                              (true, dt7, s16, in16)
                                                    else (false, dt6, s14, in14)
                                            else (false, dt5, s12, in12)
                                    else (false, dt4, s10, in10)
                            else (false, dt3, s8, in8)
            else (false, dt1, s4, in4)

/-- The exact rational value of the IEEE double DBL_MAX, the error
sentinel of readDouble (ESP8266HttpRead.cpp line 438). -/
def DBL_MAX : Rat := 2 ^ 1024 - 2 ^ 971

/-- The integer-part digit loop of ESP8266HttpRead::readDouble
(ESP8266HttpRead.cpp lines 447-455).  Returns the accumulated value, the
sawInteger flag, the first non-digit read() result and the threaded
state/input. -/
def readDigitsInt : Nat → State → List Nat → Rat → Bool →
    Rat × Bool × Int × State × List Nat
  | 0, s, input, result, sawInteger => (result, sawInteger, READ_TIMEOUT, s, input)
  | fuel + 1, s, input, result, sawInteger =>
    match read s input with
    | (ch, s1, in1) =>
      if 48 ≤ ch ∧ ch ≤ 57 then
        readDigitsInt fuel s1 in1 (result * 10 + ((ch - 48 : Int) : Rat)) true
      else (result, sawInteger, ch, s1, in1)

/-- The fractional-part digit loop of ESP8266HttpRead::readDouble
(ESP8266HttpRead.cpp lines 468-476). -/
def readDigitsFrac : Nat → State → List Nat → Rat → Rat → Bool →
    Rat × Bool × Int × State × List Nat
  | 0, s, input, result, _, sawInteger => (result, sawInteger, READ_TIMEOUT, s, input)
  | fuel + 1, s, input, result, scale, sawInteger =>
    match read s input with
    | (ch, s1, in1) =>
      if 48 ≤ ch ∧ ch ≤ 57 then
        readDigitsFrac fuel s1 in1 (result + scale * ((ch - 48 : Int) : Rat))
          (scale / 10) true
      else (result, sawInteger, ch, s1, in1)

/-- double ESP8266HttpRead::readDouble (ESP8266HttpRead.cpp lines
440-485), with `double` idealized as `Rat`. -/
def readDouble (fuel : Nat) (s : State) (input : List Nat) :
    Rat × State × List Nat :=
  match readDigitsInt fuel s input 0 false with
  | (result, sawInteger, ch, s1, in1) =>
    if ch < 0 then (DBL_MAX, s1, in1)
    else if ch ≠ 46 then
      (if sawInteger then (result, s1, in1) else (DBL_MAX, s1, in1))
    else
      match readDigitsFrac fuel s1 in1 result (1 / 10) sawInteger with
      | (result2, saw2, ch2, s2, in2) =>
        if ch2 < 0 then (DBL_MAX, s2, in2)
        else if saw2 then (result2, s2, in2)
        else (DBL_MAX, s2, in2)

/-!
## Abstract mirror of the recognition loop

`stepAbs` is a one-byte specification-side mirror of the state machine in
`read()`: it carries the abstract pending list `P` (the bytes tentatively
consumed while a control-sequence match is in progress) instead of the
buffer-and-two-cursors representation, and reports the bytes emitted to
the consumer by that step.  `runAbs` iterates it over a whole input.  The
correspondence with the concrete `readAll`/`readLoop` is proved below
(`readAll_eq_runAbs`).
-/

/-- Outcome of one abstract step: either continue with bytes `out`
emitted, or the `0,CLOSED` message completed. -/
inductive StepOut where
  | cont (out : List Nat) (q : CmdState) (P : List Nat)
  | closed
deriving DecidableEq

/-- One byte of the recognition state machine, abstractly. -/
def stepAbs (q : CmdState) (P : List Nat) (c : Nat) : StepOut :=
  match q with
  | CmdState.CMD_WAIT =>
    if c = 10 then StepOut.cont [] CmdState.CMD_NL [c]
    else if c = 48 then StepOut.cont [] CmdState.CMD_0 [c]
    else StepOut.cont [c] CmdState.CMD_WAIT []
  | CmdState.CMD_NL =>
    if c = 43 then StepOut.cont [] CmdState.CMD_PLUS (P ++ [c])
    else StepOut.cont (P ++ [c]) CmdState.CMD_WAIT []
  | CmdState.CMD_PLUS =>
    if c = 73 then StepOut.cont [] CmdState.CMD_I (P ++ [c])
    else StepOut.cont (P ++ [c]) CmdState.CMD_WAIT []
  | CmdState.CMD_I =>
    if c = 80 then StepOut.cont [] CmdState.CMD_P (P ++ [c])
    else StepOut.cont (P ++ [c]) CmdState.CMD_WAIT []
  | CmdState.CMD_P =>
    if c = 68 then StepOut.cont [] CmdState.CMD_D (P ++ [c])
    else StepOut.cont (P ++ [c]) CmdState.CMD_WAIT []
  | CmdState.CMD_D =>
    if c = 44 then StepOut.cont [] CmdState.CMD_COMMA (P ++ [c])
    else StepOut.cont (P ++ [c]) CmdState.CMD_WAIT []
  | CmdState.CMD_COMMA =>
    if c = 58 then StepOut.cont [] CmdState.CMD_WAIT []
    else StepOut.cont [] CmdState.CMD_COMMA (P ++ [c])
  | CmdState.CMD_0 =>
    if c = 44 then StepOut.cont [] CmdState.CMD_0_ (P ++ [c])
    else StepOut.cont (P ++ [c]) CmdState.CMD_WAIT []
  | CmdState.CMD_0_ =>
    if c = 67 then StepOut.cont [] CmdState.CMD_0_C (P ++ [c])
    else StepOut.cont (P ++ [c]) CmdState.CMD_WAIT []
  | CmdState.CMD_0_C =>
    if c = 76 then StepOut.cont [] CmdState.CMD_0_CL (P ++ [c])
    else StepOut.cont (P ++ [c]) CmdState.CMD_WAIT []
  | CmdState.CMD_0_CL =>
    if c = 79 then StepOut.cont [] CmdState.CMD_0_CLO (P ++ [c])
    else StepOut.cont (P ++ [c]) CmdState.CMD_WAIT []
  | CmdState.CMD_0_CLO =>
    if c = 83 then StepOut.cont [] CmdState.CMD_0_CLOS (P ++ [c])
    else StepOut.cont (P ++ [c]) CmdState.CMD_WAIT []
  | CmdState.CMD_0_CLOS =>
    if c = 69 then StepOut.cont [] CmdState.CMD_0_CLOSE (P ++ [c])
    else StepOut.cont (P ++ [c]) CmdState.CMD_WAIT []
  | CmdState.CMD_0_CLOSE =>
    if c = 68 then StepOut.closed
    else StepOut.cont (P ++ [c]) CmdState.CMD_WAIT []

/-- Result of running the abstract recognizer over a whole input: the
emitted bytes, whether `0,CLOSED` completed, the input bytes left
unconsumed at that completion, and the final machine state and pending
list. -/
structure AbsRun where
  out : List Nat
  isClosed : Bool
  rem : List Nat
  q : CmdState
  P : List Nat
deriving DecidableEq

/-- Run the abstract recognizer over an input. -/
def runAbs : CmdState → List Nat → List Nat → AbsRun
  | q, P, [] => ⟨[], false, [], q, P⟩
  | q, P, c :: rest =>
    match stepAbs q P c with
    | StepOut.cont out q1 P1 =>
      let r := runAbs q1 P1 rest
      ⟨out ++ r.out, r.isClosed, r.rem, r.q, r.P⟩
    | StepOut.closed => ⟨[], true, rest, q, P⟩

/-- The read() result that ends a maximal run: READ_CLOSED if the
`0,CLOSED` message completed, otherwise READ_TIMEOUT. -/
def resOf (b : Bool) : Int := if b then READ_CLOSED else READ_TIMEOUT

/-!
## Occurrence predicates on byte sequences

Textual characterizations of the two control messages, used to state the
clean-stream claims.
-/

/-- The bytes of "\n+IPD," (the fixed prefix of the more-data message). -/
def ipd6 : List Nat := [10, 43, 73, 80, 68, 44]

/-- The bytes of "0,CLOSED". -/
def closedLit : List Nat := [48, 44, 67, 76, 79, 83, 69, 68]

/-- The bytes of the inserted control message "\n+IPD,5:" of claim C2. -/
def ipd5 : List Nat := [10, 43, 73, 80, 68, 44, 53, 58]

/-- `pat` occurs in `l` starting at position `i`. -/
def listAt (l : List Nat) (i : Nat) (pat : List Nat) : Prop :=
  (l.drop i).take pat.length = pat

instance (l : List Nat) (i : Nat) (pat : List Nat) : Decidable (listAt l i pat) := by
  unfold listAt; infer_instance

/-- `l` contains an occurrence of the full more-data message
"\n+IPD,<n>:": the prefix "\n+IPD," at some position with a ':' somewhere
after it (taking the first such ':' gives the `<n>` field). -/
def ipdOcc (l : List Nat) : Prop :=
  ∃ i ∈ List.range l.length, listAt l i ipd6 ∧ 58 ∈ l.drop (i + 6)

instance (l : List Nat) : Decidable (ipdOcc l) := by
  unfold ipdOcc; infer_instance

/-- `l` contains an occurrence of the literal "0,CLOSED". -/
def closedOcc (l : List Nat) : Prop :=
  ∃ i ∈ List.range l.length, listAt l i closedLit

instance (l : List Nat) : Decidable (closedOcc l) := by
  unfold closedOcc; infer_instance

/-- Every occurrence of "\n+IPD," in `l` has its byte-count field closed
by a ':' among the next 14 bytes, or the stream ends within those 14
bytes: precisely the inputs on whose control sequences the 20-entry
`_cmdBuf` accumulation stays in bounds. -/
def fieldShort (l : List Nat) : Prop :=
  ∀ i ∈ List.range l.length, listAt l i ipd6 →
    (58 ∈ (l.drop (i + 6)).take 14 ∨ (l.drop (i + 6)).length ≤ 14)

instance (l : List Nat) : Decidable (fieldShort l) := by
  unfold fieldShort; infer_instance

/-- The pending list a reachable machine state can carry: each
recognition state pins down exactly which bytes have been tentatively
consumed. -/
def pendOk : CmdState → List Nat → Prop
  | CmdState.CMD_WAIT, P => P = []
  | CmdState.CMD_NL, P => P = [10]
  | CmdState.CMD_PLUS, P => P = [10, 43]
  | CmdState.CMD_I, P => P = [10, 43, 73]
  | CmdState.CMD_P, P => P = [10, 43, 73, 80]
  | CmdState.CMD_D, P => P = [10, 43, 73, 80, 68]
  | CmdState.CMD_COMMA, P => ∃ t, P = ipd6 ++ t ∧ 58 ∉ t
  | CmdState.CMD_0, P => P = [48]
  | CmdState.CMD_0_, P => P = [48, 44]
  | CmdState.CMD_0_C, P => P = [48, 44, 67]
  | CmdState.CMD_0_CL, P => P = [48, 44, 67, 76]
  | CmdState.CMD_0_CLO, P => P = [48, 44, 67, 76, 79]
  | CmdState.CMD_0_CLOS, P => P = [48, 44, 67, 76, 79, 83]
  | CmdState.CMD_0_CLOSE, P => P = [48, 44, 67, 76, 79, 83, 69]

/-!
## Relations between concrete states and the abstract machine
-/

/-- The concrete state `s` is in matching mode representing abstract
state `q` with pending bytes `P`: both cursors sit at `P.length` and the
buffer holds `P` below them. -/
def Matching (s : State) (q : CmdState) (P : List Nat) : Prop :=
  s.begun = true ∧ s.cmdState = q ∧ s.nextIn = P.length ∧ s.nextOut = P.length ∧
    ∀ i, i < P.length → s.cmdBuf i = P.getD i 0

/-- The concrete state `s` is in flushing mode with the bytes `F` still
to be handed to the consumer (a failed tentative match being replayed). -/
def Flushing (s : State) (F : List Nat) : Prop :=
  s.begun = true ∧ s.cmdState = CmdState.CMD_WAIT ∧ s.nextIn = s.nextOut + F.length ∧
    ∀ i, i < F.length → s.cmdBuf (s.nextOut + i) = F.getD i 0

/-- Weight of an abstract configuration for the correspondence
induction: pending bytes count except in the idle state, which discards
its pending on the next read. -/
def wqp (q : CmdState) (P : List Nat) : Nat :=
  if q = CmdState.CMD_WAIT then 0 else P.length

/-- The buffered-bytes content of a concrete state, lowest index first. -/
def pText (s : State) : List Nat :=
  (List.range s.nextIn).map s.cmdBuf

/-- The semantically pending bytes of a concrete state: none when idle
(the cursors are reset before the next store), otherwise the buffer
content. -/
def pSem (s : State) : List Nat :=
  if s.cmdState = CmdState.CMD_WAIT then [] else pText s

/-- Reachability invariant for the buffered bytes: outside the idle
state the buffer holds exactly the pending bytes `pendOk` prescribes. -/
def BufInv (s : State) : Prop :=
  s.cmdState ≠ CmdState.CMD_WAIT → pendOk s.cmdState (pText s)

/-- The cursor invariant of the pending buffer: the read cursor never
passes the write cursor, and while a match is in progress (state not
idle) the two coincide. -/
def CursorInv (s : State) : Prop :=
  s.nextOut ≤ s.nextIn ∧ (s.cmdState ≠ CmdState.CMD_WAIT → s.nextOut = s.nextIn)

/-!
## Helper lemmas about occurrences
-/

/-- The byte string "Date: Fri, 21 Aug 2015 22:06:40 " of the findDate
example, up to but not including the timezone token. -/
def preDate : List Nat :=
  [68, 97, 116, 101, 58, 32, 70, 114, 105, 44, 32, 50, 49, 32, 65, 117, 103, 32,
   50, 48, 49, 53, 32, 50, 50, 58, 48, 54, 58, 52, 48, 32]

theorem listAt_length_le {l : List Nat} {i : Nat} {pat : List Nat}
    (h : listAt l i pat) (hp : pat ≠ []) : i + pat.length ≤ l.length := by
  unfold listAt at h
  have hlen : (List.take pat.length (List.drop i l)).length = pat.length := by
    rw [h]
  have hpos : 0 < pat.length := List.length_pos.mpr hp
  simp only [List.length_take, List.length_drop] at hlen
  omega

theorem listAt_shift {u l : List Nat} {i : Nat} {pat : List Nat}
    (h : listAt l i pat) : listAt (u ++ l) (u.length + i) pat := by
  unfold listAt at h ⊢
  rw [List.drop_append, h]

theorem drop_shift (u l : List Nat) (i : Nat) :
    (u ++ l).drop (u.length + i) = l.drop i :=
  List.drop_append i

theorem listAt_of_append_left {u v : List Nat} {i : Nat} {pat : List Nat}
    (h : listAt u i pat) (hp : pat ≠ []) : listAt (u ++ v) i pat := by
  have hle := listAt_length_le h hp
  unfold listAt at h ⊢
  rw [List.drop_append_eq_append_drop]
  have h1 : i ≤ u.length := by omega
  have h2 : i - u.length = 0 := by omega
  rw [h2, List.drop_zero, List.take_append_eq_append_take, h]
  have h3 : pat.length - (u.drop i).length = 0 := by
    simp only [List.length_drop]; omega
  rw [h3, List.take_zero, List.append_nil]

theorem ipdOcc_mono_right {u l : List Nat} (h : ipdOcc l) : ipdOcc (u ++ l) := by
  obtain ⟨i, hi, hat, hc⟩ := h
  refine ⟨u.length + i, ?_, listAt_shift hat, ?_⟩
  · simp only [List.mem_range, List.length_append] at hi ⊢
    omega
  · have : u.length + i + 6 = u.length + (i + 6) := by omega
    rw [this, drop_shift]
    exact hc

theorem closedOcc_mono_right {u l : List Nat} (h : closedOcc l) :
    closedOcc (u ++ l) := by
  obtain ⟨i, hi, hat⟩ := h
  refine ⟨u.length + i, ?_, listAt_shift hat⟩
  simp only [List.mem_range, List.length_append] at hi ⊢
  omega

theorem ipdOcc_mono_left {u v : List Nat} (h : ipdOcc u) : ipdOcc (u ++ v) := by
  obtain ⟨i, hi, hat, hc⟩ := h
  have hle := listAt_length_le hat (by simp [ipd6])
  refine ⟨i, ?_, listAt_of_append_left hat (by simp [ipd6]), ?_⟩
  · simp only [List.mem_range, List.length_append] at hi ⊢
    omega
  · rw [List.drop_append_eq_append_drop]
    exact List.mem_append_left _ hc

theorem closedOcc_mono_left {u v : List Nat} (h : closedOcc u) :
    closedOcc (u ++ v) := by
  obtain ⟨i, hi, hat⟩ := h
  refine ⟨i, ?_, listAt_of_append_left hat (by simp [closedLit])⟩
  simp only [List.mem_range, List.length_append] at hi ⊢
  omega

theorem fieldShort_of_append {u l : List Nat} (h : fieldShort (u ++ l)) :
    fieldShort l := by
  intro i hi hat
  have hshift := listAt_shift (u := u) hat
  have hi' : u.length + i ∈ List.range (u ++ l).length := by
    simp only [List.mem_range, List.length_append] at hi ⊢
    omega
  have := h (u.length + i) hi' hshift
  have heq : u.length + i + 6 = u.length + (i + 6) := by omega
  rw [heq, drop_shift] at this
  exact this

/-!
## Basic lemmas about the abstract recognizer
-/

theorem runAbs_rem_nil : ∀ (input : List Nat) (q : CmdState) (P : List Nat),
    (runAbs q P input).isClosed = false → (runAbs q P input).rem = [] := by
  intro input
  induction input with
  | nil => intro q P _; rfl
  | cons c rest ih =>
    intro q P h
    rcases hs : stepAbs q P c with ⟨out, q1, P1⟩ | _
    · simp only [runAbs, hs] at h ⊢
      exact ih q1 P1 h
    · simp [runAbs, hs] at h

theorem runAbs_append : ∀ (x : List Nat) (y : List Nat) (q : CmdState) (P : List Nat),
    (runAbs q P x).isClosed = false →
    runAbs q P (x ++ y) =
      ⟨(runAbs q P x).out ++ (runAbs (runAbs q P x).q (runAbs q P x).P y).out,
       (runAbs (runAbs q P x).q (runAbs q P x).P y).isClosed,
       (runAbs (runAbs q P x).q (runAbs q P x).P y).rem,
       (runAbs (runAbs q P x).q (runAbs q P x).P y).q,
       (runAbs (runAbs q P x).q (runAbs q P x).P y).P⟩ := by
  intro x
  induction x with
  | nil => intro y q P _; simp [runAbs]
  | cons c rest ih =>
    intro y q P h
    rcases hs : stepAbs q P c with ⟨out, q1, P1⟩ | _
    · simp only [List.cons_append, runAbs, hs, List.append_eq] at h ⊢
      rw [ih y q1 P1 h]
      simp [List.append_assoc]
    · simp [runAbs, hs] at h

theorem ipdOcc_head (t rest : List Nat) : ipdOcc ((ipd6 ++ t) ++ 58 :: rest) := by
  refine ⟨0, ?_, ?_, ?_⟩
  · simp [ipd6]
  · unfold listAt
    rw [List.drop_zero, List.append_assoc]
    exact List.take_left' rfl
  · rw [List.append_assoc]
    have hdrop : (ipd6 ++ (t ++ 58 :: rest)).drop 6 = t ++ 58 :: rest :=
      List.drop_left' rfl
    simp [hdrop]

theorem closedOcc_head (rest : List Nat) : closedOcc (closedLit ++ rest) := by
  refine ⟨0, ?_, ?_⟩
  · simp [closedLit]
  · unfold listAt
    rw [List.drop_zero]
    exact List.take_left' rfl

/-- Exhaustive description of one abstract step from a reachable
configuration: a silent advance keeping `pendOk`, the confirmation of a
full "\n+IPD,<n>:" message, the literal in-order flush of the pending
bytes plus the mismatching byte, or the completion of "0,CLOSED". -/
theorem stepAbs_cases (q : CmdState) (P : List Nat) (c : Nat) (hp : pendOk q P) :
    (∃ q1, stepAbs q P c = StepOut.cont [] q1 (P ++ [c]) ∧ pendOk q1 (P ++ [c])) ∨
    (stepAbs q P c = StepOut.cont [] CmdState.CMD_WAIT [] ∧
      q = CmdState.CMD_COMMA ∧ c = 58) ∨
    (stepAbs q P c = StepOut.cont (P ++ [c]) CmdState.CMD_WAIT []) ∨
    (stepAbs q P c = StepOut.closed ∧ q = CmdState.CMD_0_CLOSE ∧ c = 68) := by
  cases q with
  | CMD_WAIT =>
    simp only [pendOk] at hp
    subst hp
    by_cases h10 : c = 10
    · exact Or.inl ⟨CmdState.CMD_NL, by simp [stepAbs, h10], by simp [pendOk, h10]⟩
    · by_cases h48 : c = 48
      · exact Or.inl ⟨CmdState.CMD_0, by simp [stepAbs, h10, h48], by simp [pendOk, h48]⟩
      · exact Or.inr (Or.inr (Or.inl (by simp [stepAbs, h10, h48])))
  | CMD_NL =>
    simp only [pendOk] at hp
    subst hp
    by_cases h : c = 43
    · exact Or.inl ⟨CmdState.CMD_PLUS, by simp [stepAbs, h], by simp [pendOk, h]⟩
    · exact Or.inr (Or.inr (Or.inl (by simp [stepAbs, h])))
  | CMD_PLUS =>
    simp only [pendOk] at hp
    subst hp
    by_cases h : c = 73
    · exact Or.inl ⟨CmdState.CMD_I, by simp [stepAbs, h], by simp [pendOk, h]⟩
    · exact Or.inr (Or.inr (Or.inl (by simp [stepAbs, h])))
  | CMD_I =>
    simp only [pendOk] at hp
    subst hp
    by_cases h : c = 80
    · exact Or.inl ⟨CmdState.CMD_P, by simp [stepAbs, h], by simp [pendOk, h]⟩
    · exact Or.inr (Or.inr (Or.inl (by simp [stepAbs, h])))
  | CMD_P =>
    simp only [pendOk] at hp
    subst hp
    by_cases h : c = 68
    · exact Or.inl ⟨CmdState.CMD_D, by simp [stepAbs, h], by simp [pendOk, h]⟩
    · exact Or.inr (Or.inr (Or.inl (by simp [stepAbs, h])))
  | CMD_D =>
    simp only [pendOk] at hp
    subst hp
    by_cases h : c = 44
    · refine Or.inl ⟨CmdState.CMD_COMMA, by simp [stepAbs, h], ?_⟩
      exact ⟨[], by simp [ipd6, h], by simp⟩
    · exact Or.inr (Or.inr (Or.inl (by simp [stepAbs, h])))
  | CMD_COMMA =>
    obtain ⟨t, hPt, ht⟩ := hp
    by_cases h : c = 58
    · exact Or.inr (Or.inl ⟨by simp [stepAbs, h], rfl, h⟩)
    · refine Or.inl ⟨CmdState.CMD_COMMA, by simp [stepAbs, h], ?_⟩
      refine ⟨t ++ [c], by rw [hPt, List.append_assoc], ?_⟩
      simp only [List.mem_append, List.mem_singleton, not_or]
      exact ⟨ht, fun hc => h hc.symm⟩
  | CMD_0 =>
    simp only [pendOk] at hp
    subst hp
    by_cases h : c = 44
    · exact Or.inl ⟨CmdState.CMD_0_, by simp [stepAbs, h], by simp [pendOk, h]⟩
    · exact Or.inr (Or.inr (Or.inl (by simp [stepAbs, h])))
  | CMD_0_ =>
    simp only [pendOk] at hp
    subst hp
    by_cases h : c = 67
    · exact Or.inl ⟨CmdState.CMD_0_C, by simp [stepAbs, h], by simp [pendOk, h]⟩
    · exact Or.inr (Or.inr (Or.inl (by simp [stepAbs, h])))
  | CMD_0_C =>
    simp only [pendOk] at hp
    subst hp
    by_cases h : c = 76
    · exact Or.inl ⟨CmdState.CMD_0_CL, by simp [stepAbs, h], by simp [pendOk, h]⟩
    · exact Or.inr (Or.inr (Or.inl (by simp [stepAbs, h])))
  | CMD_0_CL =>
    simp only [pendOk] at hp
    subst hp
    by_cases h : c = 79
    · exact Or.inl ⟨CmdState.CMD_0_CLO, by simp [stepAbs, h], by simp [pendOk, h]⟩
    · exact Or.inr (Or.inr (Or.inl (by simp [stepAbs, h])))
  | CMD_0_CLO =>
    simp only [pendOk] at hp
    subst hp
    by_cases h : c = 83
    · exact Or.inl ⟨CmdState.CMD_0_CLOS, by simp [stepAbs, h], by simp [pendOk, h]⟩
    · exact Or.inr (Or.inr (Or.inl (by simp [stepAbs, h])))
  | CMD_0_CLOS =>
    simp only [pendOk] at hp
    subst hp
    by_cases h : c = 69
    · exact Or.inl ⟨CmdState.CMD_0_CLOSE, by simp [stepAbs, h], by simp [pendOk, h]⟩
    · exact Or.inr (Or.inr (Or.inl (by simp [stepAbs, h])))
  | CMD_0_CLOSE =>
    by_cases h : c = 68
    · exact Or.inr (Or.inr (Or.inr ⟨by simp [stepAbs, h], rfl, h⟩))
    · exact Or.inr (Or.inr (Or.inl (by simp [stepAbs, h])))

/-- On an input free of both control messages, a run of the recognizer
from a reachable configuration loses nothing: the emitted bytes followed
by the still-pending bytes are exactly the pending-plus-input text, no
close is signalled, and the final configuration is again reachable. -/
theorem runAbs_clean : ∀ (input : List Nat) (q : CmdState) (P : List Nat),
    pendOk q P → ¬ipdOcc (P ++ input) → ¬closedOcc (P ++ input) →
    (runAbs q P input).out ++ (runAbs q P input).P = P ++ input ∧
    (runAbs q P input).isClosed = false ∧
    pendOk (runAbs q P input).q (runAbs q P input).P := by
  intro input
  induction input with
  | nil =>
    intro q P hp _ _
    exact ⟨by simp [runAbs], rfl, hp⟩
  | cons c rest ih =>
    intro q P hp h1 h2
    have heq : P ++ c :: rest = (P ++ [c]) ++ rest := by simp
    rcases stepAbs_cases q P c hp with ⟨q1, hs, hp1⟩ | ⟨hs, hq, hc⟩ | hs | ⟨hs, hq, hc⟩
    · rw [heq] at h1 h2
      have := ih q1 (P ++ [c]) hp1 h1 h2
      simp only [runAbs, hs]
      refine ⟨?_, this.2.1, this.2.2⟩
      simp only [List.nil_append]
      rw [this.1, heq]
    · exfalso
      subst hq hc
      obtain ⟨t, hPt, _⟩ := hp
      rw [hPt] at h1
      exact h1 (ipdOcc_head t rest)
    · rw [heq] at h1 h2
      have h1' : ¬ipdOcc rest := fun h => h1 (ipdOcc_mono_right h)
      have h2' : ¬closedOcc rest := fun h => h2 (closedOcc_mono_right h)
      have := ih CmdState.CMD_WAIT [] rfl (by simpa using h1') (by simpa using h2')
      simp only [runAbs, hs]
      refine ⟨?_, this.2.1, this.2.2⟩
      rw [List.append_assoc, this.1, List.nil_append, ← heq]
    · exfalso
      subst hq hc
      simp only [pendOk] at hp
      subst hp
      exact h2 (closedOcc_head rest)

theorem getD_concat (l : List Nat) (c : Nat) : (l ++ [c]).getD l.length 0 = c := by
  rw [List.getD_append_right l [c] 0 l.length (le_refl _)]
  simp

/-- A flushing state with a nonempty queue returns the head of the queue
without touching the source. -/
theorem readLoop_flush (s : State) (c : Nat) (F : List Nat) (input : List Nat)
    (h : Flushing s (c :: F)) :
    readLoop s input = ((c : Int), { s with nextOut := s.nextOut + 1 }, input) ∧
    Flushing { s with nextOut := s.nextOut + 1 } F := by
  obtain ⟨hb, hq, hlen, hbuf⟩ := h
  simp only [List.length_cons] at hlen
  have hlt : s.nextOut < s.nextIn := by rw [hlen]; omega
  refine ⟨?_, ?_⟩
  · have hc : s.cmdBuf s.nextOut = c := by
      have h0 := hbuf 0 (by simp)
      simpa using h0
    rw [readLoop.eq_def]
    simp [hlt, hc]
  · refine ⟨hb, hq, ?_, ?_⟩
    · show s.nextIn = s.nextOut + 1 + F.length
      rw [hlen]; omega
    · intro i hi
      have h1 := hbuf (i + 1) (by simp; omega)
      have heq : s.nextOut + (i + 1) = s.nextOut + 1 + i := by omega
      rw [heq] at h1
      simpa using h1

/-- A flushing state whose queue is exhausted is a matching state for the
idle configuration (the leftover buffer content is discarded by the reset
at the start of the next read). -/
theorem flushing_nil_matching (s : State) (h : Flushing s []) :
    Matching s CmdState.CMD_WAIT (pText s) := by
  obtain ⟨hb, hq, hlen, _⟩ := h
  simp only [List.length_nil, Nat.add_zero] at hlen
  refine ⟨hb, hq, by simp [pText], by simp [pText, hlen], ?_⟩
  intro i hi
  simp only [pText, List.length_map, List.length_range] at hi
  rw [List.getD_eq_getElem _ _ (by simp [pText, hi])]
  simp [pText, hi]

/-- Concrete effect of one advanceIf-driven branch of the read() loop,
from a matching state: on the wanted byte the machine advances, still in
matching mode with the byte appended to the pending buffer; on any other
byte the buffer plus that byte become the flush queue, whose head is
returned at once. -/
theorem advance_case (s : State) (q next : CmdState) (P : List Nat) (c want : Nat)
    (rest : List Nat) (h : Matching s q P)
    (hbranch : readLoop s (c :: rest) = readLoop (advanceIf (store s c) want next) rest) :
    (c = want → ∃ s3, readLoop s (c :: rest) = readLoop s3 rest ∧ Matching s3 next (P ++ [c])) ∧
    (c ≠ want → ∃ b F s1, P ++ [c] = b :: F ∧
      readLoop s (c :: rest) = ((b : Int), s1, rest) ∧ Flushing s1 F) := by
  obtain ⟨hb, hq, hIn, hOut, hbuf⟩ := h
  constructor
  · intro hc
    have hadv : advanceIf (store s c) want next =
        { s with cmdBuf := Function.update s.cmdBuf s.nextIn c,
                 maxStoreIdx := max s.maxStoreIdx s.nextIn,
                 nextIn := s.nextIn + 1, nextOut := s.nextIn + 1, cmdState := next } := by
      unfold advanceIf store
      simp [hc]
    refine ⟨_, hbranch, ?_⟩
    rw [hadv]
    refine ⟨hb, rfl, by simp [hIn], by simp [hIn], ?_⟩
    intro i hi
    simp only [List.length_append, List.length_cons, List.length_nil] at hi
    by_cases hip : i = P.length
    · subst hip
      rw [getD_concat]
      show Function.update s.cmdBuf s.nextIn c P.length = c
      rw [hIn, Function.update_same]
    · have hilt : i < P.length := by omega
      rw [List.getD_append _ _ _ _ hilt]
      show Function.update s.cmdBuf s.nextIn c i = P.getD i 0
      rw [Function.update_noteq (by omega : i ≠ s.nextIn)]
      exact hbuf i hilt
  · intro hc
    have hadv : advanceIf (store s c) want next =
        { s with cmdBuf := Function.update s.cmdBuf s.nextIn c,
                 maxStoreIdx := max s.maxStoreIdx s.nextIn,
                 nextIn := s.nextIn + 1, nextOut := 0, cmdState := CmdState.CMD_WAIT } := by
      unfold advanceIf store
      simp [hc]
    have hflush : Flushing (advanceIf (store s c) want next) (P ++ [c]) := by
      rw [hadv]
      refine ⟨hb, rfl, by simp [hIn], ?_⟩
      intro i hi
      simp only [List.length_append, List.length_cons, List.length_nil] at hi
      show Function.update s.cmdBuf s.nextIn c (0 + i) = (P ++ [c]).getD i 0
      rw [Nat.zero_add]
      by_cases hip : i = P.length
      · subst hip
        rw [show P.length = s.nextIn from hIn.symm, Function.update_same, hIn, getD_concat]
      · have hilt : i < P.length := by omega
        rw [Function.update_noteq (by omega : i ≠ s.nextIn),
          List.getD_append _ _ _ _ hilt]
        exact hbuf i hilt
    have hPc : ∃ b F, P ++ [c] = b :: F := by
      cases P with
      | nil => exact ⟨c, [], rfl⟩
      | cons p0 P' => exact ⟨p0, P' ++ [c], rfl⟩
    obtain ⟨b, F, hbF⟩ := hPc
    rw [hbF] at hflush
    obtain ⟨hret, hfl'⟩ := readLoop_flush _ b F rest hflush
    refine ⟨b, F, _, hbF, ?_, hfl'⟩
    rw [hbranch]
    exact hret

/-- One consumed byte, from a matching state: the concrete loop either
advances silently to another matching state, emits the head of a flush
queue, or signals the close, in exact agreement with `stepAbs`. -/
theorem readLoop_step (s : State) (q : CmdState) (P : List Nat) (c : Nat) (rest : List Nat)
    (h : Matching s q P) :
    (∃ q1 P1, stepAbs q P c = StepOut.cont [] q1 P1 ∧ P1.length ≤ wqp q P + 1 ∧
      ∃ s3, readLoop s (c :: rest) = readLoop s3 rest ∧ Matching s3 q1 P1) ∨
    (∃ b F, stepAbs q P c = StepOut.cont (b :: F) CmdState.CMD_WAIT [] ∧
      F.length + 1 ≤ wqp q P + 1 ∧
      ∃ s1, readLoop s (c :: rest) = ((b : Int), s1, rest) ∧ Flushing s1 F) ∨
    (stepAbs q P c = StepOut.closed ∧
      ∃ s1, readLoop s (c :: rest) = (READ_CLOSED, s1, rest)) := by
  obtain ⟨hb, hq, hIn, hOut, hbuf⟩ := h
  have hnf : ¬ s.nextOut < s.nextIn := by rw [hIn, hOut]; omega
  cases q with
  | CMD_WAIT =>
    have hri : resetIfIdle s = { s with nextIn := 0, nextOut := 0 } := by
      unfold resetIfIdle; rw [hq]; simp
    by_cases h10 : c = 10
    · have hstepeq : readLoop s (c :: rest) = readLoop { s with cmdBuf := Function.update s.cmdBuf 0 c, maxStoreIdx := max s.maxStoreIdx 0, nextIn := 1, nextOut := 1, cmdState := CmdState.CMD_NL } rest := by
        rw [readLoop.eq_def]
        simp [if_neg hnf, hri, hq, store, Function.update_same, h10]
      refine Or.inl ⟨CmdState.CMD_NL, [c], by simp [stepAbs, h10], by simp [wqp], _, hstepeq, ?_⟩
      · refine ⟨hb, rfl, by simp, by simp, ?_⟩
        intro i hi
        simp only [List.length_cons, List.length_nil] at hi
        have hi0 : i = 0 := by omega
        subst hi0
        show Function.update s.cmdBuf 0 c 0 = [c].getD 0 0
        simp
    · by_cases h48 : c = 48
      · have hstepeq : readLoop s (c :: rest) = readLoop { s with cmdBuf := Function.update s.cmdBuf 0 c, maxStoreIdx := max s.maxStoreIdx 0, nextIn := 1, nextOut := 1, cmdState := CmdState.CMD_0 } rest := by
          rw [readLoop.eq_def]
          simp [if_neg hnf, hri, hq, store, Function.update_same, h10, h48]
        refine Or.inl ⟨CmdState.CMD_0, [c], by simp [stepAbs, h10, h48], by simp [wqp], _, hstepeq, ?_⟩
        · refine ⟨hb, rfl, by simp, by simp, ?_⟩
          intro i hi
          simp only [List.length_cons, List.length_nil] at hi
          have hi0 : i = 0 := by omega
          subst hi0
          show Function.update s.cmdBuf 0 c 0 = [c].getD 0 0
          simp
      · have hfl0 : Flushing { s with cmdBuf := Function.update s.cmdBuf 0 c, maxStoreIdx := max s.maxStoreIdx 0, nextIn := 1, nextOut := 0, cmdState := CmdState.CMD_WAIT } [c] := by
          refine ⟨hb, rfl, by simp, ?_⟩
          intro i hi
          simp only [List.length_cons, List.length_nil] at hi
          have hi0 : i = 0 := by omega
          subst hi0
          show Function.update s.cmdBuf 0 c (0 + 0) = [c].getD 0 0
          simp
        obtain ⟨hret, hfl'⟩ := readLoop_flush _ c [] rest hfl0
        have hstep : readLoop s (c :: rest) = readLoop { s with cmdBuf := Function.update s.cmdBuf 0 c, maxStoreIdx := max s.maxStoreIdx 0, nextIn := 1, nextOut := 0, cmdState := CmdState.CMD_WAIT } rest := by
          rw [readLoop.eq_def]
          simp [if_neg hnf, hri, hq, store, Function.update_same, h10, h48]
        refine Or.inr (Or.inl ⟨c, [], by simp [stepAbs, h10, h48], by simp [wqp], _, ?_, hfl'⟩)
        rw [hstep]
        exact hret
  | CMD_NL =>
    have hbranch : readLoop s (c :: rest) =
        readLoop (advanceIf (store s c) 43 CmdState.CMD_PLUS) rest := by
      rw [readLoop.eq_def]
      simp [if_neg hnf, resetIfIdle, hq, store]
    have hac := advance_case s CmdState.CMD_NL CmdState.CMD_PLUS P c 43 rest
      ⟨hb, hq, hIn, hOut, hbuf⟩ hbranch
    by_cases hc : c = 43
    · obtain ⟨s3, hstep, hm3⟩ := hac.1 hc
      exact Or.inl ⟨CmdState.CMD_PLUS, P ++ [c], by simp [stepAbs, hc],
        by simp [wqp], s3, hstep, hm3⟩
    · obtain ⟨b, F, s1, hbF, hret, hfl⟩ := hac.2 hc
      refine Or.inr (Or.inl ⟨b, F, ?_, ?_, s1, hret, hfl⟩)
      · rw [show stepAbs CmdState.CMD_NL P c = StepOut.cont (P ++ [c]) CmdState.CMD_WAIT []
          from by simp [stepAbs, hc], hbF]
      · have hlen := congrArg List.length hbF
        simp only [List.length_append, List.length_cons, List.length_nil] at hlen
        simp only [wqp, reduceCtorEq, if_false]
        omega
  | CMD_PLUS =>
    have hbranch : readLoop s (c :: rest) =
        readLoop (advanceIf (store s c) 73 CmdState.CMD_I) rest := by
      rw [readLoop.eq_def]
      simp [if_neg hnf, resetIfIdle, hq, store]
    have hac := advance_case s CmdState.CMD_PLUS CmdState.CMD_I P c 73 rest
      ⟨hb, hq, hIn, hOut, hbuf⟩ hbranch
    by_cases hc : c = 73
    · obtain ⟨s3, hstep, hm3⟩ := hac.1 hc
      exact Or.inl ⟨CmdState.CMD_I, P ++ [c], by simp [stepAbs, hc],
        by simp [wqp], s3, hstep, hm3⟩
    · obtain ⟨b, F, s1, hbF, hret, hfl⟩ := hac.2 hc
      refine Or.inr (Or.inl ⟨b, F, ?_, ?_, s1, hret, hfl⟩)
      · rw [show stepAbs CmdState.CMD_PLUS P c = StepOut.cont (P ++ [c]) CmdState.CMD_WAIT []
          from by simp [stepAbs, hc], hbF]
      · have hlen := congrArg List.length hbF
        simp only [List.length_append, List.length_cons, List.length_nil] at hlen
        simp only [wqp, reduceCtorEq, if_false]
        omega
  | CMD_I =>
    have hbranch : readLoop s (c :: rest) =
        readLoop (advanceIf (store s c) 80 CmdState.CMD_P) rest := by
      rw [readLoop.eq_def]
      simp [if_neg hnf, resetIfIdle, hq, store]
    have hac := advance_case s CmdState.CMD_I CmdState.CMD_P P c 80 rest
      ⟨hb, hq, hIn, hOut, hbuf⟩ hbranch
    by_cases hc : c = 80
    · obtain ⟨s3, hstep, hm3⟩ := hac.1 hc
      exact Or.inl ⟨CmdState.CMD_P, P ++ [c], by simp [stepAbs, hc],
        by simp [wqp], s3, hstep, hm3⟩
    · obtain ⟨b, F, s1, hbF, hret, hfl⟩ := hac.2 hc
      refine Or.inr (Or.inl ⟨b, F, ?_, ?_, s1, hret, hfl⟩)
      · rw [show stepAbs CmdState.CMD_I P c = StepOut.cont (P ++ [c]) CmdState.CMD_WAIT []
          from by simp [stepAbs, hc], hbF]
      · have hlen := congrArg List.length hbF
        simp only [List.length_append, List.length_cons, List.length_nil] at hlen
        simp only [wqp, reduceCtorEq, if_false]
        omega
  | CMD_P =>
    have hbranch : readLoop s (c :: rest) =
        readLoop (advanceIf (store s c) 68 CmdState.CMD_D) rest := by
      rw [readLoop.eq_def]
      simp [if_neg hnf, resetIfIdle, hq, store]
    have hac := advance_case s CmdState.CMD_P CmdState.CMD_D P c 68 rest
      ⟨hb, hq, hIn, hOut, hbuf⟩ hbranch
    by_cases hc : c = 68
    · obtain ⟨s3, hstep, hm3⟩ := hac.1 hc
      exact Or.inl ⟨CmdState.CMD_D, P ++ [c], by simp [stepAbs, hc],
        by simp [wqp], s3, hstep, hm3⟩
    · obtain ⟨b, F, s1, hbF, hret, hfl⟩ := hac.2 hc
      refine Or.inr (Or.inl ⟨b, F, ?_, ?_, s1, hret, hfl⟩)
      · rw [show stepAbs CmdState.CMD_P P c = StepOut.cont (P ++ [c]) CmdState.CMD_WAIT []
          from by simp [stepAbs, hc], hbF]
      · have hlen := congrArg List.length hbF
        simp only [List.length_append, List.length_cons, List.length_nil] at hlen
        simp only [wqp, reduceCtorEq, if_false]
        omega
  | CMD_D =>
    have hbranch : readLoop s (c :: rest) =
        readLoop (advanceIf (store s c) 44 CmdState.CMD_COMMA) rest := by
      rw [readLoop.eq_def]
      simp [if_neg hnf, resetIfIdle, hq, store]
    have hac := advance_case s CmdState.CMD_D CmdState.CMD_COMMA P c 44 rest
      ⟨hb, hq, hIn, hOut, hbuf⟩ hbranch
    by_cases hc : c = 44
    · obtain ⟨s3, hstep, hm3⟩ := hac.1 hc
      exact Or.inl ⟨CmdState.CMD_COMMA, P ++ [c], by simp [stepAbs, hc],
        by simp [wqp], s3, hstep, hm3⟩
    · obtain ⟨b, F, s1, hbF, hret, hfl⟩ := hac.2 hc
      refine Or.inr (Or.inl ⟨b, F, ?_, ?_, s1, hret, hfl⟩)
      · rw [show stepAbs CmdState.CMD_D P c = StepOut.cont (P ++ [c]) CmdState.CMD_WAIT []
          from by simp [stepAbs, hc], hbF]
      · have hlen := congrArg List.length hbF
        simp only [List.length_append, List.length_cons, List.length_nil] at hlen
        simp only [wqp, reduceCtorEq, if_false]
        omega
  | CMD_COMMA =>
    by_cases hc : c = 58
    · subst hc
      have hstepeq : readLoop s (58 :: rest) = readLoop { s with cmdBuf := Function.update s.cmdBuf s.nextIn 58, maxStoreIdx := max s.maxStoreIdx s.nextIn, nextIn := 0, nextOut := 0, cmdState := CmdState.CMD_WAIT } rest := by
        rw [readLoop.eq_def]
        simp [if_neg hnf, resetIfIdle, hq, store, Function.update_same]
      refine Or.inl ⟨CmdState.CMD_WAIT, [], by simp [stepAbs], by simp, _, hstepeq, ?_⟩
      exact ⟨hb, rfl, by simp, by simp, by intro i hi; simp at hi⟩
    · have hbranch : readLoop s (c :: rest) =
          readLoop (advanceIf (store s c) c CmdState.CMD_COMMA) rest := by
        rw [readLoop.eq_def]
        simp [if_neg hnf, resetIfIdle, hq, store, advanceIf, Function.update_same, hc]
      have hac := advance_case s CmdState.CMD_COMMA CmdState.CMD_COMMA P c c rest
        ⟨hb, hq, hIn, hOut, hbuf⟩ hbranch
      obtain ⟨s3, hstep, hm3⟩ := hac.1 rfl
      exact Or.inl ⟨CmdState.CMD_COMMA, P ++ [c], by simp [stepAbs, hc],
        by simp [wqp], s3, hstep, hm3⟩
  | CMD_0 =>
    have hbranch : readLoop s (c :: rest) =
        readLoop (advanceIf (store s c) 44 CmdState.CMD_0_) rest := by
      rw [readLoop.eq_def]
      simp [if_neg hnf, resetIfIdle, hq, store]
    have hac := advance_case s CmdState.CMD_0 CmdState.CMD_0_ P c 44 rest
      ⟨hb, hq, hIn, hOut, hbuf⟩ hbranch
    by_cases hc : c = 44
    · obtain ⟨s3, hstep, hm3⟩ := hac.1 hc
      exact Or.inl ⟨CmdState.CMD_0_, P ++ [c], by simp [stepAbs, hc],
        by simp [wqp], s3, hstep, hm3⟩
    · obtain ⟨b, F, s1, hbF, hret, hfl⟩ := hac.2 hc
      refine Or.inr (Or.inl ⟨b, F, ?_, ?_, s1, hret, hfl⟩)
      · rw [show stepAbs CmdState.CMD_0 P c = StepOut.cont (P ++ [c]) CmdState.CMD_WAIT []
          from by simp [stepAbs, hc], hbF]
      · have hlen := congrArg List.length hbF
        simp only [List.length_append, List.length_cons, List.length_nil] at hlen
        simp only [wqp, reduceCtorEq, if_false]
        omega
  | CMD_0_ =>
    have hbranch : readLoop s (c :: rest) =
        readLoop (advanceIf (store s c) 67 CmdState.CMD_0_C) rest := by
      rw [readLoop.eq_def]
      simp [if_neg hnf, resetIfIdle, hq, store]
    have hac := advance_case s CmdState.CMD_0_ CmdState.CMD_0_C P c 67 rest
      ⟨hb, hq, hIn, hOut, hbuf⟩ hbranch
    by_cases hc : c = 67
    · obtain ⟨s3, hstep, hm3⟩ := hac.1 hc
      exact Or.inl ⟨CmdState.CMD_0_C, P ++ [c], by simp [stepAbs, hc],
        by simp [wqp], s3, hstep, hm3⟩
    · obtain ⟨b, F, s1, hbF, hret, hfl⟩ := hac.2 hc
      refine Or.inr (Or.inl ⟨b, F, ?_, ?_, s1, hret, hfl⟩)
      · rw [show stepAbs CmdState.CMD_0_ P c = StepOut.cont (P ++ [c]) CmdState.CMD_WAIT []
          from by simp [stepAbs, hc], hbF]
      · have hlen := congrArg List.length hbF
        simp only [List.length_append, List.length_cons, List.length_nil] at hlen
        simp only [wqp, reduceCtorEq, if_false]
        omega
  | CMD_0_C =>
    have hbranch : readLoop s (c :: rest) =
        readLoop (advanceIf (store s c) 76 CmdState.CMD_0_CL) rest := by
      rw [readLoop.eq_def]
      simp [if_neg hnf, resetIfIdle, hq, store]
    have hac := advance_case s CmdState.CMD_0_C CmdState.CMD_0_CL P c 76 rest
      ⟨hb, hq, hIn, hOut, hbuf⟩ hbranch
    by_cases hc : c = 76
    · obtain ⟨s3, hstep, hm3⟩ := hac.1 hc
      exact Or.inl ⟨CmdState.CMD_0_CL, P ++ [c], by simp [stepAbs, hc],
        by simp [wqp], s3, hstep, hm3⟩
    · obtain ⟨b, F, s1, hbF, hret, hfl⟩ := hac.2 hc
      refine Or.inr (Or.inl ⟨b, F, ?_, ?_, s1, hret, hfl⟩)
      · rw [show stepAbs CmdState.CMD_0_C P c = StepOut.cont (P ++ [c]) CmdState.CMD_WAIT []
          from by simp [stepAbs, hc], hbF]
      · have hlen := congrArg List.length hbF
        simp only [List.length_append, List.length_cons, List.length_nil] at hlen
        simp only [wqp, reduceCtorEq, if_false]
        omega
  | CMD_0_CL =>
    have hbranch : readLoop s (c :: rest) =
        readLoop (advanceIf (store s c) 79 CmdState.CMD_0_CLO) rest := by
      rw [readLoop.eq_def]
      simp [if_neg hnf, resetIfIdle, hq, store]
    have hac := advance_case s CmdState.CMD_0_CL CmdState.CMD_0_CLO P c 79 rest
      ⟨hb, hq, hIn, hOut, hbuf⟩ hbranch
    by_cases hc : c = 79
    · obtain ⟨s3, hstep, hm3⟩ := hac.1 hc
      exact Or.inl ⟨CmdState.CMD_0_CLO, P ++ [c], by simp [stepAbs, hc],
        by simp [wqp], s3, hstep, hm3⟩
    · obtain ⟨b, F, s1, hbF, hret, hfl⟩ := hac.2 hc
      refine Or.inr (Or.inl ⟨b, F, ?_, ?_, s1, hret, hfl⟩)
      · rw [show stepAbs CmdState.CMD_0_CL P c = StepOut.cont (P ++ [c]) CmdState.CMD_WAIT []
          from by simp [stepAbs, hc], hbF]
      · have hlen := congrArg List.length hbF
        simp only [List.length_append, List.length_cons, List.length_nil] at hlen
        simp only [wqp, reduceCtorEq, if_false]
        omega
  | CMD_0_CLO =>
    have hbranch : readLoop s (c :: rest) =
        readLoop (advanceIf (store s c) 83 CmdState.CMD_0_CLOS) rest := by
      rw [readLoop.eq_def]
      simp [if_neg hnf, resetIfIdle, hq, store]
    have hac := advance_case s CmdState.CMD_0_CLO CmdState.CMD_0_CLOS P c 83 rest
      ⟨hb, hq, hIn, hOut, hbuf⟩ hbranch
    by_cases hc : c = 83
    · obtain ⟨s3, hstep, hm3⟩ := hac.1 hc
      exact Or.inl ⟨CmdState.CMD_0_CLOS, P ++ [c], by simp [stepAbs, hc],
        by simp [wqp], s3, hstep, hm3⟩
    · obtain ⟨b, F, s1, hbF, hret, hfl⟩ := hac.2 hc
      refine Or.inr (Or.inl ⟨b, F, ?_, ?_, s1, hret, hfl⟩)
      · rw [show stepAbs CmdState.CMD_0_CLO P c = StepOut.cont (P ++ [c]) CmdState.CMD_WAIT []
          from by simp [stepAbs, hc], hbF]
      · have hlen := congrArg List.length hbF
        simp only [List.length_append, List.length_cons, List.length_nil] at hlen
        simp only [wqp, reduceCtorEq, if_false]
        omega
  | CMD_0_CLOS =>
    have hbranch : readLoop s (c :: rest) =
        readLoop (advanceIf (store s c) 69 CmdState.CMD_0_CLOSE) rest := by
      rw [readLoop.eq_def]
      simp [if_neg hnf, resetIfIdle, hq, store]
    have hac := advance_case s CmdState.CMD_0_CLOS CmdState.CMD_0_CLOSE P c 69 rest
      ⟨hb, hq, hIn, hOut, hbuf⟩ hbranch
    by_cases hc : c = 69
    · obtain ⟨s3, hstep, hm3⟩ := hac.1 hc
      exact Or.inl ⟨CmdState.CMD_0_CLOSE, P ++ [c], by simp [stepAbs, hc],
        by simp [wqp], s3, hstep, hm3⟩
    · obtain ⟨b, F, s1, hbF, hret, hfl⟩ := hac.2 hc
      refine Or.inr (Or.inl ⟨b, F, ?_, ?_, s1, hret, hfl⟩)
      · rw [show stepAbs CmdState.CMD_0_CLOS P c = StepOut.cont (P ++ [c]) CmdState.CMD_WAIT []
          from by simp [stepAbs, hc], hbF]
      · have hlen := congrArg List.length hbF
        simp only [List.length_append, List.length_cons, List.length_nil] at hlen
        simp only [wqp, reduceCtorEq, if_false]
        omega
  | CMD_0_CLOSE =>
    by_cases hc : c = 68
    · refine Or.inr (Or.inr ⟨by simp [stepAbs, hc], store s c, ?_⟩)
      rw [readLoop.eq_def]
      simp [if_neg hnf, resetIfIdle, hq, store, Function.update_same, hc]
    · have hbranch : readLoop s (c :: rest) =
          readLoop (advanceIf (store s c) 68 CmdState.CMD_0_CLOSE) rest := by
        rw [readLoop.eq_def]
        simp [if_neg hnf, resetIfIdle, hq, store, advanceIf, Function.update_same, hc]
      have hac := advance_case s CmdState.CMD_0_CLOSE CmdState.CMD_0_CLOSE P c 68 rest
        ⟨hb, hq, hIn, hOut, hbuf⟩ hbranch
      obtain ⟨b, F, s1, hbF, hret, hfl⟩ := hac.2 hc
      refine Or.inr (Or.inl ⟨b, F, ?_, ?_, s1, hret, hfl⟩)
      · rw [show stepAbs CmdState.CMD_0_CLOSE P c = StepOut.cont (P ++ [c]) CmdState.CMD_WAIT []
          from by simp [stepAbs, hc], hbF]
      · have hlen := congrArg List.length hbF
        simp only [List.length_append, List.length_cons, List.length_nil] at hlen
        simp only [wqp, reduceCtorEq, if_false]
        omega

/-- One full read() call from a matching state, against the abstract
run: it either times out with the source drained and nothing emitted,
reports the close, or emits one byte leaving a flush queue, and in each
case the abstract run of the same input agrees. -/
theorem readLoop_matching : ∀ (input : List Nat) (q : CmdState) (P : List Nat) (s : State),
    Matching s q P →
    (∃ s1, readLoop s input = (READ_TIMEOUT, s1, []) ∧
      (runAbs q P input).out = [] ∧ (runAbs q P input).isClosed = false) ∨
    (∃ s1 rem, readLoop s input = (READ_CLOSED, s1, rem) ∧
      (runAbs q P input).out = [] ∧ (runAbs q P input).isClosed = true ∧
      (runAbs q P input).rem = rem) ∨
    (∃ (b : Nat) (F : List Nat) (s1 : State) (rem : List Nat),
      readLoop s input = ((b : Int), s1, rem) ∧ Flushing s1 F ∧
      rem.length < input.length ∧ F.length + 1 ≤ wqp q P + (input.length - rem.length) ∧
      (runAbs q P input).out = b :: (F ++ (runAbs CmdState.CMD_WAIT [] rem).out) ∧
      (runAbs q P input).isClosed = (runAbs CmdState.CMD_WAIT [] rem).isClosed ∧
      (runAbs q P input).rem = (runAbs CmdState.CMD_WAIT [] rem).rem) := by
  intro input
  induction input with
  | nil =>
    intro q P s h
    obtain ⟨hb, hq, hIn, hOut, hbuf⟩ := h
    have hnf : ¬ s.nextOut < s.nextIn := by rw [hIn, hOut]; omega
    refine Or.inl ⟨resetIfIdle s, ?_, rfl, rfl⟩
    rw [readLoop.eq_def]
    simp [if_neg hnf]
  | cons c rest ih =>
    intro q P s h
    rcases readLoop_step s q P c rest h with
      ⟨q1, P1, hs, hlen1, s3, hstep, hm3⟩ | ⟨b, F, hs, hlenF, s1, hret, hfl⟩ | ⟨hs, s1, hret⟩
    · rcases ih q1 P1 s3 hm3 with
        ⟨s2, heq, hout, hcl⟩ | ⟨s2, rem, heq, hout, hcl, hrem⟩ |
        ⟨b, F, s2, rem, heq, hfl, hlt, hbd, hout, hcl, hrem⟩
      · refine Or.inl ⟨s2, by rw [hstep]; exact heq, ?_, ?_⟩
        · simp [runAbs, hs, hout]
        · simp [runAbs, hs, hcl]
      · refine Or.inr (Or.inl ⟨s2, rem, by rw [hstep]; exact heq, ?_, ?_, ?_⟩)
        · simp [runAbs, hs, hout]
        · simp [runAbs, hs, hcl]
        · simp [runAbs, hs, hrem]
      · refine Or.inr (Or.inr ⟨b, F, s2, rem, by rw [hstep]; exact heq, hfl, ?_, ?_, ?_, ?_, ?_⟩)
        · simp only [List.length_cons]
          omega
        · have hw : wqp q1 P1 ≤ P1.length := by
            unfold wqp
            split <;> omega
          simp only [List.length_cons]
          omega
        · simp [runAbs, hs, hout]
        · simp [runAbs, hs, hcl]
        · simp [runAbs, hs, hrem]
    · refine Or.inr (Or.inr ⟨b, F, s1, rest, hret, hfl, by simp, ?_, ?_, ?_, ?_⟩)
      · simp only [List.length_cons]
        omega
      · simp [runAbs, hs]
      · simp [runAbs, hs]
      · simp [runAbs, hs]
    · refine Or.inr (Or.inl ⟨s1, rest, hret, ?_, ?_, ?_⟩) <;> simp [runAbs, hs]

/-- From the idle state the abstract run's observable components do not
depend on the (discarded) pending list. -/
theorem runAbs_wait_irrel (input : List Nat) (P : List Nat) :
    (runAbs CmdState.CMD_WAIT P input).out = (runAbs CmdState.CMD_WAIT [] input).out ∧
    (runAbs CmdState.CMD_WAIT P input).isClosed =
      (runAbs CmdState.CMD_WAIT [] input).isClosed ∧
    (runAbs CmdState.CMD_WAIT P input).rem = (runAbs CmdState.CMD_WAIT [] input).rem := by
  cases input with
  | nil => exact ⟨rfl, rfl, rfl⟩
  | cons c rest =>
    have hstep : stepAbs CmdState.CMD_WAIT P c = stepAbs CmdState.CMD_WAIT [] c := rfl
    rcases hs : stepAbs CmdState.CMD_WAIT [] c with ⟨out, q1, P1⟩ | _
    · have hsP := hstep.trans hs
      simp [runAbs, hs, hsP]
    · have hsP := hstep.trans hs
      simp [runAbs, hs, hsP]

theorem wqp_wait (P : List Nat) : wqp CmdState.CMD_WAIT P = 0 := by simp [wqp]

/-- Correspondence between the driver `readAll` over the concrete state
machine and the abstract run, for matching states (first conjunct) and
flushing states (second conjunct), by strong induction on a combined
measure of remaining input and pending/flush bytes. -/
theorem corr_both : ∀ n : Nat,
    (∀ (input : List Nat) (q : CmdState) (P : List Nat) (s : State) (fuel : Nat),
      Matching s q P → 2 * input.length + wqp q P + 2 ≤ n →
      input.length + wqp q P + 1 ≤ fuel →
      (readAll fuel s input).1 = (runAbs q P input).out ∧
      (readAll fuel s input).2.1 = resOf (runAbs q P input).isClosed ∧
      (readAll fuel s input).2.2.2 = (runAbs q P input).rem) ∧
    (∀ (input F : List Nat) (s : State) (fuel : Nat),
      Flushing s F → F ≠ [] → 2 * input.length + F.length + 2 ≤ n →
      input.length + F.length + 1 ≤ fuel →
      (readAll fuel s input).1 = F ++ (runAbs CmdState.CMD_WAIT [] input).out ∧
      (readAll fuel s input).2.1 = resOf (runAbs CmdState.CMD_WAIT [] input).isClosed ∧
      (readAll fuel s input).2.2.2 = (runAbs CmdState.CMD_WAIT [] input).rem) := by
  intro n
  induction n using Nat.strong_induction_on with
  | _ n ih =>
  constructor
  · intro input q P s fuel hm hn hfuel
    cases fuel with
    | zero => omega
    | succ fuel =>
    have hbegun : s.begun = true := hm.1
    rcases readLoop_matching input q P s hm with
      ⟨s1, heq, hout, hcl⟩ | ⟨s1, rem, heq, hout, hcl, hrem⟩ |
      ⟨b, F, s1, rem, heq, hfl, hlt, hbd, hout, hcl, hrem⟩
    · have hread : read s input = (READ_TIMEOUT, s1, []) := by
        rw [read, if_pos hbegun]; exact heq
      have hres : readAll (fuel + 1) s input = ([], READ_TIMEOUT, s1, []) := by
        simp [readAll, hread, READ_TIMEOUT]
      rw [hres]
      refine ⟨hout.symm, ?_, ?_⟩
      · rw [hcl]; rfl
      · rw [runAbs_rem_nil input q P hcl]
    · have hread : read s input = (READ_CLOSED, s1, rem) := by
        rw [read, if_pos hbegun]; exact heq
      have hres : readAll (fuel + 1) s input = ([], READ_CLOSED, s1, rem) := by
        simp [readAll, hread, READ_CLOSED]
      rw [hres]
      refine ⟨hout.symm, ?_, hrem.symm⟩
      rw [hcl]; rfl
    · have hread : read s input = ((b : Int), s1, rem) := by
        rw [read, if_pos hbegun]; exact heq
      have hblt : ¬ ((b : Int) < 0) := by omega
      have hres : readAll (fuel + 1) s input =
          (b :: (readAll fuel s1 rem).1, (readAll fuel s1 rem).2.1,
           (readAll fuel s1 rem).2.2.1, (readAll fuel s1 rem).2.2.2) := by
        simp [readAll, hread, hblt]
      have hwle : wqp q P ≤ P.length := by
        unfold wqp; split <;> omega
      by_cases hF : F = []
      · subst hF
        have hm1 := flushing_nil_matching s1 hfl
        have htail := (ih (n - 1) (by omega)).1 rem CmdState.CMD_WAIT (pText s1) s1 fuel hm1
          (by simp only [wqp_wait]; omega) (by simp only [wqp_wait]; omega)
        obtain ⟨hw1, hw2, hw3⟩ := runAbs_wait_irrel rem (pText s1)
        rw [hres]
        refine ⟨?_, ?_, ?_⟩
        · rw [hout]
          simp only [List.nil_append]
          rw [htail.1, hw1]
        · rw [htail.2.1, hw2, hcl]
        · rw [htail.2.2, hw3, hrem]
      · have htail := (ih (n - 1) (by omega)).2 rem F s1 fuel hfl hF
          (by omega) (by omega)
        rw [hres]
        refine ⟨?_, ?_, ?_⟩
        · rw [hout, htail.1]
        · rw [htail.2.1, hcl]
        · rw [htail.2.2, hrem]
  · intro input F s fuel hfl hFne hn hfuel
    cases F with
    | nil => exact absurd rfl hFne
    | cons c F' =>
    cases fuel with
    | zero => simp only [List.length_cons] at hn hfuel; omega
    | succ fuel =>
    obtain ⟨hret, hfl'⟩ := readLoop_flush s c F' input hfl
    have hbegun : s.begun = true := hfl.1
    have hread : read s input = ((c : Int), { s with nextOut := s.nextOut + 1 }, input) := by
      rw [read, if_pos hbegun]; exact hret
    have hblt : ¬ ((c : Int) < 0) := by omega
    have hres : readAll (fuel + 1) s input =
        (c :: (readAll fuel { s with nextOut := s.nextOut + 1 } input).1,
         (readAll fuel { s with nextOut := s.nextOut + 1 } input).2.1,
         (readAll fuel { s with nextOut := s.nextOut + 1 } input).2.2.1,
         (readAll fuel { s with nextOut := s.nextOut + 1 } input).2.2.2) := by
      simp [readAll, hread, hblt]
    simp only [List.length_cons] at hn hfuel
    by_cases hF' : F' = []
    · subst hF'
      have hm1 := flushing_nil_matching _ hfl'
      have htail := (ih (n - 1) (by omega)).1 input CmdState.CMD_WAIT
        (pText { s with nextOut := s.nextOut + 1 }) { s with nextOut := s.nextOut + 1 } fuel hm1
        (by simp only [wqp_wait]; omega) (by simp only [wqp_wait]; omega)
      obtain ⟨hw1, hw2, hw3⟩ := runAbs_wait_irrel input (pText { s with nextOut := s.nextOut + 1 })
      rw [hres]
      refine ⟨?_, ?_, ?_⟩
      · rw [htail.1, hw1]
        simp
      · rw [htail.2.1, hw2]
      · rw [htail.2.2, hw3]
    · have htail := (ih (n - 1) (by omega)).2 input F' { s with nextOut := s.nextOut + 1 } fuel
        hfl' hF' (by omega) (by omega)
      rw [hres]
      refine ⟨?_, ?_, ?_⟩
      · rw [htail.1]
        simp
      · rw [htail.2.1]
      · rw [htail.2.2]

/-- Public correspondence: driving read() repeatedly from a freshly
begun filter agrees with the abstract recognizer run. -/
theorem readAll_eq_runAbs (input : List Nat) (t : Nat) (fuel : Nat)
    (hfuel : input.length + 1 ≤ fuel) :
    (readAll fuel (begin t) input).1 = (runAbs CmdState.CMD_WAIT [] input).out ∧
    (readAll fuel (begin t) input).2.1 = resOf (runAbs CmdState.CMD_WAIT [] input).isClosed ∧
    (readAll fuel (begin t) input).2.2.2 = (runAbs CmdState.CMD_WAIT [] input).rem := by
  have hm : Matching (begin t) CmdState.CMD_WAIT [] := by
    refine ⟨rfl, rfl, rfl, rfl, ?_⟩
    intro i hi
    simp at hi
  exact (corr_both (2 * input.length + 2)).1 input CmdState.CMD_WAIT [] (begin t) fuel hm
    (by simp only [wqp_wait]; omega) (by simp only [wqp_wait]; omega)

theorem pText_length (s : State) : (pText s).length = s.nextIn := by
  simp [pText]

theorem pText_after_store (s u : State) (c : Nat)
    (hbuf : u.cmdBuf = Function.update s.cmdBuf s.nextIn c)
    (hIn : u.nextIn = s.nextIn + 1) :
    pText u = pText s ++ [c] := by
  unfold pText
  rw [hbuf, hIn, List.range_succ, List.map_append]
  congr 1
  · apply List.map_congr_left
    intro i hi
    rw [List.mem_range] at hi
    exact Function.update_noteq (by omega) _ _
  · simp

theorem pText_same_store (s u : State) (c : Nat)
    (hbuf : u.cmdBuf = Function.update s.cmdBuf s.nextIn c)
    (hIn : u.nextIn = s.nextIn) :
    pText u = pText s := by
  unfold pText
  rw [hbuf, hIn]
  apply List.map_congr_left
  intro i hi
  rw [List.mem_range] at hi
  exact Function.update_noteq (by omega) _ _

/-- Once the comma of "\n+IPD," has been absorbed together with `t`
colon-free bytes, an input satisfying `fieldShort` forces `t` to stay
within 13 bytes. -/
theorem comma_field_bound (t x : List Nat) (ht : 58 ∉ t) (hx : x ≠ [])
    (h : 58 ∈ (t ++ x).take 14 ∨ (t ++ x).length ≤ 14) : t.length ≤ 13 := by
  rcases h with h | h
  · by_contra hgt
    push_neg at hgt
    rw [List.take_append_of_le_length (by omega)] at h
    exact ht (List.take_subset _ _ h)
  · have hpos : 0 < x.length := List.length_pos.mpr hx
    simp only [List.length_append] at h
    omega

theorem cursorInv_advanceIf (s : State) (w : Nat) (N : CmdState) :
    CursorInv (advanceIf s w N) := by
  unfold advanceIf
  split
  · exact ⟨le_refl _, fun _ => rfl⟩
  · exact ⟨Nat.zero_le _, fun h => absurd rfl h⟩

/-- read() preserves the cursor invariant: the flush branch advances the
read cursor while it is still below the write cursor, and every state
written by the recognition branches restores `read = write` (matching) or
sets `read = 0 ≤ write` while entering the idle state (flushing). -/
theorem readLoop_cursorInv : ∀ (input : List Nat) (s : State),
    CursorInv s → CursorInv (readLoop s input).2.1 := by
  intro input
  induction input with
  | nil =>
    intro s h
    rw [readLoop.eq_def]
    by_cases hlt : s.nextOut < s.nextIn
    · simp only [if_pos hlt]
      refine ⟨?_, fun hne => ?_⟩
      · show s.nextOut + 1 ≤ s.nextIn
        omega
      · exact absurd (h.2 hne) (by omega)
    · simp only [if_neg hlt]
      unfold resetIfIdle
      by_cases hw : s.cmdState = CmdState.CMD_WAIT
      · simp only [if_pos hw]
        exact ⟨le_refl _, fun _ => rfl⟩
      · simp only [if_neg hw]
        exact h
  | cons c rest ih =>
    intro s h
    rw [readLoop.eq_def]
    by_cases hlt : s.nextOut < s.nextIn
    · simp only [if_pos hlt]
      refine ⟨?_, fun hne => ?_⟩
      · show s.nextOut + 1 ≤ s.nextIn
        omega
      · exact absurd (h.2 hne) (by omega)
    · simp only [if_neg hlt]
      have hcur1 : CursorInv (resetIfIdle s) := by
        unfold resetIfIdle
        by_cases hw : s.cmdState = CmdState.CMD_WAIT
        · simp only [if_pos hw]
          exact ⟨le_refl _, fun _ => rfl⟩
        · simp only [if_neg hw]
          exact h
      have hst : CursorInv (store (resetIfIdle s) c) := hcur1
      split
      · split
        · exact ih _ ⟨le_refl _, fun _ => rfl⟩
        · split
          · exact ih _ ⟨le_refl _, fun _ => rfl⟩
          · exact ih _ ⟨Nat.zero_le _, fun hne => absurd rfl hne⟩
      · exact ih _ (cursorInv_advanceIf _ _ _)
      · exact ih _ (cursorInv_advanceIf _ _ _)
      · exact ih _ (cursorInv_advanceIf _ _ _)
      · exact ih _ (cursorInv_advanceIf _ _ _)
      · exact ih _ (cursorInv_advanceIf _ _ _)
      · split
        · exact ih _ ⟨le_refl _, fun _ => rfl⟩
        · exact ih _ ⟨le_refl _, fun _ => rfl⟩
      · exact ih _ (cursorInv_advanceIf _ _ _)
      · exact ih _ (cursorInv_advanceIf _ _ _)
      · exact ih _ (cursorInv_advanceIf _ _ _)
      · exact ih _ (cursorInv_advanceIf _ _ _)
      · exact ih _ (cursorInv_advanceIf _ _ _)
      · exact ih _ (cursorInv_advanceIf _ _ _)
      · split
        · exact hst
        · exact ih _ ⟨Nat.zero_le _, fun hne => absurd rfl hne⟩

/-- read() keeps every buffer store within the 20-entry capacity
(indices 0..19) as long as the input satisfies `fieldShort`, and the
reachability invariant of the buffered bytes is preserved. -/
theorem readLoop_bound : ∀ (input : List Nat) (s : State),
    BufInv s → fieldShort (pSem s ++ input) →
    (readLoop s input).2.1.maxStoreIdx ≤ max s.maxStoreIdx 19 ∧
    BufInv (readLoop s input).2.1 ∧
    (0 ≤ (readLoop s input).1 →
      fieldShort (pSem (readLoop s input).2.1 ++ (readLoop s input).2.2)) := by
  intro input
  induction input with
  | nil =>
    intro s hbi hfs
    rw [readLoop.eq_def]
    by_cases hlt : s.nextOut < s.nextIn
    · simp only [if_pos hlt]
      refine ⟨?_, hbi, fun _ => hfs⟩
      show s.maxStoreIdx ≤ max s.maxStoreIdx 19
      omega
    · simp only [if_neg hlt]
      refine ⟨?_, ?_, ?_⟩
      · have hg : (resetIfIdle s).maxStoreIdx = s.maxStoreIdx := by
          unfold resetIfIdle; split <;> rfl
        rw [hg]
        omega
      · unfold resetIfIdle
        split
        · intro hne
          exact absurd (by assumption) hne
        · exact hbi
      · intro h0
        simp [READ_TIMEOUT] at h0
  | cons c rest ih =>
    intro s hbi hfs
    by_cases hlt : s.nextOut < s.nextIn
    · rw [readLoop.eq_def]
      simp only [if_pos hlt]
      refine ⟨?_, hbi, fun _ => hfs⟩
      show s.maxStoreIdx ≤ max s.maxStoreIdx 19
      omega
    · cases hcs : s.cmdState with
  | CMD_WAIT =>
    have hri : resetIfIdle s = { s with nextIn := 0, nextOut := 0 } := by
      unfold resetIfIdle; rw [hcs]; simp
    have hps : pSem s = [] := by simp [pSem, hcs]
    rw [hps, List.nil_append] at hfs
    by_cases h10 : c = 10
    · have hstep : readLoop s (c :: rest) = readLoop { s with cmdBuf := Function.update s.cmdBuf 0 c, maxStoreIdx := max s.maxStoreIdx 0, nextIn := 1, nextOut := 1, cmdState := CmdState.CMD_NL } rest := by
        rw [readLoop.eq_def]
        simp [if_neg hlt, hri, hcs, store, Function.update_same, h10]
      have hpt3 : pText ({ s with cmdBuf := Function.update s.cmdBuf 0 c, maxStoreIdx := max s.maxStoreIdx 0, nextIn := 1, nextOut := 1, cmdState := CmdState.CMD_NL } : State) = [c] := by
        simp [pText, List.range_succ]
      have hbi3 : BufInv ({ s with cmdBuf := Function.update s.cmdBuf 0 c, maxStoreIdx := max s.maxStoreIdx 0, nextIn := 1, nextOut := 1, cmdState := CmdState.CMD_NL } : State) := by
        intro _
        show pendOk CmdState.CMD_NL (pText ({ s with cmdBuf := Function.update s.cmdBuf 0 c, maxStoreIdx := max s.maxStoreIdx 0, nextIn := 1, nextOut := 1, cmdState := CmdState.CMD_NL } : State))
        rw [hpt3, h10]
        simp [pendOk]
      have hfs3 : fieldShort (pSem ({ s with cmdBuf := Function.update s.cmdBuf 0 c, maxStoreIdx := max s.maxStoreIdx 0, nextIn := 1, nextOut := 1, cmdState := CmdState.CMD_NL } : State) ++ rest) := by
        have hpe : pSem ({ s with cmdBuf := Function.update s.cmdBuf 0 c, maxStoreIdx := max s.maxStoreIdx 0, nextIn := 1, nextOut := 1, cmdState := CmdState.CMD_NL } : State) = [c] := by
          rw [← hpt3]; simp [pSem]
        rw [hpe]
        exact hfs
      obtain ⟨ihm, ihb, ihf⟩ := ih _ hbi3 hfs3
      rw [hstep]
      refine ⟨?_, ihb, ihf⟩
      have hgm : ({ s with cmdBuf := Function.update s.cmdBuf 0 c, maxStoreIdx := max s.maxStoreIdx 0, nextIn := 1, nextOut := 1, cmdState := CmdState.CMD_NL } : State).maxStoreIdx = max s.maxStoreIdx 0 := rfl
      omega
    · by_cases h48 : c = 48
      · have hstep : readLoop s (c :: rest) = readLoop { s with cmdBuf := Function.update s.cmdBuf 0 c, maxStoreIdx := max s.maxStoreIdx 0, nextIn := 1, nextOut := 1, cmdState := CmdState.CMD_0 } rest := by
          rw [readLoop.eq_def]
          simp [if_neg hlt, hri, hcs, store, Function.update_same, h10, h48]
        have hpt3 : pText ({ s with cmdBuf := Function.update s.cmdBuf 0 c, maxStoreIdx := max s.maxStoreIdx 0, nextIn := 1, nextOut := 1, cmdState := CmdState.CMD_0 } : State) = [c] := by
          simp [pText, List.range_succ]
        have hbi3 : BufInv ({ s with cmdBuf := Function.update s.cmdBuf 0 c, maxStoreIdx := max s.maxStoreIdx 0, nextIn := 1, nextOut := 1, cmdState := CmdState.CMD_0 } : State) := by
          intro _
          show pendOk CmdState.CMD_0 (pText ({ s with cmdBuf := Function.update s.cmdBuf 0 c, maxStoreIdx := max s.maxStoreIdx 0, nextIn := 1, nextOut := 1, cmdState := CmdState.CMD_0 } : State))
          rw [hpt3, h48]
          simp [pendOk]
        have hfs3 : fieldShort (pSem ({ s with cmdBuf := Function.update s.cmdBuf 0 c, maxStoreIdx := max s.maxStoreIdx 0, nextIn := 1, nextOut := 1, cmdState := CmdState.CMD_0 } : State) ++ rest) := by
          have hpe : pSem ({ s with cmdBuf := Function.update s.cmdBuf 0 c, maxStoreIdx := max s.maxStoreIdx 0, nextIn := 1, nextOut := 1, cmdState := CmdState.CMD_0 } : State) = [c] := by
            rw [← hpt3]; simp [pSem]
          rw [hpe]
          exact hfs
        obtain ⟨ihm, ihb, ihf⟩ := ih _ hbi3 hfs3
        rw [hstep]
        refine ⟨?_, ihb, ihf⟩
        have hgm : ({ s with cmdBuf := Function.update s.cmdBuf 0 c, maxStoreIdx := max s.maxStoreIdx 0, nextIn := 1, nextOut := 1, cmdState := CmdState.CMD_0 } : State).maxStoreIdx = max s.maxStoreIdx 0 := rfl
        omega
      · have hstep : readLoop s (c :: rest) = readLoop { s with cmdBuf := Function.update s.cmdBuf 0 c, maxStoreIdx := max s.maxStoreIdx 0, nextIn := 1, nextOut := 0, cmdState := CmdState.CMD_WAIT } rest := by
          rw [readLoop.eq_def]
          simp [if_neg hlt, hri, hcs, store, Function.update_same, h10, h48]
        have hbi3 : BufInv ({ s with cmdBuf := Function.update s.cmdBuf 0 c, maxStoreIdx := max s.maxStoreIdx 0, nextIn := 1, nextOut := 0, cmdState := CmdState.CMD_WAIT } : State) := fun hne => absurd rfl hne
        have hfs3 : fieldShort (pSem ({ s with cmdBuf := Function.update s.cmdBuf 0 c, maxStoreIdx := max s.maxStoreIdx 0, nextIn := 1, nextOut := 0, cmdState := CmdState.CMD_WAIT } : State) ++ rest) := by
          have hpe : pSem ({ s with cmdBuf := Function.update s.cmdBuf 0 c, maxStoreIdx := max s.maxStoreIdx 0, nextIn := 1, nextOut := 0, cmdState := CmdState.CMD_WAIT } : State) = [] := by simp [pSem]
          rw [hpe, List.nil_append]
          exact fieldShort_of_append (u := [c]) hfs
        obtain ⟨ihm, ihb, ihf⟩ := ih _ hbi3 hfs3
        rw [hstep]
        refine ⟨?_, ihb, ihf⟩
        have hgm : ({ s with cmdBuf := Function.update s.cmdBuf 0 c, maxStoreIdx := max s.maxStoreIdx 0, nextIn := 1, nextOut := 0, cmdState := CmdState.CMD_WAIT } : State).maxStoreIdx = max s.maxStoreIdx 0 := rfl
        omega
  | CMD_NL =>
    have hp := hbi (by rw [hcs]; simp)
    rw [hcs] at hp
    simp only [pendOk] at hp
    have hIn : s.nextIn = 1 := by
      have hl := pText_length s
      rw [hp] at hl
      simpa using hl.symm
    have hps : pSem s = pText s := by simp [pSem, hcs]
    by_cases hc : c = 43
    · have hstep : readLoop s (c :: rest) = readLoop { s with cmdBuf := Function.update s.cmdBuf s.nextIn c, maxStoreIdx := max s.maxStoreIdx s.nextIn, nextIn := s.nextIn + 1, nextOut := s.nextIn + 1, cmdState := CmdState.CMD_PLUS } rest := by
        rw [readLoop.eq_def]
        simp [if_neg hlt, resetIfIdle, hcs, store, advanceIf, Function.update_same, hc]
      have hpt3 : pText ({ s with cmdBuf := Function.update s.cmdBuf s.nextIn c, maxStoreIdx := max s.maxStoreIdx s.nextIn, nextIn := s.nextIn + 1, nextOut := s.nextIn + 1, cmdState := CmdState.CMD_PLUS } : State) = pText s ++ [c] :=
        pText_after_store s _ c rfl rfl
      have hbi3 : BufInv ({ s with cmdBuf := Function.update s.cmdBuf s.nextIn c, maxStoreIdx := max s.maxStoreIdx s.nextIn, nextIn := s.nextIn + 1, nextOut := s.nextIn + 1, cmdState := CmdState.CMD_PLUS } : State) := by
        intro _
        show pendOk CmdState.CMD_PLUS (pText ({ s with cmdBuf := Function.update s.cmdBuf s.nextIn c, maxStoreIdx := max s.maxStoreIdx s.nextIn, nextIn := s.nextIn + 1, nextOut := s.nextIn + 1, cmdState := CmdState.CMD_PLUS } : State))
        rw [hpt3, hp, hc]
        simp [pendOk]
      have hfs3 : fieldShort (pSem ({ s with cmdBuf := Function.update s.cmdBuf s.nextIn c, maxStoreIdx := max s.maxStoreIdx s.nextIn, nextIn := s.nextIn + 1, nextOut := s.nextIn + 1, cmdState := CmdState.CMD_PLUS } : State) ++ rest) := by
        have hpe : pSem ({ s with cmdBuf := Function.update s.cmdBuf s.nextIn c, maxStoreIdx := max s.maxStoreIdx s.nextIn, nextIn := s.nextIn + 1, nextOut := s.nextIn + 1, cmdState := CmdState.CMD_PLUS } : State) = pText s ++ [c] := by
          rw [← hpt3]; simp [pSem]
        rw [hpe, List.append_assoc]
        rw [hps] at hfs
        exact hfs
      obtain ⟨ihm, ihb, ihf⟩ := ih _ hbi3 hfs3
      rw [hstep]
      refine ⟨?_, ihb, ihf⟩
      have hgm : ({ s with cmdBuf := Function.update s.cmdBuf s.nextIn c, maxStoreIdx := max s.maxStoreIdx s.nextIn, nextIn := s.nextIn + 1, nextOut := s.nextIn + 1, cmdState := CmdState.CMD_PLUS } : State).maxStoreIdx = max s.maxStoreIdx s.nextIn := rfl
      omega
    · have hstep : readLoop s (c :: rest) = readLoop { s with cmdBuf := Function.update s.cmdBuf s.nextIn c, maxStoreIdx := max s.maxStoreIdx s.nextIn, nextIn := s.nextIn + 1, nextOut := 0, cmdState := CmdState.CMD_WAIT } rest := by
        rw [readLoop.eq_def]
        simp [if_neg hlt, resetIfIdle, hcs, store, advanceIf, Function.update_same, hc]
      have hbi3 : BufInv ({ s with cmdBuf := Function.update s.cmdBuf s.nextIn c, maxStoreIdx := max s.maxStoreIdx s.nextIn, nextIn := s.nextIn + 1, nextOut := 0, cmdState := CmdState.CMD_WAIT } : State) := fun hne => absurd rfl hne
      have hfs3 : fieldShort (pSem ({ s with cmdBuf := Function.update s.cmdBuf s.nextIn c, maxStoreIdx := max s.maxStoreIdx s.nextIn, nextIn := s.nextIn + 1, nextOut := 0, cmdState := CmdState.CMD_WAIT } : State) ++ rest) := by
        have hpe : pSem ({ s with cmdBuf := Function.update s.cmdBuf s.nextIn c, maxStoreIdx := max s.maxStoreIdx s.nextIn, nextIn := s.nextIn + 1, nextOut := 0, cmdState := CmdState.CMD_WAIT } : State) = [] := by simp [pSem]
        rw [hpe, List.nil_append]
        rw [hps] at hfs
        have hfs2 : fieldShort ((pText s ++ [c]) ++ rest) := by
          rw [List.append_assoc]
          exact hfs
        exact fieldShort_of_append hfs2
      obtain ⟨ihm, ihb, ihf⟩ := ih _ hbi3 hfs3
      rw [hstep]
      refine ⟨?_, ihb, ihf⟩
      have hgm : ({ s with cmdBuf := Function.update s.cmdBuf s.nextIn c, maxStoreIdx := max s.maxStoreIdx s.nextIn, nextIn := s.nextIn + 1, nextOut := 0, cmdState := CmdState.CMD_WAIT } : State).maxStoreIdx = max s.maxStoreIdx s.nextIn := rfl
      omega
  | CMD_PLUS =>
    have hp := hbi (by rw [hcs]; simp)
    rw [hcs] at hp
    simp only [pendOk] at hp
    have hIn : s.nextIn = 2 := by
      have hl := pText_length s
      rw [hp] at hl
      simpa using hl.symm
    have hps : pSem s = pText s := by simp [pSem, hcs]
    by_cases hc : c = 73
    · have hstep : readLoop s (c :: rest) = readLoop { s with cmdBuf := Function.update s.cmdBuf s.nextIn c, maxStoreIdx := max s.maxStoreIdx s.nextIn, nextIn := s.nextIn + 1, nextOut := s.nextIn + 1, cmdState := CmdState.CMD_I } rest := by
        rw [readLoop.eq_def]
        simp [if_neg hlt, resetIfIdle, hcs, store, advanceIf, Function.update_same, hc]
      have hpt3 : pText ({ s with cmdBuf := Function.update s.cmdBuf s.nextIn c, maxStoreIdx := max s.maxStoreIdx s.nextIn, nextIn := s.nextIn + 1, nextOut := s.nextIn + 1, cmdState := CmdState.CMD_I } : State) = pText s ++ [c] :=
        pText_after_store s _ c rfl rfl
      have hbi3 : BufInv ({ s with cmdBuf := Function.update s.cmdBuf s.nextIn c, maxStoreIdx := max s.maxStoreIdx s.nextIn, nextIn := s.nextIn + 1, nextOut := s.nextIn + 1, cmdState := CmdState.CMD_I } : State) := by
        intro _
        show pendOk CmdState.CMD_I (pText ({ s with cmdBuf := Function.update s.cmdBuf s.nextIn c, maxStoreIdx := max s.maxStoreIdx s.nextIn, nextIn := s.nextIn + 1, nextOut := s.nextIn + 1, cmdState := CmdState.CMD_I } : State))
        rw [hpt3, hp, hc]
        simp [pendOk]
      have hfs3 : fieldShort (pSem ({ s with cmdBuf := Function.update s.cmdBuf s.nextIn c, maxStoreIdx := max s.maxStoreIdx s.nextIn, nextIn := s.nextIn + 1, nextOut := s.nextIn + 1, cmdState := CmdState.CMD_I } : State) ++ rest) := by
        have hpe : pSem ({ s with cmdBuf := Function.update s.cmdBuf s.nextIn c, maxStoreIdx := max s.maxStoreIdx s.nextIn, nextIn := s.nextIn + 1, nextOut := s.nextIn + 1, cmdState := CmdState.CMD_I } : State) = pText s ++ [c] := by
          rw [← hpt3]; simp [pSem]
        rw [hpe, List.append_assoc]
        rw [hps] at hfs
        exact hfs
      obtain ⟨ihm, ihb, ihf⟩ := ih _ hbi3 hfs3
      rw [hstep]
      refine ⟨?_, ihb, ihf⟩
      have hgm : ({ s with cmdBuf := Function.update s.cmdBuf s.nextIn c, maxStoreIdx := max s.maxStoreIdx s.nextIn, nextIn := s.nextIn + 1, nextOut := s.nextIn + 1, cmdState := CmdState.CMD_I } : State).maxStoreIdx = max s.maxStoreIdx s.nextIn := rfl
      omega
    · have hstep : readLoop s (c :: rest) = readLoop { s with cmdBuf := Function.update s.cmdBuf s.nextIn c, maxStoreIdx := max s.maxStoreIdx s.nextIn, nextIn := s.nextIn + 1, nextOut := 0, cmdState := CmdState.CMD_WAIT } rest := by
        rw [readLoop.eq_def]
        simp [if_neg hlt, resetIfIdle, hcs, store, advanceIf, Function.update_same, hc]
      have hbi3 : BufInv ({ s with cmdBuf := Function.update s.cmdBuf s.nextIn c, maxStoreIdx := max s.maxStoreIdx s.nextIn, nextIn := s.nextIn + 1, nextOut := 0, cmdState := CmdState.CMD_WAIT } : State) := fun hne => absurd rfl hne
      have hfs3 : fieldShort (pSem ({ s with cmdBuf := Function.update s.cmdBuf s.nextIn c, maxStoreIdx := max s.maxStoreIdx s.nextIn, nextIn := s.nextIn + 1, nextOut := 0, cmdState := CmdState.CMD_WAIT } : State) ++ rest) := by
        have hpe : pSem ({ s with cmdBuf := Function.update s.cmdBuf s.nextIn c, maxStoreIdx := max s.maxStoreIdx s.nextIn, nextIn := s.nextIn + 1, nextOut := 0, cmdState := CmdState.CMD_WAIT } : State) = [] := by simp [pSem]
        rw [hpe, List.nil_append]
        rw [hps] at hfs
        have hfs2 : fieldShort ((pText s ++ [c]) ++ rest) := by
          rw [List.append_assoc]
          exact hfs
        exact fieldShort_of_append hfs2
      obtain ⟨ihm, ihb, ihf⟩ := ih _ hbi3 hfs3
      rw [hstep]
      refine ⟨?_, ihb, ihf⟩
      have hgm : ({ s with cmdBuf := Function.update s.cmdBuf s.nextIn c, maxStoreIdx := max s.maxStoreIdx s.nextIn, nextIn := s.nextIn + 1, nextOut := 0, cmdState := CmdState.CMD_WAIT } : State).maxStoreIdx = max s.maxStoreIdx s.nextIn := rfl
      omega
  | CMD_I =>
    have hp := hbi (by rw [hcs]; simp)
    rw [hcs] at hp
    simp only [pendOk] at hp
    have hIn : s.nextIn = 3 := by
      have hl := pText_length s
      rw [hp] at hl
      simpa using hl.symm
    have hps : pSem s = pText s := by simp [pSem, hcs]
    by_cases hc : c = 80
    · have hstep : readLoop s (c :: rest) = readLoop { s with cmdBuf := Function.update s.cmdBuf s.nextIn c, maxStoreIdx := max s.maxStoreIdx s.nextIn, nextIn := s.nextIn + 1, nextOut := s.nextIn + 1, cmdState := CmdState.CMD_P } rest := by
        rw [readLoop.eq_def]
        simp [if_neg hlt, resetIfIdle, hcs, store, advanceIf, Function.update_same, hc]
      have hpt3 : pText ({ s with cmdBuf := Function.update s.cmdBuf s.nextIn c, maxStoreIdx := max s.maxStoreIdx s.nextIn, nextIn := s.nextIn + 1, nextOut := s.nextIn + 1, cmdState := CmdState.CMD_P } : State) = pText s ++ [c] :=
        pText_after_store s _ c rfl rfl
      have hbi3 : BufInv ({ s with cmdBuf := Function.update s.cmdBuf s.nextIn c, maxStoreIdx := max s.maxStoreIdx s.nextIn, nextIn := s.nextIn + 1, nextOut := s.nextIn + 1, cmdState := CmdState.CMD_P } : State) := by
        intro _
        show pendOk CmdState.CMD_P (pText ({ s with cmdBuf := Function.update s.cmdBuf s.nextIn c, maxStoreIdx := max s.maxStoreIdx s.nextIn, nextIn := s.nextIn + 1, nextOut := s.nextIn + 1, cmdState := CmdState.CMD_P } : State))
        rw [hpt3, hp, hc]
        simp [pendOk]
      have hfs3 : fieldShort (pSem ({ s with cmdBuf := Function.update s.cmdBuf s.nextIn c, maxStoreIdx := max s.maxStoreIdx s.nextIn, nextIn := s.nextIn + 1, nextOut := s.nextIn + 1, cmdState := CmdState.CMD_P } : State) ++ rest) := by
        have hpe : pSem ({ s with cmdBuf := Function.update s.cmdBuf s.nextIn c, maxStoreIdx := max s.maxStoreIdx s.nextIn, nextIn := s.nextIn + 1, nextOut := s.nextIn + 1, cmdState := CmdState.CMD_P } : State) = pText s ++ [c] := by
          rw [← hpt3]; simp [pSem]
        rw [hpe, List.append_assoc]
        rw [hps] at hfs
        exact hfs
      obtain ⟨ihm, ihb, ihf⟩ := ih _ hbi3 hfs3
      rw [hstep]
      refine ⟨?_, ihb, ihf⟩
      have hgm : ({ s with cmdBuf := Function.update s.cmdBuf s.nextIn c, maxStoreIdx := max s.maxStoreIdx s.nextIn, nextIn := s.nextIn + 1, nextOut := s.nextIn + 1, cmdState := CmdState.CMD_P } : State).maxStoreIdx = max s.maxStoreIdx s.nextIn := rfl
      omega
    · have hstep : readLoop s (c :: rest) = readLoop { s with cmdBuf := Function.update s.cmdBuf s.nextIn c, maxStoreIdx := max s.maxStoreIdx s.nextIn, nextIn := s.nextIn + 1, nextOut := 0, cmdState := CmdState.CMD_WAIT } rest := by
        rw [readLoop.eq_def]
        simp [if_neg hlt, resetIfIdle, hcs, store, advanceIf, Function.update_same, hc]
      have hbi3 : BufInv ({ s with cmdBuf := Function.update s.cmdBuf s.nextIn c, maxStoreIdx := max s.maxStoreIdx s.nextIn, nextIn := s.nextIn + 1, nextOut := 0, cmdState := CmdState.CMD_WAIT } : State) := fun hne => absurd rfl hne
      have hfs3 : fieldShort (pSem ({ s with cmdBuf := Function.update s.cmdBuf s.nextIn c, maxStoreIdx := max s.maxStoreIdx s.nextIn, nextIn := s.nextIn + 1, nextOut := 0, cmdState := CmdState.CMD_WAIT } : State) ++ rest) := by
        have hpe : pSem ({ s with cmdBuf := Function.update s.cmdBuf s.nextIn c, maxStoreIdx := max s.maxStoreIdx s.nextIn, nextIn := s.nextIn + 1, nextOut := 0, cmdState := CmdState.CMD_WAIT } : State) = [] := by simp [pSem]
        rw [hpe, List.nil_append]
        rw [hps] at hfs
        have hfs2 : fieldShort ((pText s ++ [c]) ++ rest) := by
          rw [List.append_assoc]
          exact hfs
        exact fieldShort_of_append hfs2
      obtain ⟨ihm, ihb, ihf⟩ := ih _ hbi3 hfs3
      rw [hstep]
      refine ⟨?_, ihb, ihf⟩
      have hgm : ({ s with cmdBuf := Function.update s.cmdBuf s.nextIn c, maxStoreIdx := max s.maxStoreIdx s.nextIn, nextIn := s.nextIn + 1, nextOut := 0, cmdState := CmdState.CMD_WAIT } : State).maxStoreIdx = max s.maxStoreIdx s.nextIn := rfl
      omega
  | CMD_P =>
    have hp := hbi (by rw [hcs]; simp)
    rw [hcs] at hp
    simp only [pendOk] at hp
    have hIn : s.nextIn = 4 := by
      have hl := pText_length s
      rw [hp] at hl
      simpa using hl.symm
    have hps : pSem s = pText s := by simp [pSem, hcs]
    by_cases hc : c = 68
    · have hstep : readLoop s (c :: rest) = readLoop { s with cmdBuf := Function.update s.cmdBuf s.nextIn c, maxStoreIdx := max s.maxStoreIdx s.nextIn, nextIn := s.nextIn + 1, nextOut := s.nextIn + 1, cmdState := CmdState.CMD_D } rest := by
        rw [readLoop.eq_def]
        simp [if_neg hlt, resetIfIdle, hcs, store, advanceIf, Function.update_same, hc]
      have hpt3 : pText ({ s with cmdBuf := Function.update s.cmdBuf s.nextIn c, maxStoreIdx := max s.maxStoreIdx s.nextIn, nextIn := s.nextIn + 1, nextOut := s.nextIn + 1, cmdState := CmdState.CMD_D } : State) = pText s ++ [c] :=
        pText_after_store s _ c rfl rfl
      have hbi3 : BufInv ({ s with cmdBuf := Function.update s.cmdBuf s.nextIn c, maxStoreIdx := max s.maxStoreIdx s.nextIn, nextIn := s.nextIn + 1, nextOut := s.nextIn + 1, cmdState := CmdState.CMD_D } : State) := by
        intro _
        show pendOk CmdState.CMD_D (pText ({ s with cmdBuf := Function.update s.cmdBuf s.nextIn c, maxStoreIdx := max s.maxStoreIdx s.nextIn, nextIn := s.nextIn + 1, nextOut := s.nextIn + 1, cmdState := CmdState.CMD_D } : State))
        rw [hpt3, hp, hc]
        simp [pendOk]
      have hfs3 : fieldShort (pSem ({ s with cmdBuf := Function.update s.cmdBuf s.nextIn c, maxStoreIdx := max s.maxStoreIdx s.nextIn, nextIn := s.nextIn + 1, nextOut := s.nextIn + 1, cmdState := CmdState.CMD_D } : State) ++ rest) := by
        have hpe : pSem ({ s with cmdBuf := Function.update s.cmdBuf s.nextIn c, maxStoreIdx := max s.maxStoreIdx s.nextIn, nextIn := s.nextIn + 1, nextOut := s.nextIn + 1, cmdState := CmdState.CMD_D } : State) = pText s ++ [c] := by
          rw [← hpt3]; simp [pSem]
        rw [hpe, List.append_assoc]
        rw [hps] at hfs
        exact hfs
      obtain ⟨ihm, ihb, ihf⟩ := ih _ hbi3 hfs3
      rw [hstep]
      refine ⟨?_, ihb, ihf⟩
      have hgm : ({ s with cmdBuf := Function.update s.cmdBuf s.nextIn c, maxStoreIdx := max s.maxStoreIdx s.nextIn, nextIn := s.nextIn + 1, nextOut := s.nextIn + 1, cmdState := CmdState.CMD_D } : State).maxStoreIdx = max s.maxStoreIdx s.nextIn := rfl
      omega
    · have hstep : readLoop s (c :: rest) = readLoop { s with cmdBuf := Function.update s.cmdBuf s.nextIn c, maxStoreIdx := max s.maxStoreIdx s.nextIn, nextIn := s.nextIn + 1, nextOut := 0, cmdState := CmdState.CMD_WAIT } rest := by
        rw [readLoop.eq_def]
        simp [if_neg hlt, resetIfIdle, hcs, store, advanceIf, Function.update_same, hc]
      have hbi3 : BufInv ({ s with cmdBuf := Function.update s.cmdBuf s.nextIn c, maxStoreIdx := max s.maxStoreIdx s.nextIn, nextIn := s.nextIn + 1, nextOut := 0, cmdState := CmdState.CMD_WAIT } : State) := fun hne => absurd rfl hne
      have hfs3 : fieldShort (pSem ({ s with cmdBuf := Function.update s.cmdBuf s.nextIn c, maxStoreIdx := max s.maxStoreIdx s.nextIn, nextIn := s.nextIn + 1, nextOut := 0, cmdState := CmdState.CMD_WAIT } : State) ++ rest) := by
        have hpe : pSem ({ s with cmdBuf := Function.update s.cmdBuf s.nextIn c, maxStoreIdx := max s.maxStoreIdx s.nextIn, nextIn := s.nextIn + 1, nextOut := 0, cmdState := CmdState.CMD_WAIT } : State) = [] := by simp [pSem]
        rw [hpe, List.nil_append]
        rw [hps] at hfs
        have hfs2 : fieldShort ((pText s ++ [c]) ++ rest) := by
          rw [List.append_assoc]
          exact hfs
        exact fieldShort_of_append hfs2
      obtain ⟨ihm, ihb, ihf⟩ := ih _ hbi3 hfs3
      rw [hstep]
      refine ⟨?_, ihb, ihf⟩
      have hgm : ({ s with cmdBuf := Function.update s.cmdBuf s.nextIn c, maxStoreIdx := max s.maxStoreIdx s.nextIn, nextIn := s.nextIn + 1, nextOut := 0, cmdState := CmdState.CMD_WAIT } : State).maxStoreIdx = max s.maxStoreIdx s.nextIn := rfl
      omega
  | CMD_D =>
    have hp := hbi (by rw [hcs]; simp)
    rw [hcs] at hp
    simp only [pendOk] at hp
    have hIn : s.nextIn = 5 := by
      have hl := pText_length s
      rw [hp] at hl
      simpa using hl.symm
    have hps : pSem s = pText s := by simp [pSem, hcs]
    by_cases hc : c = 44
    · have hstep : readLoop s (c :: rest) = readLoop { s with cmdBuf := Function.update s.cmdBuf s.nextIn c, maxStoreIdx := max s.maxStoreIdx s.nextIn, nextIn := s.nextIn + 1, nextOut := s.nextIn + 1, cmdState := CmdState.CMD_COMMA } rest := by
        rw [readLoop.eq_def]
        simp [if_neg hlt, resetIfIdle, hcs, store, advanceIf, Function.update_same, hc]
      have hpt3 : pText ({ s with cmdBuf := Function.update s.cmdBuf s.nextIn c, maxStoreIdx := max s.maxStoreIdx s.nextIn, nextIn := s.nextIn + 1, nextOut := s.nextIn + 1, cmdState := CmdState.CMD_COMMA } : State) = pText s ++ [c] :=
        pText_after_store s _ c rfl rfl
      have hbi3 : BufInv ({ s with cmdBuf := Function.update s.cmdBuf s.nextIn c, maxStoreIdx := max s.maxStoreIdx s.nextIn, nextIn := s.nextIn + 1, nextOut := s.nextIn + 1, cmdState := CmdState.CMD_COMMA } : State) := by
        intro _
        show pendOk CmdState.CMD_COMMA (pText ({ s with cmdBuf := Function.update s.cmdBuf s.nextIn c, maxStoreIdx := max s.maxStoreIdx s.nextIn, nextIn := s.nextIn + 1, nextOut := s.nextIn + 1, cmdState := CmdState.CMD_COMMA } : State))
        rw [hpt3, hp, hc]
        exact ⟨[], by simp [ipd6], by simp⟩
      have hfs3 : fieldShort (pSem ({ s with cmdBuf := Function.update s.cmdBuf s.nextIn c, maxStoreIdx := max s.maxStoreIdx s.nextIn, nextIn := s.nextIn + 1, nextOut := s.nextIn + 1, cmdState := CmdState.CMD_COMMA } : State) ++ rest) := by
        have hpe : pSem ({ s with cmdBuf := Function.update s.cmdBuf s.nextIn c, maxStoreIdx := max s.maxStoreIdx s.nextIn, nextIn := s.nextIn + 1, nextOut := s.nextIn + 1, cmdState := CmdState.CMD_COMMA } : State) = pText s ++ [c] := by
          rw [← hpt3]; simp [pSem]
        rw [hpe, List.append_assoc]
        rw [hps] at hfs
        exact hfs
      obtain ⟨ihm, ihb, ihf⟩ := ih _ hbi3 hfs3
      rw [hstep]
      refine ⟨?_, ihb, ihf⟩
      have hgm : ({ s with cmdBuf := Function.update s.cmdBuf s.nextIn c, maxStoreIdx := max s.maxStoreIdx s.nextIn, nextIn := s.nextIn + 1, nextOut := s.nextIn + 1, cmdState := CmdState.CMD_COMMA } : State).maxStoreIdx = max s.maxStoreIdx s.nextIn := rfl
      omega
    · have hstep : readLoop s (c :: rest) = readLoop { s with cmdBuf := Function.update s.cmdBuf s.nextIn c, maxStoreIdx := max s.maxStoreIdx s.nextIn, nextIn := s.nextIn + 1, nextOut := 0, cmdState := CmdState.CMD_WAIT } rest := by
        rw [readLoop.eq_def]
        simp [if_neg hlt, resetIfIdle, hcs, store, advanceIf, Function.update_same, hc]
      have hbi3 : BufInv ({ s with cmdBuf := Function.update s.cmdBuf s.nextIn c, maxStoreIdx := max s.maxStoreIdx s.nextIn, nextIn := s.nextIn + 1, nextOut := 0, cmdState := CmdState.CMD_WAIT } : State) := fun hne => absurd rfl hne
      have hfs3 : fieldShort (pSem ({ s with cmdBuf := Function.update s.cmdBuf s.nextIn c, maxStoreIdx := max s.maxStoreIdx s.nextIn, nextIn := s.nextIn + 1, nextOut := 0, cmdState := CmdState.CMD_WAIT } : State) ++ rest) := by
        have hpe : pSem ({ s with cmdBuf := Function.update s.cmdBuf s.nextIn c, maxStoreIdx := max s.maxStoreIdx s.nextIn, nextIn := s.nextIn + 1, nextOut := 0, cmdState := CmdState.CMD_WAIT } : State) = [] := by simp [pSem]
        rw [hpe, List.nil_append]
        rw [hps] at hfs
        have hfs2 : fieldShort ((pText s ++ [c]) ++ rest) := by
          rw [List.append_assoc]
          exact hfs
        exact fieldShort_of_append hfs2
      obtain ⟨ihm, ihb, ihf⟩ := ih _ hbi3 hfs3
      rw [hstep]
      refine ⟨?_, ihb, ihf⟩
      have hgm : ({ s with cmdBuf := Function.update s.cmdBuf s.nextIn c, maxStoreIdx := max s.maxStoreIdx s.nextIn, nextIn := s.nextIn + 1, nextOut := 0, cmdState := CmdState.CMD_WAIT } : State).maxStoreIdx = max s.maxStoreIdx s.nextIn := rfl
      omega
  | CMD_COMMA =>
    have hp := hbi (by rw [hcs]; simp)
    rw [hcs] at hp
    simp only [pendOk] at hp
    obtain ⟨t, hpt, ht58⟩ := hp
    have hIn : s.nextIn = 6 + t.length := by
      have hl := pText_length s
      rw [hpt] at hl
      simp [ipd6] at hl
      omega
    have hps : pSem s = pText s := by simp [pSem, hcs]
    have hfsT : fieldShort ((ipd6 ++ t) ++ c :: rest) := by
      rw [hps, hpt] at hfs
      exact hfs
    have hfs2 : fieldShort (ipd6 ++ (t ++ c :: rest)) := by
      rw [← List.append_assoc]
      exact hfsT
    have h0 := hfs2 0 (by simp [ipd6]) (by
      unfold listAt
      rw [List.drop_zero]
      exact List.take_left' rfl)
    have hdrop : (ipd6 ++ (t ++ c :: rest)).drop 6 = t ++ c :: rest := List.drop_left' rfl
    simp only [Nat.zero_add, hdrop] at h0
    have hT : t.length ≤ 13 := comma_field_bound t (c :: rest) ht58 (by simp) h0
    by_cases hc : c = 58
    · subst hc
      have hstep : readLoop s (58 :: rest) = readLoop { s with cmdBuf := Function.update s.cmdBuf s.nextIn 58, maxStoreIdx := max s.maxStoreIdx s.nextIn, nextIn := 0, nextOut := 0, cmdState := CmdState.CMD_WAIT } rest := by
        rw [readLoop.eq_def]
        simp [if_neg hlt, resetIfIdle, hcs, store, Function.update_same]
      have hbi3 : BufInv ({ s with cmdBuf := Function.update s.cmdBuf s.nextIn 58, maxStoreIdx := max s.maxStoreIdx s.nextIn, nextIn := 0, nextOut := 0, cmdState := CmdState.CMD_WAIT } : State) := fun hne => absurd rfl hne
      have hfs3 : fieldShort (pSem ({ s with cmdBuf := Function.update s.cmdBuf s.nextIn 58, maxStoreIdx := max s.maxStoreIdx s.nextIn, nextIn := 0, nextOut := 0, cmdState := CmdState.CMD_WAIT } : State) ++ rest) := by
        have hpe : pSem ({ s with cmdBuf := Function.update s.cmdBuf s.nextIn 58, maxStoreIdx := max s.maxStoreIdx s.nextIn, nextIn := 0, nextOut := 0, cmdState := CmdState.CMD_WAIT } : State) = [] := by simp [pSem]
        rw [hpe, List.nil_append]
        have hfs4 : fieldShort (((ipd6 ++ t) ++ [58]) ++ rest) := by
          rw [List.append_assoc (ipd6 ++ t)]
          exact hfsT
        exact fieldShort_of_append hfs4
      obtain ⟨ihm, ihb, ihf⟩ := ih _ hbi3 hfs3
      rw [hstep]
      refine ⟨?_, ihb, ihf⟩
      have hgm : ({ s with cmdBuf := Function.update s.cmdBuf s.nextIn 58, maxStoreIdx := max s.maxStoreIdx s.nextIn, nextIn := 0, nextOut := 0, cmdState := CmdState.CMD_WAIT } : State).maxStoreIdx = max s.maxStoreIdx s.nextIn := rfl
      omega
    · have hstep : readLoop s (c :: rest) = readLoop { s with cmdBuf := Function.update s.cmdBuf s.nextIn c, maxStoreIdx := max s.maxStoreIdx s.nextIn, nextIn := s.nextIn + 1, nextOut := s.nextIn + 1, cmdState := CmdState.CMD_COMMA } rest := by
        rw [readLoop.eq_def]
        simp [if_neg hlt, resetIfIdle, hcs, store, Function.update_same, hc]
      have hpt3 : pText ({ s with cmdBuf := Function.update s.cmdBuf s.nextIn c, maxStoreIdx := max s.maxStoreIdx s.nextIn, nextIn := s.nextIn + 1, nextOut := s.nextIn + 1, cmdState := CmdState.CMD_COMMA } : State) = pText s ++ [c] :=
        pText_after_store s _ c rfl rfl
      have hbi3 : BufInv ({ s with cmdBuf := Function.update s.cmdBuf s.nextIn c, maxStoreIdx := max s.maxStoreIdx s.nextIn, nextIn := s.nextIn + 1, nextOut := s.nextIn + 1, cmdState := CmdState.CMD_COMMA } : State) := by
        intro _
        show pendOk CmdState.CMD_COMMA (pText ({ s with cmdBuf := Function.update s.cmdBuf s.nextIn c, maxStoreIdx := max s.maxStoreIdx s.nextIn, nextIn := s.nextIn + 1, nextOut := s.nextIn + 1, cmdState := CmdState.CMD_COMMA } : State))
        rw [hpt3, hpt]
        refine ⟨t ++ [c], by rw [List.append_assoc], ?_⟩
        simp only [List.mem_append, List.mem_singleton, not_or]
        exact ⟨ht58, fun h => hc h.symm⟩
      have hfs3 : fieldShort (pSem ({ s with cmdBuf := Function.update s.cmdBuf s.nextIn c, maxStoreIdx := max s.maxStoreIdx s.nextIn, nextIn := s.nextIn + 1, nextOut := s.nextIn + 1, cmdState := CmdState.CMD_COMMA } : State) ++ rest) := by
        have hpe : pSem ({ s with cmdBuf := Function.update s.cmdBuf s.nextIn c, maxStoreIdx := max s.maxStoreIdx s.nextIn, nextIn := s.nextIn + 1, nextOut := s.nextIn + 1, cmdState := CmdState.CMD_COMMA } : State) = pText s ++ [c] := by
          rw [← hpt3]; simp [pSem]
        rw [hpe, List.append_assoc]
        rw [hps] at hfs
        exact hfs
      obtain ⟨ihm, ihb, ihf⟩ := ih _ hbi3 hfs3
      rw [hstep]
      refine ⟨?_, ihb, ihf⟩
      have hgm : ({ s with cmdBuf := Function.update s.cmdBuf s.nextIn c, maxStoreIdx := max s.maxStoreIdx s.nextIn, nextIn := s.nextIn + 1, nextOut := s.nextIn + 1, cmdState := CmdState.CMD_COMMA } : State).maxStoreIdx = max s.maxStoreIdx s.nextIn := rfl
      omega
  | CMD_0 =>
    have hp := hbi (by rw [hcs]; simp)
    rw [hcs] at hp
    simp only [pendOk] at hp
    have hIn : s.nextIn = 1 := by
      have hl := pText_length s
      rw [hp] at hl
      simpa using hl.symm
    have hps : pSem s = pText s := by simp [pSem, hcs]
    by_cases hc : c = 44
    · have hstep : readLoop s (c :: rest) = readLoop { s with cmdBuf := Function.update s.cmdBuf s.nextIn c, maxStoreIdx := max s.maxStoreIdx s.nextIn, nextIn := s.nextIn + 1, nextOut := s.nextIn + 1, cmdState := CmdState.CMD_0_ } rest := by
        rw [readLoop.eq_def]
        simp [if_neg hlt, resetIfIdle, hcs, store, advanceIf, Function.update_same, hc]
      have hpt3 : pText ({ s with cmdBuf := Function.update s.cmdBuf s.nextIn c, maxStoreIdx := max s.maxStoreIdx s.nextIn, nextIn := s.nextIn + 1, nextOut := s.nextIn + 1, cmdState := CmdState.CMD_0_ } : State) = pText s ++ [c] :=
        pText_after_store s _ c rfl rfl
      have hbi3 : BufInv ({ s with cmdBuf := Function.update s.cmdBuf s.nextIn c, maxStoreIdx := max s.maxStoreIdx s.nextIn, nextIn := s.nextIn + 1, nextOut := s.nextIn + 1, cmdState := CmdState.CMD_0_ } : State) := by
        intro _
        show pendOk CmdState.CMD_0_ (pText ({ s with cmdBuf := Function.update s.cmdBuf s.nextIn c, maxStoreIdx := max s.maxStoreIdx s.nextIn, nextIn := s.nextIn + 1, nextOut := s.nextIn + 1, cmdState := CmdState.CMD_0_ } : State))
        rw [hpt3, hp, hc]
        simp [pendOk]
      have hfs3 : fieldShort (pSem ({ s with cmdBuf := Function.update s.cmdBuf s.nextIn c, maxStoreIdx := max s.maxStoreIdx s.nextIn, nextIn := s.nextIn + 1, nextOut := s.nextIn + 1, cmdState := CmdState.CMD_0_ } : State) ++ rest) := by
        have hpe : pSem ({ s with cmdBuf := Function.update s.cmdBuf s.nextIn c, maxStoreIdx := max s.maxStoreIdx s.nextIn, nextIn := s.nextIn + 1, nextOut := s.nextIn + 1, cmdState := CmdState.CMD_0_ } : State) = pText s ++ [c] := by
          rw [← hpt3]; simp [pSem]
        rw [hpe, List.append_assoc]
        rw [hps] at hfs
        exact hfs
      obtain ⟨ihm, ihb, ihf⟩ := ih _ hbi3 hfs3
      rw [hstep]
      refine ⟨?_, ihb, ihf⟩
      have hgm : ({ s with cmdBuf := Function.update s.cmdBuf s.nextIn c, maxStoreIdx := max s.maxStoreIdx s.nextIn, nextIn := s.nextIn + 1, nextOut := s.nextIn + 1, cmdState := CmdState.CMD_0_ } : State).maxStoreIdx = max s.maxStoreIdx s.nextIn := rfl
      omega
    · have hstep : readLoop s (c :: rest) = readLoop { s with cmdBuf := Function.update s.cmdBuf s.nextIn c, maxStoreIdx := max s.maxStoreIdx s.nextIn, nextIn := s.nextIn + 1, nextOut := 0, cmdState := CmdState.CMD_WAIT } rest := by
        rw [readLoop.eq_def]
        simp [if_neg hlt, resetIfIdle, hcs, store, advanceIf, Function.update_same, hc]
      have hbi3 : BufInv ({ s with cmdBuf := Function.update s.cmdBuf s.nextIn c, maxStoreIdx := max s.maxStoreIdx s.nextIn, nextIn := s.nextIn + 1, nextOut := 0, cmdState := CmdState.CMD_WAIT } : State) := fun hne => absurd rfl hne
      have hfs3 : fieldShort (pSem ({ s with cmdBuf := Function.update s.cmdBuf s.nextIn c, maxStoreIdx := max s.maxStoreIdx s.nextIn, nextIn := s.nextIn + 1, nextOut := 0, cmdState := CmdState.CMD_WAIT } : State) ++ rest) := by
        have hpe : pSem ({ s with cmdBuf := Function.update s.cmdBuf s.nextIn c, maxStoreIdx := max s.maxStoreIdx s.nextIn, nextIn := s.nextIn + 1, nextOut := 0, cmdState := CmdState.CMD_WAIT } : State) = [] := by simp [pSem]
        rw [hpe, List.nil_append]
        rw [hps] at hfs
        have hfs2 : fieldShort ((pText s ++ [c]) ++ rest) := by
          rw [List.append_assoc]
          exact hfs
        exact fieldShort_of_append hfs2
      obtain ⟨ihm, ihb, ihf⟩ := ih _ hbi3 hfs3
      rw [hstep]
      refine ⟨?_, ihb, ihf⟩
      have hgm : ({ s with cmdBuf := Function.update s.cmdBuf s.nextIn c, maxStoreIdx := max s.maxStoreIdx s.nextIn, nextIn := s.nextIn + 1, nextOut := 0, cmdState := CmdState.CMD_WAIT } : State).maxStoreIdx = max s.maxStoreIdx s.nextIn := rfl
      omega
  | CMD_0_ =>
    have hp := hbi (by rw [hcs]; simp)
    rw [hcs] at hp
    simp only [pendOk] at hp
    have hIn : s.nextIn = 2 := by
      have hl := pText_length s
      rw [hp] at hl
      simpa using hl.symm
    have hps : pSem s = pText s := by simp [pSem, hcs]
    by_cases hc : c = 67
    · have hstep : readLoop s (c :: rest) = readLoop { s with cmdBuf := Function.update s.cmdBuf s.nextIn c, maxStoreIdx := max s.maxStoreIdx s.nextIn, nextIn := s.nextIn + 1, nextOut := s.nextIn + 1, cmdState := CmdState.CMD_0_C } rest := by
        rw [readLoop.eq_def]
        simp [if_neg hlt, resetIfIdle, hcs, store, advanceIf, Function.update_same, hc]
      have hpt3 : pText ({ s with cmdBuf := Function.update s.cmdBuf s.nextIn c, maxStoreIdx := max s.maxStoreIdx s.nextIn, nextIn := s.nextIn + 1, nextOut := s.nextIn + 1, cmdState := CmdState.CMD_0_C } : State) = pText s ++ [c] :=
        pText_after_store s _ c rfl rfl
      have hbi3 : BufInv ({ s with cmdBuf := Function.update s.cmdBuf s.nextIn c, maxStoreIdx := max s.maxStoreIdx s.nextIn, nextIn := s.nextIn + 1, nextOut := s.nextIn + 1, cmdState := CmdState.CMD_0_C } : State) := by
        intro _
        show pendOk CmdState.CMD_0_C (pText ({ s with cmdBuf := Function.update s.cmdBuf s.nextIn c, maxStoreIdx := max s.maxStoreIdx s.nextIn, nextIn := s.nextIn + 1, nextOut := s.nextIn + 1, cmdState := CmdState.CMD_0_C } : State))
        rw [hpt3, hp, hc]
        simp [pendOk]
      have hfs3 : fieldShort (pSem ({ s with cmdBuf := Function.update s.cmdBuf s.nextIn c, maxStoreIdx := max s.maxStoreIdx s.nextIn, nextIn := s.nextIn + 1, nextOut := s.nextIn + 1, cmdState := CmdState.CMD_0_C } : State) ++ rest) := by
        have hpe : pSem ({ s with cmdBuf := Function.update s.cmdBuf s.nextIn c, maxStoreIdx := max s.maxStoreIdx s.nextIn, nextIn := s.nextIn + 1, nextOut := s.nextIn + 1, cmdState := CmdState.CMD_0_C } : State) = pText s ++ [c] := by
          rw [← hpt3]; simp [pSem]
        rw [hpe, List.append_assoc]
        rw [hps] at hfs
        exact hfs
      obtain ⟨ihm, ihb, ihf⟩ := ih _ hbi3 hfs3
      rw [hstep]
      refine ⟨?_, ihb, ihf⟩
      have hgm : ({ s with cmdBuf := Function.update s.cmdBuf s.nextIn c, maxStoreIdx := max s.maxStoreIdx s.nextIn, nextIn := s.nextIn + 1, nextOut := s.nextIn + 1, cmdState := CmdState.CMD_0_C } : State).maxStoreIdx = max s.maxStoreIdx s.nextIn := rfl
      omega
    · have hstep : readLoop s (c :: rest) = readLoop { s with cmdBuf := Function.update s.cmdBuf s.nextIn c, maxStoreIdx := max s.maxStoreIdx s.nextIn, nextIn := s.nextIn + 1, nextOut := 0, cmdState := CmdState.CMD_WAIT } rest := by
        rw [readLoop.eq_def]
        simp [if_neg hlt, resetIfIdle, hcs, store, advanceIf, Function.update_same, hc]
      have hbi3 : BufInv ({ s with cmdBuf := Function.update s.cmdBuf s.nextIn c, maxStoreIdx := max s.maxStoreIdx s.nextIn, nextIn := s.nextIn + 1, nextOut := 0, cmdState := CmdState.CMD_WAIT } : State) := fun hne => absurd rfl hne
      have hfs3 : fieldShort (pSem ({ s with cmdBuf := Function.update s.cmdBuf s.nextIn c, maxStoreIdx := max s.maxStoreIdx s.nextIn, nextIn := s.nextIn + 1, nextOut := 0, cmdState := CmdState.CMD_WAIT } : State) ++ rest) := by
        have hpe : pSem ({ s with cmdBuf := Function.update s.cmdBuf s.nextIn c, maxStoreIdx := max s.maxStoreIdx s.nextIn, nextIn := s.nextIn + 1, nextOut := 0, cmdState := CmdState.CMD_WAIT } : State) = [] := by simp [pSem]
        rw [hpe, List.nil_append]
        rw [hps] at hfs
        have hfs2 : fieldShort ((pText s ++ [c]) ++ rest) := by
          rw [List.append_assoc]
          exact hfs
        exact fieldShort_of_append hfs2
      obtain ⟨ihm, ihb, ihf⟩ := ih _ hbi3 hfs3
      rw [hstep]
      refine ⟨?_, ihb, ihf⟩
      have hgm : ({ s with cmdBuf := Function.update s.cmdBuf s.nextIn c, maxStoreIdx := max s.maxStoreIdx s.nextIn, nextIn := s.nextIn + 1, nextOut := 0, cmdState := CmdState.CMD_WAIT } : State).maxStoreIdx = max s.maxStoreIdx s.nextIn := rfl
      omega
  | CMD_0_C =>
    have hp := hbi (by rw [hcs]; simp)
    rw [hcs] at hp
    simp only [pendOk] at hp
    have hIn : s.nextIn = 3 := by
      have hl := pText_length s
      rw [hp] at hl
      simpa using hl.symm
    have hps : pSem s = pText s := by simp [pSem, hcs]
    by_cases hc : c = 76
    · have hstep : readLoop s (c :: rest) = readLoop { s with cmdBuf := Function.update s.cmdBuf s.nextIn c, maxStoreIdx := max s.maxStoreIdx s.nextIn, nextIn := s.nextIn + 1, nextOut := s.nextIn + 1, cmdState := CmdState.CMD_0_CL } rest := by
        rw [readLoop.eq_def]
        simp [if_neg hlt, resetIfIdle, hcs, store, advanceIf, Function.update_same, hc]
      have hpt3 : pText ({ s with cmdBuf := Function.update s.cmdBuf s.nextIn c, maxStoreIdx := max s.maxStoreIdx s.nextIn, nextIn := s.nextIn + 1, nextOut := s.nextIn + 1, cmdState := CmdState.CMD_0_CL } : State) = pText s ++ [c] :=
        pText_after_store s _ c rfl rfl
      have hbi3 : BufInv ({ s with cmdBuf := Function.update s.cmdBuf s.nextIn c, maxStoreIdx := max s.maxStoreIdx s.nextIn, nextIn := s.nextIn + 1, nextOut := s.nextIn + 1, cmdState := CmdState.CMD_0_CL } : State) := by
        intro _
        show pendOk CmdState.CMD_0_CL (pText ({ s with cmdBuf := Function.update s.cmdBuf s.nextIn c, maxStoreIdx := max s.maxStoreIdx s.nextIn, nextIn := s.nextIn + 1, nextOut := s.nextIn + 1, cmdState := CmdState.CMD_0_CL } : State))
        rw [hpt3, hp, hc]
        simp [pendOk]
      have hfs3 : fieldShort (pSem ({ s with cmdBuf := Function.update s.cmdBuf s.nextIn c, maxStoreIdx := max s.maxStoreIdx s.nextIn, nextIn := s.nextIn + 1, nextOut := s.nextIn + 1, cmdState := CmdState.CMD_0_CL } : State) ++ rest) := by
        have hpe : pSem ({ s with cmdBuf := Function.update s.cmdBuf s.nextIn c, maxStoreIdx := max s.maxStoreIdx s.nextIn, nextIn := s.nextIn + 1, nextOut := s.nextIn + 1, cmdState := CmdState.CMD_0_CL } : State) = pText s ++ [c] := by
          rw [← hpt3]; simp [pSem]
        rw [hpe, List.append_assoc]
        rw [hps] at hfs
        exact hfs
      obtain ⟨ihm, ihb, ihf⟩ := ih _ hbi3 hfs3
      rw [hstep]
      refine ⟨?_, ihb, ihf⟩
      have hgm : ({ s with cmdBuf := Function.update s.cmdBuf s.nextIn c, maxStoreIdx := max s.maxStoreIdx s.nextIn, nextIn := s.nextIn + 1, nextOut := s.nextIn + 1, cmdState := CmdState.CMD_0_CL } : State).maxStoreIdx = max s.maxStoreIdx s.nextIn := rfl
      omega
    · have hstep : readLoop s (c :: rest) = readLoop { s with cmdBuf := Function.update s.cmdBuf s.nextIn c, maxStoreIdx := max s.maxStoreIdx s.nextIn, nextIn := s.nextIn + 1, nextOut := 0, cmdState := CmdState.CMD_WAIT } rest := by
        rw [readLoop.eq_def]
        simp [if_neg hlt, resetIfIdle, hcs, store, advanceIf, Function.update_same, hc]
      have hbi3 : BufInv ({ s with cmdBuf := Function.update s.cmdBuf s.nextIn c, maxStoreIdx := max s.maxStoreIdx s.nextIn, nextIn := s.nextIn + 1, nextOut := 0, cmdState := CmdState.CMD_WAIT } : State) := fun hne => absurd rfl hne
      have hfs3 : fieldShort (pSem ({ s with cmdBuf := Function.update s.cmdBuf s.nextIn c, maxStoreIdx := max s.maxStoreIdx s.nextIn, nextIn := s.nextIn + 1, nextOut := 0, cmdState := CmdState.CMD_WAIT } : State) ++ rest) := by
        have hpe : pSem ({ s with cmdBuf := Function.update s.cmdBuf s.nextIn c, maxStoreIdx := max s.maxStoreIdx s.nextIn, nextIn := s.nextIn + 1, nextOut := 0, cmdState := CmdState.CMD_WAIT } : State) = [] := by simp [pSem]
        rw [hpe, List.nil_append]
        rw [hps] at hfs
        have hfs2 : fieldShort ((pText s ++ [c]) ++ rest) := by
          rw [List.append_assoc]
          exact hfs
        exact fieldShort_of_append hfs2
      obtain ⟨ihm, ihb, ihf⟩ := ih _ hbi3 hfs3
      rw [hstep]
      refine ⟨?_, ihb, ihf⟩
      have hgm : ({ s with cmdBuf := Function.update s.cmdBuf s.nextIn c, maxStoreIdx := max s.maxStoreIdx s.nextIn, nextIn := s.nextIn + 1, nextOut := 0, cmdState := CmdState.CMD_WAIT } : State).maxStoreIdx = max s.maxStoreIdx s.nextIn := rfl
      omega
  | CMD_0_CL =>
    have hp := hbi (by rw [hcs]; simp)
    rw [hcs] at hp
    simp only [pendOk] at hp
    have hIn : s.nextIn = 4 := by
      have hl := pText_length s
      rw [hp] at hl
      simpa using hl.symm
    have hps : pSem s = pText s := by simp [pSem, hcs]
    by_cases hc : c = 79
    · have hstep : readLoop s (c :: rest) = readLoop { s with cmdBuf := Function.update s.cmdBuf s.nextIn c, maxStoreIdx := max s.maxStoreIdx s.nextIn, nextIn := s.nextIn + 1, nextOut := s.nextIn + 1, cmdState := CmdState.CMD_0_CLO } rest := by
        rw [readLoop.eq_def]
        simp [if_neg hlt, resetIfIdle, hcs, store, advanceIf, Function.update_same, hc]
      have hpt3 : pText ({ s with cmdBuf := Function.update s.cmdBuf s.nextIn c, maxStoreIdx := max s.maxStoreIdx s.nextIn, nextIn := s.nextIn + 1, nextOut := s.nextIn + 1, cmdState := CmdState.CMD_0_CLO } : State) = pText s ++ [c] :=
        pText_after_store s _ c rfl rfl
      have hbi3 : BufInv ({ s with cmdBuf := Function.update s.cmdBuf s.nextIn c, maxStoreIdx := max s.maxStoreIdx s.nextIn, nextIn := s.nextIn + 1, nextOut := s.nextIn + 1, cmdState := CmdState.CMD_0_CLO } : State) := by
        intro _
        show pendOk CmdState.CMD_0_CLO (pText ({ s with cmdBuf := Function.update s.cmdBuf s.nextIn c, maxStoreIdx := max s.maxStoreIdx s.nextIn, nextIn := s.nextIn + 1, nextOut := s.nextIn + 1, cmdState := CmdState.CMD_0_CLO } : State))
        rw [hpt3, hp, hc]
        simp [pendOk]
      have hfs3 : fieldShort (pSem ({ s with cmdBuf := Function.update s.cmdBuf s.nextIn c, maxStoreIdx := max s.maxStoreIdx s.nextIn, nextIn := s.nextIn + 1, nextOut := s.nextIn + 1, cmdState := CmdState.CMD_0_CLO } : State) ++ rest) := by
        have hpe : pSem ({ s with cmdBuf := Function.update s.cmdBuf s.nextIn c, maxStoreIdx := max s.maxStoreIdx s.nextIn, nextIn := s.nextIn + 1, nextOut := s.nextIn + 1, cmdState := CmdState.CMD_0_CLO } : State) = pText s ++ [c] := by
          rw [← hpt3]; simp [pSem]
        rw [hpe, List.append_assoc]
        rw [hps] at hfs
        exact hfs
      obtain ⟨ihm, ihb, ihf⟩ := ih _ hbi3 hfs3
      rw [hstep]
      refine ⟨?_, ihb, ihf⟩
      have hgm : ({ s with cmdBuf := Function.update s.cmdBuf s.nextIn c, maxStoreIdx := max s.maxStoreIdx s.nextIn, nextIn := s.nextIn + 1, nextOut := s.nextIn + 1, cmdState := CmdState.CMD_0_CLO } : State).maxStoreIdx = max s.maxStoreIdx s.nextIn := rfl
      omega
    · have hstep : readLoop s (c :: rest) = readLoop { s with cmdBuf := Function.update s.cmdBuf s.nextIn c, maxStoreIdx := max s.maxStoreIdx s.nextIn, nextIn := s.nextIn + 1, nextOut := 0, cmdState := CmdState.CMD_WAIT } rest := by
        rw [readLoop.eq_def]
        simp [if_neg hlt, resetIfIdle, hcs, store, advanceIf, Function.update_same, hc]
      have hbi3 : BufInv ({ s with cmdBuf := Function.update s.cmdBuf s.nextIn c, maxStoreIdx := max s.maxStoreIdx s.nextIn, nextIn := s.nextIn + 1, nextOut := 0, cmdState := CmdState.CMD_WAIT } : State) := fun hne => absurd rfl hne
      have hfs3 : fieldShort (pSem ({ s with cmdBuf := Function.update s.cmdBuf s.nextIn c, maxStoreIdx := max s.maxStoreIdx s.nextIn, nextIn := s.nextIn + 1, nextOut := 0, cmdState := CmdState.CMD_WAIT } : State) ++ rest) := by
        have hpe : pSem ({ s with cmdBuf := Function.update s.cmdBuf s.nextIn c, maxStoreIdx := max s.maxStoreIdx s.nextIn, nextIn := s.nextIn + 1, nextOut := 0, cmdState := CmdState.CMD_WAIT } : State) = [] := by simp [pSem]
        rw [hpe, List.nil_append]
        rw [hps] at hfs
        have hfs2 : fieldShort ((pText s ++ [c]) ++ rest) := by
          rw [List.append_assoc]
          exact hfs
        exact fieldShort_of_append hfs2
      obtain ⟨ihm, ihb, ihf⟩ := ih _ hbi3 hfs3
      rw [hstep]
      refine ⟨?_, ihb, ihf⟩
      have hgm : ({ s with cmdBuf := Function.update s.cmdBuf s.nextIn c, maxStoreIdx := max s.maxStoreIdx s.nextIn, nextIn := s.nextIn + 1, nextOut := 0, cmdState := CmdState.CMD_WAIT } : State).maxStoreIdx = max s.maxStoreIdx s.nextIn := rfl
      omega
  | CMD_0_CLO =>
    have hp := hbi (by rw [hcs]; simp)
    rw [hcs] at hp
    simp only [pendOk] at hp
    have hIn : s.nextIn = 5 := by
      have hl := pText_length s
      rw [hp] at hl
      simpa using hl.symm
    have hps : pSem s = pText s := by simp [pSem, hcs]
    by_cases hc : c = 83
    · have hstep : readLoop s (c :: rest) = readLoop { s with cmdBuf := Function.update s.cmdBuf s.nextIn c, maxStoreIdx := max s.maxStoreIdx s.nextIn, nextIn := s.nextIn + 1, nextOut := s.nextIn + 1, cmdState := CmdState.CMD_0_CLOS } rest := by
        rw [readLoop.eq_def]
        simp [if_neg hlt, resetIfIdle, hcs, store, advanceIf, Function.update_same, hc]
      have hpt3 : pText ({ s with cmdBuf := Function.update s.cmdBuf s.nextIn c, maxStoreIdx := max s.maxStoreIdx s.nextIn, nextIn := s.nextIn + 1, nextOut := s.nextIn + 1, cmdState := CmdState.CMD_0_CLOS } : State) = pText s ++ [c] :=
        pText_after_store s _ c rfl rfl
      have hbi3 : BufInv ({ s with cmdBuf := Function.update s.cmdBuf s.nextIn c, maxStoreIdx := max s.maxStoreIdx s.nextIn, nextIn := s.nextIn + 1, nextOut := s.nextIn + 1, cmdState := CmdState.CMD_0_CLOS } : State) := by
        intro _
        show pendOk CmdState.CMD_0_CLOS (pText ({ s with cmdBuf := Function.update s.cmdBuf s.nextIn c, maxStoreIdx := max s.maxStoreIdx s.nextIn, nextIn := s.nextIn + 1, nextOut := s.nextIn + 1, cmdState := CmdState.CMD_0_CLOS } : State))
        rw [hpt3, hp, hc]
        simp [pendOk]
      have hfs3 : fieldShort (pSem ({ s with cmdBuf := Function.update s.cmdBuf s.nextIn c, maxStoreIdx := max s.maxStoreIdx s.nextIn, nextIn := s.nextIn + 1, nextOut := s.nextIn + 1, cmdState := CmdState.CMD_0_CLOS } : State) ++ rest) := by
        have hpe : pSem ({ s with cmdBuf := Function.update s.cmdBuf s.nextIn c, maxStoreIdx := max s.maxStoreIdx s.nextIn, nextIn := s.nextIn + 1, nextOut := s.nextIn + 1, cmdState := CmdState.CMD_0_CLOS } : State) = pText s ++ [c] := by
          rw [← hpt3]; simp [pSem]
        rw [hpe, List.append_assoc]
        rw [hps] at hfs
        exact hfs
      obtain ⟨ihm, ihb, ihf⟩ := ih _ hbi3 hfs3
      rw [hstep]
      refine ⟨?_, ihb, ihf⟩
      have hgm : ({ s with cmdBuf := Function.update s.cmdBuf s.nextIn c, maxStoreIdx := max s.maxStoreIdx s.nextIn, nextIn := s.nextIn + 1, nextOut := s.nextIn + 1, cmdState := CmdState.CMD_0_CLOS } : State).maxStoreIdx = max s.maxStoreIdx s.nextIn := rfl
      omega
    · have hstep : readLoop s (c :: rest) = readLoop { s with cmdBuf := Function.update s.cmdBuf s.nextIn c, maxStoreIdx := max s.maxStoreIdx s.nextIn, nextIn := s.nextIn + 1, nextOut := 0, cmdState := CmdState.CMD_WAIT } rest := by
        rw [readLoop.eq_def]
        simp [if_neg hlt, resetIfIdle, hcs, store, advanceIf, Function.update_same, hc]
      have hbi3 : BufInv ({ s with cmdBuf := Function.update s.cmdBuf s.nextIn c, maxStoreIdx := max s.maxStoreIdx s.nextIn, nextIn := s.nextIn + 1, nextOut := 0, cmdState := CmdState.CMD_WAIT } : State) := fun hne => absurd rfl hne
      have hfs3 : fieldShort (pSem ({ s with cmdBuf := Function.update s.cmdBuf s.nextIn c, maxStoreIdx := max s.maxStoreIdx s.nextIn, nextIn := s.nextIn + 1, nextOut := 0, cmdState := CmdState.CMD_WAIT } : State) ++ rest) := by
        have hpe : pSem ({ s with cmdBuf := Function.update s.cmdBuf s.nextIn c, maxStoreIdx := max s.maxStoreIdx s.nextIn, nextIn := s.nextIn + 1, nextOut := 0, cmdState := CmdState.CMD_WAIT } : State) = [] := by simp [pSem]
        rw [hpe, List.nil_append]
        rw [hps] at hfs
        have hfs2 : fieldShort ((pText s ++ [c]) ++ rest) := by
          rw [List.append_assoc]
          exact hfs
        exact fieldShort_of_append hfs2
      obtain ⟨ihm, ihb, ihf⟩ := ih _ hbi3 hfs3
      rw [hstep]
      refine ⟨?_, ihb, ihf⟩
      have hgm : ({ s with cmdBuf := Function.update s.cmdBuf s.nextIn c, maxStoreIdx := max s.maxStoreIdx s.nextIn, nextIn := s.nextIn + 1, nextOut := 0, cmdState := CmdState.CMD_WAIT } : State).maxStoreIdx = max s.maxStoreIdx s.nextIn := rfl
      omega
  | CMD_0_CLOS =>
    have hp := hbi (by rw [hcs]; simp)
    rw [hcs] at hp
    simp only [pendOk] at hp
    have hIn : s.nextIn = 6 := by
      have hl := pText_length s
      rw [hp] at hl
      simpa using hl.symm
    have hps : pSem s = pText s := by simp [pSem, hcs]
    by_cases hc : c = 69
    · have hstep : readLoop s (c :: rest) = readLoop { s with cmdBuf := Function.update s.cmdBuf s.nextIn c, maxStoreIdx := max s.maxStoreIdx s.nextIn, nextIn := s.nextIn + 1, nextOut := s.nextIn + 1, cmdState := CmdState.CMD_0_CLOSE } rest := by
        rw [readLoop.eq_def]
        simp [if_neg hlt, resetIfIdle, hcs, store, advanceIf, Function.update_same, hc]
      have hpt3 : pText ({ s with cmdBuf := Function.update s.cmdBuf s.nextIn c, maxStoreIdx := max s.maxStoreIdx s.nextIn, nextIn := s.nextIn + 1, nextOut := s.nextIn + 1, cmdState := CmdState.CMD_0_CLOSE } : State) = pText s ++ [c] :=
        pText_after_store s _ c rfl rfl
      have hbi3 : BufInv ({ s with cmdBuf := Function.update s.cmdBuf s.nextIn c, maxStoreIdx := max s.maxStoreIdx s.nextIn, nextIn := s.nextIn + 1, nextOut := s.nextIn + 1, cmdState := CmdState.CMD_0_CLOSE } : State) := by
        intro _
        show pendOk CmdState.CMD_0_CLOSE (pText ({ s with cmdBuf := Function.update s.cmdBuf s.nextIn c, maxStoreIdx := max s.maxStoreIdx s.nextIn, nextIn := s.nextIn + 1, nextOut := s.nextIn + 1, cmdState := CmdState.CMD_0_CLOSE } : State))
        rw [hpt3, hp, hc]
        simp [pendOk]
      have hfs3 : fieldShort (pSem ({ s with cmdBuf := Function.update s.cmdBuf s.nextIn c, maxStoreIdx := max s.maxStoreIdx s.nextIn, nextIn := s.nextIn + 1, nextOut := s.nextIn + 1, cmdState := CmdState.CMD_0_CLOSE } : State) ++ rest) := by
        have hpe : pSem ({ s with cmdBuf := Function.update s.cmdBuf s.nextIn c, maxStoreIdx := max s.maxStoreIdx s.nextIn, nextIn := s.nextIn + 1, nextOut := s.nextIn + 1, cmdState := CmdState.CMD_0_CLOSE } : State) = pText s ++ [c] := by
          rw [← hpt3]; simp [pSem]
        rw [hpe, List.append_assoc]
        rw [hps] at hfs
        exact hfs
      obtain ⟨ihm, ihb, ihf⟩ := ih _ hbi3 hfs3
      rw [hstep]
      refine ⟨?_, ihb, ihf⟩
      have hgm : ({ s with cmdBuf := Function.update s.cmdBuf s.nextIn c, maxStoreIdx := max s.maxStoreIdx s.nextIn, nextIn := s.nextIn + 1, nextOut := s.nextIn + 1, cmdState := CmdState.CMD_0_CLOSE } : State).maxStoreIdx = max s.maxStoreIdx s.nextIn := rfl
      omega
    · have hstep : readLoop s (c :: rest) = readLoop { s with cmdBuf := Function.update s.cmdBuf s.nextIn c, maxStoreIdx := max s.maxStoreIdx s.nextIn, nextIn := s.nextIn + 1, nextOut := 0, cmdState := CmdState.CMD_WAIT } rest := by
        rw [readLoop.eq_def]
        simp [if_neg hlt, resetIfIdle, hcs, store, advanceIf, Function.update_same, hc]
      have hbi3 : BufInv ({ s with cmdBuf := Function.update s.cmdBuf s.nextIn c, maxStoreIdx := max s.maxStoreIdx s.nextIn, nextIn := s.nextIn + 1, nextOut := 0, cmdState := CmdState.CMD_WAIT } : State) := fun hne => absurd rfl hne
      have hfs3 : fieldShort (pSem ({ s with cmdBuf := Function.update s.cmdBuf s.nextIn c, maxStoreIdx := max s.maxStoreIdx s.nextIn, nextIn := s.nextIn + 1, nextOut := 0, cmdState := CmdState.CMD_WAIT } : State) ++ rest) := by
        have hpe : pSem ({ s with cmdBuf := Function.update s.cmdBuf s.nextIn c, maxStoreIdx := max s.maxStoreIdx s.nextIn, nextIn := s.nextIn + 1, nextOut := 0, cmdState := CmdState.CMD_WAIT } : State) = [] := by simp [pSem]
        rw [hpe, List.nil_append]
        rw [hps] at hfs
        have hfs2 : fieldShort ((pText s ++ [c]) ++ rest) := by
          rw [List.append_assoc]
          exact hfs
        exact fieldShort_of_append hfs2
      obtain ⟨ihm, ihb, ihf⟩ := ih _ hbi3 hfs3
      rw [hstep]
      refine ⟨?_, ihb, ihf⟩
      have hgm : ({ s with cmdBuf := Function.update s.cmdBuf s.nextIn c, maxStoreIdx := max s.maxStoreIdx s.nextIn, nextIn := s.nextIn + 1, nextOut := 0, cmdState := CmdState.CMD_WAIT } : State).maxStoreIdx = max s.maxStoreIdx s.nextIn := rfl
      omega
  | CMD_0_CLOSE =>
    have hp := hbi (by rw [hcs]; simp)
    rw [hcs] at hp
    simp only [pendOk] at hp
    have hIn : s.nextIn = 7 := by
      have hl := pText_length s
      rw [hp] at hl
      simpa using hl.symm
    have hps : pSem s = pText s := by simp [pSem, hcs]
    by_cases hc : c = 68
    · subst hc
      have hstep : readLoop s (68 :: rest) = (READ_CLOSED, { s with cmdBuf := Function.update s.cmdBuf s.nextIn 68, maxStoreIdx := max s.maxStoreIdx s.nextIn }, rest) := by
        rw [readLoop.eq_def]
        simp [if_neg hlt, resetIfIdle, hcs, store, Function.update_same]
      rw [hstep]
      refine ⟨?_, ?_, ?_⟩
      · show max s.maxStoreIdx s.nextIn ≤ max s.maxStoreIdx 19
        omega
      · intro _
        show pendOk s.cmdState (pText ({ s with cmdBuf := Function.update s.cmdBuf s.nextIn 68, maxStoreIdx := max s.maxStoreIdx s.nextIn } : State))
        have hpt2 : pText ({ s with cmdBuf := Function.update s.cmdBuf s.nextIn 68, maxStoreIdx := max s.maxStoreIdx s.nextIn } : State) = pText s :=
          pText_same_store s _ 68 rfl rfl
        rw [hpt2, hcs]
        exact hp
      · intro h0
        simp [READ_CLOSED] at h0
    · have hstep : readLoop s (c :: rest) = readLoop { s with cmdBuf := Function.update s.cmdBuf s.nextIn c, maxStoreIdx := max s.maxStoreIdx s.nextIn, nextIn := s.nextIn + 1, nextOut := 0, cmdState := CmdState.CMD_WAIT } rest := by
        rw [readLoop.eq_def]
        simp [if_neg hlt, resetIfIdle, hcs, store, advanceIf, Function.update_same, hc]
      have hbi3 : BufInv ({ s with cmdBuf := Function.update s.cmdBuf s.nextIn c, maxStoreIdx := max s.maxStoreIdx s.nextIn, nextIn := s.nextIn + 1, nextOut := 0, cmdState := CmdState.CMD_WAIT } : State) := fun hne => absurd rfl hne
      have hfs3 : fieldShort (pSem ({ s with cmdBuf := Function.update s.cmdBuf s.nextIn c, maxStoreIdx := max s.maxStoreIdx s.nextIn, nextIn := s.nextIn + 1, nextOut := 0, cmdState := CmdState.CMD_WAIT } : State) ++ rest) := by
        have hpe : pSem ({ s with cmdBuf := Function.update s.cmdBuf s.nextIn c, maxStoreIdx := max s.maxStoreIdx s.nextIn, nextIn := s.nextIn + 1, nextOut := 0, cmdState := CmdState.CMD_WAIT } : State) = [] := by simp [pSem]
        rw [hpe, List.nil_append]
        rw [hps] at hfs
        have hfs2 : fieldShort ((pText s ++ [c]) ++ rest) := by
          rw [List.append_assoc]
          exact hfs
        exact fieldShort_of_append hfs2
      obtain ⟨ihm, ihb, ihf⟩ := ih _ hbi3 hfs3
      rw [hstep]
      refine ⟨?_, ihb, ihf⟩
      have hgm : ({ s with cmdBuf := Function.update s.cmdBuf s.nextIn c, maxStoreIdx := max s.maxStoreIdx s.nextIn, nextIn := s.nextIn + 1, nextOut := 0, cmdState := CmdState.CMD_WAIT } : State).maxStoreIdx = max s.maxStoreIdx s.nextIn := rfl
      omega

/-- Repeatedly calling read() on a `fieldShort` input never stores past
index 19 of the pending buffer. -/
theorem readAll_bound : ∀ (fuel : Nat) (s : State) (input : List Nat),
    BufInv s → fieldShort (pSem s ++ input) →
    (readAll fuel s input).2.2.1.maxStoreIdx ≤ max s.maxStoreIdx 19 := by
  intro fuel
  induction fuel with
  | zero =>
    intro s input _ _
    show s.maxStoreIdx ≤ max s.maxStoreIdx 19
    omega
  | succ fuel ih =>
    intro s input hbi hfs
    by_cases hb : s.begun
    · rcases hr : readLoop s input with ⟨ch, s1, in1⟩
      have hb3 := readLoop_bound input s hbi hfs
      rw [hr] at hb3
      dsimp only at hb3
      obtain ⟨h1, h2, h3⟩ := hb3
      by_cases hneg : ch < 0
      · have hres : readAll (fuel + 1) s input = ([], ch, s1, in1) := by
          simp [readAll, read, hb, hr, hneg]
        rw [hres]
        exact h1
      · have hres : readAll (fuel + 1) s input =
            (ch.toNat :: (readAll fuel s1 in1).1, (readAll fuel s1 in1).2.1,
             (readAll fuel s1 in1).2.2.1, (readAll fuel s1 in1).2.2.2) := by
          simp [readAll, read, hb, hr, hneg]
        rw [hres]
        have htail := ih s1 in1 h2 (h3 (by omega))
        show (readAll fuel s1 in1).2.2.1.maxStoreIdx ≤ max s.maxStoreIdx 19
        omega
    · have hres : readAll (fuel + 1) s input = ([], READ_ERROR, s, input) := by
        simp [readAll, read, hb, READ_ERROR]
      rw [hres]
      show s.maxStoreIdx ≤ max s.maxStoreIdx 19
      omega

/-- From a fresh begin(), a `fieldShort` input keeps every buffer store
strictly below index 20. -/
theorem readAll_fieldShort_inBounds (input : List Nat) (t fuel : Nat)
    (h : fieldShort input) :
    (readAll fuel (begin t) input).2.2.1.maxStoreIdx < 20 := by
  have hbd := readAll_bound fuel (begin t) input (fun hne => absurd rfl hne)
    (by simpa [pSem] using h)
  have h0 : (begin t).maxStoreIdx = 0 := rfl
  omega

theorem matching_self (s : State) (hb : s.begun = true) (he : s.nextOut = s.nextIn) :
    Matching s s.cmdState (pText s) := by
  refine ⟨hb, rfl, (pText_length s).symm, by rw [he]; exact (pText_length s).symm, ?_⟩
  intro i hi
  rw [pText_length] at hi
  rw [List.getD_eq_getElem _ _ (by rw [pText_length]; exact hi)]
  simp [pText, hi]

/-- A byte that starts no control sequence passes straight through the
idle filter, leaving it idle. -/
theorem read_ordinary (s : State) (c : Nat) (rest : List Nat)
    (hb : s.begun = true) (hw : s.cmdState = CmdState.CMD_WAIT)
    (he : s.nextOut = s.nextIn) (h10 : c ≠ 10) (h48 : c ≠ 48) :
    ∃ s1, read s (c :: rest) = ((c : Int), s1, rest) ∧
      s1.begun = true ∧ s1.cmdState = CmdState.CMD_WAIT ∧ s1.nextOut = s1.nextIn := by
  have hm : Matching s CmdState.CMD_WAIT (pText s) := by
    have := matching_self s hb he
    rwa [hw] at this
  rcases readLoop_step s CmdState.CMD_WAIT (pText s) c rest hm with
    ⟨q1, P1, hs, _⟩ | ⟨b, F, hs, _, s1, hret, hfl⟩ | ⟨hs, _⟩
  · exfalso
    simp [stepAbs, h10, h48] at hs
  · have hbF : c = b ∧ F = [] := by
      simp [stepAbs, h10, h48] at hs
      exact ⟨hs.1, hs.2⟩
    obtain ⟨hcb, hFnil⟩ := hbF
    subst hcb
    subst hFnil
    obtain ⟨hb1, hq1, hlen1, _⟩ := hfl
    simp only [List.length_nil, Nat.add_zero] at hlen1
    refine ⟨s1, ?_, hb1, hq1, hlen1.symm⟩
    rw [read, if_pos hb]
    exact hret
  · exfalso
    simp [stepAbs, h10, h48] at hs

theorem read_flush2 (s : State) (hb : s.begun = true) (hlt : s.nextOut < s.nextIn) :
    ∀ input, read s input =
      ((s.cmdBuf s.nextOut : Int), { s with nextOut := s.nextOut + 1 }, input) := by
  intro input
  rw [read, if_pos hb, readLoop.eq_def]
  dsimp only []
  rw [if_pos hlt]

theorem read_ord2 (s : State) (c : Nat)
    (hb : s.begun = true) (hw : s.cmdState = CmdState.CMD_WAIT)
    (he : s.nextOut = s.nextIn) (h10 : c ≠ 10) (h48 : c ≠ 48) :
    ∃ s1, (∀ rest, read s (c :: rest) = ((c : Int), s1, rest)) ∧
      s1.begun = true ∧ s1.cmdState = CmdState.CMD_WAIT ∧ s1.nextOut = s1.nextIn := by
  refine ⟨{ s with cmdBuf := Function.update s.cmdBuf 0 c, cmdState := CmdState.CMD_WAIT, nextIn := 1, nextOut := 1, maxStoreIdx := max s.maxStoreIdx 0 }, fun rest => ?_, hb, rfl, rfl⟩
  have hnlt : ¬ s.nextOut < s.nextIn := by omega
  rw [read, if_pos hb, readLoop.eq_def]
  dsimp only []
  rw [if_neg hnlt]
  simp only [resetIfIdle, hw, if_pos, store, Function.update_same]
  rw [if_neg h10, if_neg h48, readLoop.eq_def]
  dsimp only []
  simp [Function.update_same]

theorem read_zero2 (s : State) (c2 : Nat)
    (hb : s.begun = true) (hw : s.cmdState = CmdState.CMD_WAIT)
    (he : s.nextOut = s.nextIn) (h44 : c2 ≠ 44) :
    ∃ s1, (∀ rest, read s (48 :: c2 :: rest) = ((48 : Int), s1, rest)) ∧
      s1.begun = true ∧ s1.cmdState = CmdState.CMD_WAIT ∧
      s1.nextOut + 1 = s1.nextIn ∧ s1.cmdBuf s1.nextOut = c2 := by
  refine ⟨{ s with cmdBuf := Function.update (Function.update s.cmdBuf 0 48) 1 c2, cmdState := CmdState.CMD_WAIT, nextIn := 2, nextOut := 1, maxStoreIdx := max (max s.maxStoreIdx 0) 1 }, fun rest => ?_, hb, rfl, rfl, ?_⟩
  · have hnlt : ¬ s.nextOut < s.nextIn := by omega
    rw [read, if_pos hb, readLoop.eq_def]
    dsimp only []
    rw [if_neg hnlt]
    simp [resetIfIdle, hw, store, Function.update_same]
    rw [readLoop.eq_def]
    dsimp only []
    simp [resetIfIdle, store, advanceIf, Function.update_same, h44]
    rw [readLoop.eq_def]
    dsimp only []
    simp [Function.update_noteq, Function.update_same]
  · simp [Function.update_same]




set_option maxHeartbeats 2000000 in
theorem findDate_stage : ∃ S15 : State,
    S15.begun = true ∧ S15.cmdState = CmdState.CMD_WAIT ∧ S15.nextOut = S15.nextIn ∧
    ∀ ts : List Nat,
      findDate 60 (begin 5) (preDate ++ ts) =
        (match readChars S15 ts 3 with
         | (none, s16, in16) => (false, ⟨5, 2015, 8, 21, 22, 6, 40⟩, s16, in16)
         | (some l16, s16, in16) =>
           if l16.getD 0 0 ≠ 71 ∨ l16.getD 1 0 ≠ 77 ∨ l16.getD 2 0 ≠ 84 then
             (false, ⟨5, 2015, 8, 21, 22, 6, 40⟩, s16, in16)
           else (true, ⟨5, 2015, 8, 21, 22, 6, 40⟩, s16, in16)) := by
  obtain ⟨s1, h1, hb1, hw1, he1⟩ := read_ord2 (begin 5) 68 rfl rfl rfl (by decide) (by decide)
  obtain ⟨s2, h2, hb2, hw2, he2⟩ := read_ord2 s1 97 hb1 hw1 he1 (by decide) (by decide)
  obtain ⟨s3, h3, hb3, hw3, he3⟩ := read_ord2 s2 116 hb2 hw2 he2 (by decide) (by decide)
  obtain ⟨s4, h4, hb4, hw4, he4⟩ := read_ord2 s3 101 hb3 hw3 he3 (by decide) (by decide)
  obtain ⟨s5, h5, hb5, hw5, he5⟩ := read_ord2 s4 58 hb4 hw4 he4 (by decide) (by decide)
  obtain ⟨s6, h6, hb6, hw6, he6⟩ := read_ord2 s5 32 hb5 hw5 he5 (by decide) (by decide)
  obtain ⟨s7, h7, hb7, hw7, he7⟩ := read_ord2 s6 70 hb6 hw6 he6 (by decide) (by decide)
  obtain ⟨s8, h8, hb8, hw8, he8⟩ := read_ord2 s7 114 hb7 hw7 he7 (by decide) (by decide)
  obtain ⟨s9, h9, hb9, hw9, he9⟩ := read_ord2 s8 105 hb8 hw8 he8 (by decide) (by decide)
  obtain ⟨s10, h10, hb10, hw10, he10⟩ := read_ord2 s9 44 hb9 hw9 he9 (by decide) (by decide)
  obtain ⟨s11, h11, hb11, hw11, he11⟩ := read_ord2 s10 32 hb10 hw10 he10 (by decide) (by decide)
  obtain ⟨s12, h12, hb12, hw12, he12⟩ := read_ord2 s11 50 hb11 hw11 he11 (by decide) (by decide)
  obtain ⟨s13, h13, hb13, hw13, he13⟩ := read_ord2 s12 49 hb12 hw12 he12 (by decide) (by decide)
  obtain ⟨s14, h14, hb14, hw14, he14⟩ := read_ord2 s13 32 hb13 hw13 he13 (by decide) (by decide)
  obtain ⟨s15, h15, hb15, hw15, he15⟩ := read_ord2 s14 65 hb14 hw14 he14 (by decide) (by decide)
  obtain ⟨s16, h16, hb16, hw16, he16⟩ := read_ord2 s15 117 hb15 hw15 he15 (by decide) (by decide)
  obtain ⟨s17, h17, hb17, hw17, he17⟩ := read_ord2 s16 103 hb16 hw16 he16 (by decide) (by decide)
  obtain ⟨s18, h18, hb18, hw18, he18⟩ := read_ord2 s17 32 hb17 hw17 he17 (by decide) (by decide)
  obtain ⟨s19, h19, hb19, hw19, he19⟩ := read_ord2 s18 50 hb18 hw18 he18 (by decide) (by decide)
  obtain ⟨s20, h20, hb20, hw20, he20, hc20⟩ := read_zero2 s19 49 hb19 hw19 he19 (by decide)
  have h21 := read_flush2 s20 hb20 (by omega)
  obtain ⟨s22, h22, hb22, hw22, he22⟩ := read_ord2 { s20 with nextOut := s20.nextOut + 1 } 53 hb20 hw20 he20 (by decide) (by decide)
  obtain ⟨s23, h23, hb23, hw23, he23⟩ := read_ord2 s22 32 hb22 hw22 he22 (by decide) (by decide)
  obtain ⟨s24, h24, hb24, hw24, he24⟩ := read_ord2 s23 50 hb23 hw23 he23 (by decide) (by decide)
  obtain ⟨s25, h25, hb25, hw25, he25⟩ := read_ord2 s24 50 hb24 hw24 he24 (by decide) (by decide)
  obtain ⟨s26, h26, hb26, hw26, he26⟩ := read_ord2 s25 58 hb25 hw25 he25 (by decide) (by decide)
  obtain ⟨s27, h27, hb27, hw27, he27, hc27⟩ := read_zero2 s26 54 hb26 hw26 he26 (by decide)
  have h28 := read_flush2 s27 hb27 (by omega)
  obtain ⟨s29, h29, hb29, hw29, he29⟩ := read_ord2 { s27 with nextOut := s27.nextOut + 1 } 58 hb27 hw27 he27 (by decide) (by decide)
  obtain ⟨s30, h30, hb30, hw30, he30⟩ := read_ord2 s29 52 hb29 hw29 he29 (by decide) (by decide)
  obtain ⟨s31, h31, hb31, hw31, he31, hc31⟩ := read_zero2 s30 32 hb30 hw30 he30 (by decide)
  have h32 := read_flush2 s31 hb31 (by omega)
  refine ⟨{ s31 with nextOut := s31.nextOut + 1 }, hb31, hw31, he31, ?_⟩
  intro ts
  simp only [findDate, find, preDate, List.cons_append, List.nil_append]
  simp [findFrom, readChars, h1, h2, h3, h4, h5, h6, h7, h8, h9, h10, h11, h12, h13, h14, h15, h16, h17, h18, h19, h20, h21, h22, h23, h24, h25, h26, h27, h28, h29, h30, h31, h32, hc20, hc27, hc31, isDigitByte, List.getD, Int.toNat_natCast,
    Int.toNat_ofNat]


theorem intNatCast_not_neg (n : Nat) : ¬((n : Int) < 0) :=
  Int.not_lt.mpr (Int.natCast_nonneg n)

theorem readChars3_ordinary (s : State) (c1 c2 c3 : Nat)
    (hb : s.begun = true) (hw : s.cmdState = CmdState.CMD_WAIT)
    (he : s.nextOut = s.nextIn)
    (h1 : c1 ≠ 10) (h1x : c1 ≠ 48) (h2 : c2 ≠ 10) (h2x : c2 ≠ 48)
    (h3 : c3 ≠ 10) (h3x : c3 ≠ 48) :
    ∃ s3, readChars s [c1, c2, c3] 3 = (some [c1, c2, c3], s3, []) := by
  obtain ⟨u1, g1, gb1, gw1, ge1⟩ := read_ord2 s c1 hb hw he h1 h1x
  obtain ⟨u2, g2, gb2, gw2, ge2⟩ := read_ord2 u1 c2 gb1 gw1 ge1 h2 h2x
  obtain ⟨u3, g3, gb3, gw3, ge3⟩ := read_ord2 u2 c3 gb2 gw2 ge2 h3 h3x
  refine ⟨u3, ?_⟩
  simp [readChars, g1, g2, g3, intNatCast_not_neg, Int.toNat_natCast]

/-- Claim C5: findDate() on the filtered stream "Date: Fri, 21 Aug 2015
22:06:40 GMT" returns success and fills in daySinceSunday=5, year=2015,
month=8, day=21, hour=22, minute=6, second=40; and on the same stream with
any three-letter timezone token other than GMT it returns failure. -/
theorem C5_findDate_gmt_success_and_non_gmt_failure :
    ((findDate 60 (begin 5) (preDate ++ [71, 77, 84])).1 = true ∧
      (findDate 60 (begin 5) (preDate ++ [71, 77, 84])).2.1 =
        ⟨5, 2015, 8, 21, 22, 6, 40⟩) ∧
    ∀ t1 t2 t3 : Nat,
      ((65 ≤ t1 ∧ t1 ≤ 90) ∨ (97 ≤ t1 ∧ t1 ≤ 122)) →
      ((65 ≤ t2 ∧ t2 ≤ 90) ∨ (97 ≤ t2 ∧ t2 ≤ 122)) →
      ((65 ≤ t3 ∧ t3 ≤ 90) ∨ (97 ≤ t3 ∧ t3 ≤ 122)) →
      ¬(t1 = 71 ∧ t2 = 77 ∧ t3 = 84) →
      (findDate 60 (begin 5) (preDate ++ [t1, t2, t3])).1 = false := by
  obtain ⟨S15, hbS, hwS, heS, hall⟩ := findDate_stage
  constructor
  · obtain ⟨u3, hrc⟩ := readChars3_ordinary S15 71 77 84 hbS hwS heS
      (by decide) (by decide) (by decide) (by decide) (by decide) (by decide)
    constructor
    · rw [hall [71, 77, 84], hrc]
      simp [List.getD]
    · rw [hall [71, 77, 84], hrc]
      simp [List.getD]
  · intro t1 t2 t3 hl1 hl2 hl3 hne
    have h1a : t1 ≠ 10 := by rcases hl1 with h | h <;> omega
    have h1b : t1 ≠ 48 := by rcases hl1 with h | h <;> omega
    have h2a : t2 ≠ 10 := by rcases hl2 with h | h <;> omega
    have h2b : t2 ≠ 48 := by rcases hl2 with h | h <;> omega
    have h3a : t3 ≠ 10 := by rcases hl3 with h | h <;> omega
    have h3b : t3 ≠ 48 := by rcases hl3 with h | h <;> omega
    obtain ⟨u3, hrc⟩ := readChars3_ordinary S15 t1 t2 t3 hbS hwS heS
      h1a h1b h2a h2b h3a h3b
    rw [hall [t1, t2, t3], hrc]
    have hor : t1 ≠ 71 ∨ t2 ≠ 77 ∨ t3 ≠ 84 := by tauto
    simp only [List.getD_cons_zero, List.getD_cons_succ]
    rw [if_pos hor]


/-- Concrete instance of the non-GMT half of claim C5: the timezone
token "PST". -/
theorem C5_findDate_non_gmt_witness :
    ((65 ≤ 80 ∧ 80 ≤ 90) ∨ (97 ≤ 80 ∧ 80 ≤ 122)) ∧
    ¬(80 = 71 ∧ 83 = 77 ∧ 84 = 84) ∧
    (findDate 60 (begin 5) (preDate ++ [80, 83, 84])).1 = false :=
  ⟨by decide, by decide,
   C5_findDate_gmt_success_and_non_gmt_failure.2 80 83 84 (by decide)
     (by decide) (by decide) (by decide)⟩

/-- The claim C1 statement fails on the clean one-byte stream "0": the
lone '0' is held back as a tentative "0,CLOSED" match and never delivered
before the source is exhausted. -/
theorem C1_counterexample :
    ¬ipdOcc [48] ∧ ¬closedOcc [48] ∧ (readAll 2 (begin 0) [48]).1 ≠ [48] := by
  refine ⟨by decide, by decide, ?_⟩
  simp [readAll, read, readLoop, resetIfIdle, store, advanceIf, begin,
    Function.update, READ_TIMEOUT, READ_CLOSED, READ_ERROR]

/-- Claim C1: reading a byte sequence free of the control sequences
"\n+IPD,<n>:" and "0,CLOSED" through read() until exhaustion yields
exactly the input bytes in order, amended with the hypothesis that the
recognizer is back in its idle state at the end of the input (no trailing
prefix of a control sequence is still being buffered). -/
theorem C1_clean_stream_identity (input : List Nat) (t fuel : Nat)
    (hfuel : input.length + 1 ≤ fuel)
    (hipd : ¬ipdOcc input) (hcl : ¬closedOcc input)
    (hidle : (runAbs CmdState.CMD_WAIT [] input).q = CmdState.CMD_WAIT) :
    (readAll fuel (begin t) input).1 = input ∧
    (readAll fuel (begin t) input).2.1 = READ_TIMEOUT := by
  obtain ⟨ho, hr, -⟩ := readAll_eq_runAbs input t fuel hfuel
  obtain ⟨hout, hcfalse, hpend⟩ :=
    runAbs_clean input CmdState.CMD_WAIT [] (by simp [pendOk])
      (by simpa using hipd) (by simpa using hcl)
  have hPnil : (runAbs CmdState.CMD_WAIT [] input).P = [] := by
    rw [hidle] at hpend
    simpa [pendOk] using hpend
  constructor
  · rw [ho]
    rw [hPnil, List.append_nil, List.nil_append] at hout
    exact hout
  · rw [hr, hcfalse]
    rfl

/-- Concrete instance of the amended claim C1 on the stream "ABC". -/
theorem C1_clean_stream_identity_witness :
    ([65, 66, 67] : List Nat).length + 1 ≤ 4 ∧ ¬ipdOcc [65, 66, 67] ∧
    ¬closedOcc [65, 66, 67] ∧
    ((readAll 4 (begin 0) [65, 66, 67]).1 = [65, 66, 67] ∧
     (readAll 4 (begin 0) [65, 66, 67]).2.1 = READ_TIMEOUT) :=
  ⟨by decide, by decide, by decide,
   C1_clean_stream_identity [65, 66, 67] 0 4 (by decide) (by decide)
     (by decide) (by decide)⟩

/-- Claim C7: after end() has been called, read() returns READ_ERROR
immediately, the stored state is returned unchanged and the byte source
is not consumed. -/
theorem C7_read_after_end_is_error (s : State) (input : List Nat) :
    read (end' s) input = (READ_ERROR, end' s, input) := rfl

/-- The claim C8 statement fails after read() on "\n+IPX": the failed
tentative match leaves the machine idle (CMD_WAIT) with the buffered
bytes still awaiting flush, so the buffer is not empty in the idle
state. -/
theorem C8_counterexample :
    (read (begin 7) [10, 43, 73, 80, 88]).2.1.cmdState = CmdState.CMD_WAIT ∧
    (read (begin 7) [10, 43, 73, 80, 88]).2.1.nextOut <
      (read (begin 7) [10, 43, 73, 80, 88]).2.1.nextIn := by
  constructor <;>
    simp [read, readLoop, resetIfIdle, store, advanceIf, begin,
      Function.update, READ_TIMEOUT, READ_CLOSED, READ_ERROR]

/-- Claim C8: between calls, the pending-buffer read cursor never passes
the write cursor, amended in the second conjunct: the buffer is
guaranteed empty (cursors equal) whenever the recognizer is NOT idle (a
match in progress), while in the idle state flushed-but-undelivered
bytes may remain. The invariant holds of begin() and is preserved by
read() and end(). -/
theorem C8_cursor_invariant_preserved :
    (∀ t, CursorInv (begin t)) ∧
    (∀ (s : State) (input : List Nat), CursorInv s → CursorInv (read s input).2.1) ∧
    (∀ s : State, CursorInv s → CursorInv (end' s)) := by
  refine ⟨fun t => ⟨Nat.le_refl 0, fun _ => rfl⟩, fun s input h => ?_, fun s h => h⟩
  by_cases hb : s.begun
  · rw [read, if_pos hb]
    exact readLoop_cursorInv input s h
  · rw [read, if_neg hb]
    exact h

/-- Concrete instance of the amended claim C8 across begin() and a
read() call. -/
theorem C8_cursor_invariant_witness :
    CursorInv (begin 3) ∧ CursorInv (read (begin 3) [10]).2.1 :=
  ⟨C8_cursor_invariant_preserved.1 3,
   C8_cursor_invariant_preserved.2.1 (begin 3) [10] ⟨Nat.le_refl 0, fun _ => rfl⟩⟩

/-- In the idle state a newline byte is buffered at index 0 and the
recognizer enters CMD_NL. -/
theorem readLoop_wait_nl (s : State) (rest : List Nat)
    (he : s.nextOut = s.nextIn) (hq : s.cmdState = CmdState.CMD_WAIT) :
    readLoop s (10 :: rest) = readLoop { s with cmdBuf := Function.update s.cmdBuf 0 10, maxStoreIdx := max s.maxStoreIdx 0, nextIn := 1, nextOut := 1, cmdState := CmdState.CMD_NL } rest := by
  have hnf : ¬ s.nextOut < s.nextIn := by omega
  have hri : resetIfIdle s = { s with nextIn := 0, nextOut := 0 } := by
    simp [resetIfIdle, hq]
  rw [readLoop.eq_def]
  dsimp only []
  rw [if_neg hnf, hri]
  simp [store, hq, Function.update_same]

/-- The matching byte advances the recognizer from CMD_NL to CMD_PLUS,
buffering it. -/
theorem readLoop_nl_plus (s : State) (rest : List Nat)
    (he : s.nextOut = s.nextIn) (hq : s.cmdState = CmdState.CMD_NL) :
    readLoop s (43 :: rest) = readLoop { s with cmdBuf := Function.update s.cmdBuf s.nextIn 43, maxStoreIdx := max s.maxStoreIdx s.nextIn, nextIn := s.nextIn + 1, nextOut := s.nextIn + 1, cmdState := CmdState.CMD_PLUS } rest := by
  have hnf : ¬ s.nextOut < s.nextIn := by omega
  have hri : resetIfIdle s = s := by simp [resetIfIdle, hq]
  rw [readLoop.eq_def]
  dsimp only []
  rw [if_neg hnf, hri]
  simp [store, hq, advanceIf, Function.update_same]

/-- The matching byte advances the recognizer from CMD_PLUS to CMD_I,
buffering it. -/
theorem readLoop_plus_i (s : State) (rest : List Nat)
    (he : s.nextOut = s.nextIn) (hq : s.cmdState = CmdState.CMD_PLUS) :
    readLoop s (73 :: rest) = readLoop { s with cmdBuf := Function.update s.cmdBuf s.nextIn 73, maxStoreIdx := max s.maxStoreIdx s.nextIn, nextIn := s.nextIn + 1, nextOut := s.nextIn + 1, cmdState := CmdState.CMD_I } rest := by
  have hnf : ¬ s.nextOut < s.nextIn := by omega
  have hri : resetIfIdle s = s := by simp [resetIfIdle, hq]
  rw [readLoop.eq_def]
  dsimp only []
  rw [if_neg hnf, hri]
  simp [store, hq, advanceIf, Function.update_same]

/-- The matching byte advances the recognizer from CMD_I to CMD_P,
buffering it. -/
theorem readLoop_i_p (s : State) (rest : List Nat)
    (he : s.nextOut = s.nextIn) (hq : s.cmdState = CmdState.CMD_I) :
    readLoop s (80 :: rest) = readLoop { s with cmdBuf := Function.update s.cmdBuf s.nextIn 80, maxStoreIdx := max s.maxStoreIdx s.nextIn, nextIn := s.nextIn + 1, nextOut := s.nextIn + 1, cmdState := CmdState.CMD_P } rest := by
  have hnf : ¬ s.nextOut < s.nextIn := by omega
  have hri : resetIfIdle s = s := by simp [resetIfIdle, hq]
  rw [readLoop.eq_def]
  dsimp only []
  rw [if_neg hnf, hri]
  simp [store, hq, advanceIf, Function.update_same]

/-- The matching byte advances the recognizer from CMD_P to CMD_D,
buffering it. -/
theorem readLoop_p_d (s : State) (rest : List Nat)
    (he : s.nextOut = s.nextIn) (hq : s.cmdState = CmdState.CMD_P) :
    readLoop s (68 :: rest) = readLoop { s with cmdBuf := Function.update s.cmdBuf s.nextIn 68, maxStoreIdx := max s.maxStoreIdx s.nextIn, nextIn := s.nextIn + 1, nextOut := s.nextIn + 1, cmdState := CmdState.CMD_D } rest := by
  have hnf : ¬ s.nextOut < s.nextIn := by omega
  have hri : resetIfIdle s = s := by simp [resetIfIdle, hq]
  rw [readLoop.eq_def]
  dsimp only []
  rw [if_neg hnf, hri]
  simp [store, hq, advanceIf, Function.update_same]

/-- The matching byte advances the recognizer from CMD_D to CMD_COMMA,
buffering it. -/
theorem readLoop_d_comma (s : State) (rest : List Nat)
    (he : s.nextOut = s.nextIn) (hq : s.cmdState = CmdState.CMD_D) :
    readLoop s (44 :: rest) = readLoop { s with cmdBuf := Function.update s.cmdBuf s.nextIn 44, maxStoreIdx := max s.maxStoreIdx s.nextIn, nextIn := s.nextIn + 1, nextOut := s.nextIn + 1, cmdState := CmdState.CMD_COMMA } rest := by
  have hnf : ¬ s.nextOut < s.nextIn := by omega
  have hri : resetIfIdle s = s := by simp [resetIfIdle, hq]
  rw [readLoop.eq_def]
  dsimp only []
  rw [if_neg hnf, hri]
  simp [store, hq, advanceIf, Function.update_same]

/-- With fuel 1 the driver stops after the first read(); the state it
reports is the state of that single call. -/
theorem readAll_one_state (s : State) (input : List Nat) :
    (readAll 1 s input).2.2.1 = (read s input).2.1 := by
  rcases hr : read s input with ⟨ch, s1, in1⟩
  by_cases hlt : ch < 0 <;> simp [readAll, hr, hlt]

/-- From the comma-absorption state, a field of bytes without a ':'
keeps storing at ever higher buffer indices: the store index reaches the
current write cursor plus the field length when the closing ':' is
finally consumed. -/
theorem comma_overflow : ∀ (F : List Nat) (s : State),
    s.cmdState = CmdState.CMD_COMMA → s.nextOut = s.nextIn →
    (∀ b ∈ F, b ≠ 58) →
    s.nextIn + F.length ≤ (readLoop s (F ++ [58])).2.1.maxStoreIdx := by
  intro F
  induction F with
  | nil =>
    intro s hq he hF
    have hri : resetIfIdle s = s := by simp [resetIfIdle, hq]
    rw [List.nil_append, readLoop.eq_def]
    dsimp only []
    rw [if_neg (by omega), hri]
    simp only [store, hq, Function.update_same]
    rw [if_neg (by simp)]
    rw [readLoop.eq_def]
    dsimp only []
    simp only [Nat.lt_irrefl, if_false, resetIfIdle]
    simp
  | cons c F ih =>
    intro s hq he hF
    have hri : resetIfIdle s = s := by simp [resetIfIdle, hq]
    have hc : c ≠ 58 := hF c (List.mem_cons_self c F)
    rw [List.cons_append, readLoop.eq_def]
    dsimp only []
    rw [if_neg (by omega), hri]
    simp only [store, hq, Function.update_same]
    rw [if_pos hc]
    refine le_trans ?_ (ih { s with cmdBuf := Function.update s.cmdBuf s.nextIn c, maxStoreIdx := max s.maxStoreIdx s.nextIn, nextIn := s.nextIn + 1, nextOut := s.nextIn + 1, cmdState := CmdState.CMD_COMMA } rfl rfl (fun b hb => hF b (List.mem_cons_of_mem c hb)))
    show s.nextIn + (c :: F).length ≤ s.nextIn + 1 + F.length
    simp only [List.length_cons]
    omega

/-- Claim C9: a "\n+IPD," message whose byte-count field runs 14 bytes
before its ':' drives the buffer store past index 19 (out of the
20-entry _cmdBuf); conversely every input whose "\n+IPD," fields close
within 14 bytes (or end the stream) keeps every store within
indices 0..19. -/
theorem C9_buffer_overflow_and_bound :
    20 ≤ (readAll 1 (begin 0) [10, 43, 73, 80, 68, 44, 48, 48, 48, 48, 48,
        48, 48, 48, 48, 48, 48, 48, 48, 48, 58]).2.2.1.maxStoreIdx ∧
    ∀ (input : List Nat) (t fuel : Nat), fieldShort input →
      (readAll fuel (begin t) input).2.2.1.maxStoreIdx < 20 := by
  constructor
  · rw [readAll_one_state, read, if_pos (show (begin 0).begun = true from rfl)]
    rw [readLoop_wait_nl _ _ rfl rfl]
    try dsimp only [begin]
    rw [readLoop_nl_plus _ _ rfl rfl]
    try dsimp only [begin]
    rw [readLoop_plus_i _ _ rfl rfl]
    try dsimp only [begin]
    rw [readLoop_i_p _ _ rfl rfl]
    try dsimp only [begin]
    rw [readLoop_p_d _ _ rfl rfl]
    try dsimp only [begin]
    rw [readLoop_d_comma _ _ rfl rfl]
    try dsimp only [begin]
    rw [show ([48, 48, 48, 48, 48, 48, 48, 48, 48, 48, 48, 48, 48, 48, 58] :
        List Nat) =
      [48, 48, 48, 48, 48, 48, 48, 48, 48, 48, 48, 48, 48, 48] ++ [58] from rfl]
    exact le_trans (by decide) (comma_overflow
      [48, 48, 48, 48, 48, 48, 48, 48, 48, 48, 48, 48, 48, 48]
      { begun := true, timeoutMs := 0, cmdState := CmdState.CMD_COMMA, cmdBuf := Function.update (Function.update (Function.update (Function.update (Function.update (Function.update (fun _ => 0) 0 10) 1 43) (1 + 1) 73) (1 + 1 + 1) 80) (1 + 1 + 1 + 1) 68) (1 + 1 + 1 + 1 + 1) 44, nextIn := 1 + 1 + 1 + 1 + 1 + 1, nextOut := 1 + 1 + 1 + 1 + 1 + 1, maxStoreIdx := 0 ⊔ 0 ⊔ 1 ⊔ (1 + 1) ⊔ (1 + 1 + 1) ⊔ (1 + 1 + 1 + 1) ⊔ (1 + 1 + 1 + 1 + 1) }
      rfl rfl (by decide))
  · exact fun input t fuel h => readAll_fieldShort_inBounds input t fuel h

/-- Concrete instance of the in-bounds half of claim C9 on the stream
"AB". -/
theorem C9_buffer_bound_witness :
    fieldShort [65, 66] ∧
    (readAll 3 (begin 0) [65, 66]).2.2.1.maxStoreIdx < 20 :=
  ⟨by decide, C9_buffer_overflow_and_bound.2 [65, 66] 0 3 (by decide)⟩

/-- Claim C10: find("Date: ") discards a mismatching byte entirely: the
stream "DDate: " contains the literal at position 1, yet find() consumes
the opening "DD" as a failed match, never reconsiders the second 'D',
and returns false. -/
theorem C10_find_skips_overlapped_occurrence :
    listAt [68, 68, 97, 116, 101, 58, 32] 1 [68, 97, 116, 101, 58, 32] ∧
    (find 10 (begin 5) [68, 68, 97, 116, 101, 58, 32]
        [68, 97, 116, 101, 58, 32]).1 = false := by
  constructor
  · decide
  · simp [find, findFrom, read, readLoop, resetIfIdle, store, advanceIf, begin,
      Function.update, READ_TIMEOUT, READ_CLOSED, READ_ERROR]



/-- The claim C2 statement fails when "\n+IPD,5:" is inserted right
after a newline: the stream's own '\n' absorbs the inserted message's
'\n' as a failed match, the inserted bytes are all delivered and nothing
is elided. -/
theorem C2_counterexample :
    ¬ipdOcc [10, 65] ∧ ¬closedOcc [10, 65] ∧
    (readAll 11 (begin 0) ([10] ++ ipd5 ++ [65])).1 ≠ [10, 65] := by
  refine ⟨by decide, by decide, ?_⟩
  simp [ipd5, readAll, read, readLoop, resetIfIdle, store, advanceIf, begin,
    Function.update, READ_TIMEOUT, READ_CLOSED, READ_ERROR]

/-- Claim C2: inserting the control message "\n+IPD,5:" into an
otherwise-clean stream filters to the same output as the original
stream, amended with the hypothesis that the recognizer is idle at the
insertion point (the bytes before the insertion leave no partial match
in progress). -/
theorem C2_ipd_insertion_elision (u v : List Nat) (t fuel1 fuel2 : Nat)
    (hf1 : (u ++ ipd5 ++ v).length + 1 ≤ fuel1)
    (hf2 : (u ++ v).length + 1 ≤ fuel2)
    (hipd : ¬ipdOcc (u ++ v)) (hcl : ¬closedOcc (u ++ v))
    (hidle : (runAbs CmdState.CMD_WAIT [] u).q = CmdState.CMD_WAIT) :
    (readAll fuel1 (begin t) (u ++ ipd5 ++ v)).1 =
      (readAll fuel2 (begin t) (u ++ v)).1 := by
  obtain ⟨ho1, -, -⟩ := readAll_eq_runAbs (u ++ ipd5 ++ v) t fuel1 hf1
  obtain ⟨ho2, -, -⟩ := readAll_eq_runAbs (u ++ v) t fuel2 hf2
  rw [ho1, ho2]
  have hipdu : ¬ipdOcc u := fun h => hipd (ipdOcc_mono_left h)
  have hclu : ¬closedOcc u := fun h => hcl (closedOcc_mono_left h)
  obtain ⟨huout, hucl, hupend⟩ :=
    runAbs_clean u CmdState.CMD_WAIT [] (by simp [pendOk])
      (by simpa using hipdu) (by simpa using hclu)
  have hPu : (runAbs CmdState.CMD_WAIT [] u).P = [] := by
    rw [hidle] at hupend
    simpa [pendOk] using hupend
  have huo : (runAbs CmdState.CMD_WAIT [] u).out = u := by
    rw [hPu, List.append_nil, List.nil_append] at huout
    exact huout
  have hI : runAbs CmdState.CMD_WAIT [] ipd5 =
      ⟨[], false, [], CmdState.CMD_WAIT, []⟩ := by decide
  have hA := runAbs_append u (ipd5 ++ v) CmdState.CMD_WAIT [] hucl
  have hC := runAbs_append u v CmdState.CMD_WAIT [] hucl
  have hB := runAbs_append ipd5 v CmdState.CMD_WAIT [] (by rw [hI])
  simp [hA, hC, hB, hI, hidle, hPu, huo]

/-- Concrete instance of the amended claim C2: inserting "\n+IPD,5:"
between 'A' and 'B'. -/
theorem C2_ipd_insertion_elision_witness :
    (([65] : List Nat) ++ ipd5 ++ [66]).length + 1 ≤ 11 ∧
    (([65] : List Nat) ++ [66]).length + 1 ≤ 3 ∧
    ¬ipdOcc ([65] ++ [66]) ∧ ¬closedOcc ([65] ++ [66]) ∧
    (readAll 11 (begin 0) ([65] ++ ipd5 ++ [66])).1 =
      (readAll 3 (begin 0) ([65] ++ [66])).1 :=
  ⟨by decide, by decide, by decide, by decide,
   C2_ipd_insertion_elision [65] [66] 0 11 3 (by decide) (by decide)
     (by decide) (by decide) (by decide)⟩

/-- The claim C3 statement fails on the stream "00,CLOSED": it ends in
the literal "0,CLOSED", but the leading '0' spoils the tentative match,
everything is delivered as data and no close is signalled. -/
theorem C3_counterexample :
    listAt [48, 48, 44, 67, 76, 79, 83, 69, 68] 1 closedLit ∧
    (readAll 10 (begin 0) [48, 48, 44, 67, 76, 79, 83, 69, 68]).2.1 ≠
      READ_CLOSED := by
  refine ⟨by decide, ?_⟩
  simp [readAll, read, readLoop, resetIfIdle, store, advanceIf, begin,
    Function.update, READ_TIMEOUT, READ_CLOSED, READ_ERROR]

/-- Claim C3: a stream ending in the literal "0,CLOSED" delivers exactly
the bytes preceding the literal, then read() returns READ_CLOSED as the
final 'D' is consumed, no byte of the literal itself being delivered,
amended with the hypotheses that the preceding bytes are clean and leave
the recognizer idle where the literal starts. -/
theorem C3_closed_stream (w : List Nat) (t fuel : Nat)
    (hfuel : (w ++ closedLit).length + 1 ≤ fuel)
    (hipd : ¬ipdOcc w) (hcl : ¬closedOcc w)
    (hidle : (runAbs CmdState.CMD_WAIT [] w).q = CmdState.CMD_WAIT) :
    (readAll fuel (begin t) (w ++ closedLit)).1 = w ∧
    (readAll fuel (begin t) (w ++ closedLit)).2.1 = READ_CLOSED ∧
    (readAll fuel (begin t) (w ++ closedLit)).2.2.2 = [] := by
  obtain ⟨ho, hr, hm⟩ := readAll_eq_runAbs (w ++ closedLit) t fuel hfuel
  obtain ⟨hwout, hwcl, hwpend⟩ :=
    runAbs_clean w CmdState.CMD_WAIT [] (by simp [pendOk])
      (by simpa using hipd) (by simpa using hcl)
  have hPw : (runAbs CmdState.CMD_WAIT [] w).P = [] := by
    rw [hidle] at hwpend
    simpa [pendOk] using hwpend
  have hwo : (runAbs CmdState.CMD_WAIT [] w).out = w := by
    rw [hPw, List.append_nil, List.nil_append] at hwout
    exact hwout
  have hD : runAbs CmdState.CMD_WAIT [] closedLit =
      ⟨[], true, [], CmdState.CMD_0_CLOSE, [48, 44, 67, 76, 79, 83, 69]⟩ := by
    decide
  have hA := runAbs_append w closedLit CmdState.CMD_WAIT [] hwcl
  rw [hidle, hPw] at hA
  refine ⟨?_, ?_, ?_⟩
  · rw [ho, hA]
    simp [hD, hwo]
  · rw [hr, hA]
    simp [hD, resOf]
  · rw [hm, hA]
    simp [hD]

/-- Concrete instance of the amended claim C3 on the stream
"A0,CLOSED". -/
theorem C3_closed_stream_witness :
    (([65] : List Nat) ++ closedLit).length + 1 ≤ 10 ∧ ¬ipdOcc [65] ∧
    ¬closedOcc [65] ∧
    ((readAll 10 (begin 0) ([65] ++ closedLit)).1 = [65] ∧
     (readAll 10 (begin 0) ([65] ++ closedLit)).2.1 = READ_CLOSED ∧
     (readAll 10 (begin 0) ([65] ++ closedLit)).2.2.2 = []) :=
  ⟨by decide, by decide, by decide,
   C3_closed_stream [65] 0 10 (by decide) (by decide) (by decide) (by decide)⟩

/-- The claim C4 statement fails on the stream "\n+IPX\n": the failed
match "\n+IPX" is flushed literally, but the trailing '\n' opens a new
tentative match that is still buffered when the source is exhausted, so
the output is not the whole input. -/
theorem C4_counterexample :
    (readAll 7 (begin 0) [10, 43, 73, 80, 88, 10]).1 = [10, 43, 73, 80, 88] ∧
    (readAll 7 (begin 0) [10, 43, 73, 80, 88, 10]).1 ≠
      [10, 43, 73, 80, 88, 10] := by
  constructor <;>
    simp [readAll, read, readLoop, resetIfIdle, store, advanceIf, begin,
      Function.update, READ_TIMEOUT, READ_CLOSED, READ_ERROR]

/-- Claim C4: when a tentative control-sequence match fails partway, the
buffered bytes and the mismatching byte are flushed to the consumer
literally and in order ("A\n+IPXB" filters to itself), amended: the
output equals the input only up to the filtering of the bytes after the
failed match (a trailing unresolved partial match may still be held
back). -/
theorem C4_failed_match_flush :
    (readAll 8 (begin 0) [65, 10, 43, 73, 80, 88, 66]).1 =
      [65, 10, 43, 73, 80, 88, 66] ∧
    ∀ (p : List Nat) (c : Nat) (rest : List Nat) (t : Nat),
      (runAbs CmdState.CMD_WAIT [] p).out = [] →
      (runAbs CmdState.CMD_WAIT [] p).isClosed = false →
      (runAbs CmdState.CMD_WAIT [] p).P = p →
      stepAbs (runAbs CmdState.CMD_WAIT [] p).q p c =
        StepOut.cont (p ++ [c]) CmdState.CMD_WAIT [] →
      (readAll (p.length + rest.length + 2) (begin t) (p ++ c :: rest)).1 =
        p ++ c :: (runAbs CmdState.CMD_WAIT [] rest).out ∧
      (readAll (p.length + rest.length + 2) (begin t) (p ++ c :: rest)).2.1 =
        resOf (runAbs CmdState.CMD_WAIT [] rest).isClosed := by
  constructor
  · simp [readAll, read, readLoop, resetIfIdle, store, advanceIf, begin,
      Function.update, READ_TIMEOUT, READ_CLOSED, READ_ERROR]
  · intro p c rest t hout hclf hP hstep
    have hfuel : (p ++ c :: rest).length + 1 ≤ p.length + rest.length + 2 := by
      simp only [List.length_append, List.length_cons]
      omega
    obtain ⟨ho, hr, -⟩ := readAll_eq_runAbs (p ++ c :: rest) t _ hfuel
    rw [ho, hr]
    have hA := runAbs_append p (c :: rest) CmdState.CMD_WAIT [] hclf
    rw [hP] at hA
    have hstep2 : runAbs (runAbs CmdState.CMD_WAIT [] p).q p (c :: rest) =
        ⟨(p ++ [c]) ++ (runAbs CmdState.CMD_WAIT [] rest).out,
         (runAbs CmdState.CMD_WAIT [] rest).isClosed,
         (runAbs CmdState.CMD_WAIT [] rest).rem,
         (runAbs CmdState.CMD_WAIT [] rest).q,
         (runAbs CmdState.CMD_WAIT [] rest).P⟩ := by
      simp only [runAbs, hstep]
    rw [hA, hstep2]
    constructor
    · rw [hout]
      simp
    · rfl

/-- Concrete instance of the amended claim C4: the failed match "\n+IP"
followed by 'X' then 'B'. -/
theorem C4_failed_match_flush_witness :
    (runAbs CmdState.CMD_WAIT [] [10, 43, 73, 80]).out = [] ∧
    (runAbs CmdState.CMD_WAIT [] [10, 43, 73, 80]).isClosed = false ∧
    (runAbs CmdState.CMD_WAIT [] [10, 43, 73, 80]).P = [10, 43, 73, 80] ∧
    stepAbs (runAbs CmdState.CMD_WAIT [] [10, 43, 73, 80]).q
        [10, 43, 73, 80] 88 =
      StepOut.cont ([10, 43, 73, 80] ++ [88]) CmdState.CMD_WAIT [] ∧
    ((readAll (([10, 43, 73, 80] : List Nat).length +
          ([66] : List Nat).length + 2) (begin 0)
        ([10, 43, 73, 80] ++ 88 :: [66])).1 =
      [10, 43, 73, 80] ++ 88 :: (runAbs CmdState.CMD_WAIT [] [66]).out ∧
     (readAll (([10, 43, 73, 80] : List Nat).length +
          ([66] : List Nat).length + 2) (begin 0)
        ([10, 43, 73, 80] ++ 88 :: [66])).2.1 =
      resOf (runAbs CmdState.CMD_WAIT [] [66]).isClosed) :=
  ⟨by decide, by decide, by decide, by decide,
   C4_failed_match_flush.2 [10, 43, 73, 80] 88 [66] 0 (by decide) (by decide)
     (by decide) (by decide)⟩


/-- The claim C6 statement fails on the filtered stream "11.9X": the
terminating 'X' is consumed by the digit loop, so the next read() after
readDouble() finds the source exhausted instead of returning 'X'. -/
theorem C6_counterexample :
    (readDouble 10 (begin 0) [49, 49, 46, 57, 88]).1 = 119 / 10 ∧
    (read (readDouble 10 (begin 0) [49, 49, 46, 57, 88]).2.1
        (readDouble 10 (begin 0) [49, 49, 46, 57, 88]).2.2).1 ≠ 88 := by
  obtain ⟨s1, h1, hb1, hw1, he1⟩ :=
    read_ord2 (begin 0) 49 rfl rfl rfl (by decide) (by decide)
  obtain ⟨s2, h2, hb2, hw2, he2⟩ :=
    read_ord2 s1 49 hb1 hw1 he1 (by decide) (by decide)
  obtain ⟨s3, h3, hb3, hw3, he3⟩ :=
    read_ord2 s2 46 hb2 hw2 he2 (by decide) (by decide)
  obtain ⟨s4, h4, hb4, hw4, he4⟩ :=
    read_ord2 s3 57 hb3 hw3 he3 (by decide) (by decide)
  obtain ⟨s5, h5, hb5, hw5, he5⟩ :=
    read_ord2 s4 88 hb4 hw4 he4 (by decide) (by decide)
  have hempty : read s5 [] = (READ_TIMEOUT, resetIfIdle s5, []) := by
    rw [read, if_pos hb5, readLoop.eq_def]
    dsimp only []
    rw [if_neg (by omega)]
  constructor
  · norm_num [readDouble, readDigitsInt, readDigitsFrac, h1, h2, h3, h4, h5]
  · norm_num [readDouble, readDigitsInt, readDigitsFrac, h1, h2, h3, h4, h5,
      hempty, READ_TIMEOUT]

/-- Claim C6: readDouble() on "11.9X" returns the value 11.9, amended:
the terminating byte 'X' is consumed by readDouble() itself, so the next
read() returns the byte after 'X' (here 'Y'), not 'X'. -/
theorem C6_readDouble_consumes_terminator :
    (readDouble 10 (begin 0) [49, 49, 46, 57, 88, 89]).1 = 119 / 10 ∧
    (read (readDouble 10 (begin 0) [49, 49, 46, 57, 88, 89]).2.1
        (readDouble 10 (begin 0) [49, 49, 46, 57, 88, 89]).2.2).1 = 89 := by
  obtain ⟨s1, h1, hb1, hw1, he1⟩ :=
    read_ord2 (begin 0) 49 rfl rfl rfl (by decide) (by decide)
  obtain ⟨s2, h2, hb2, hw2, he2⟩ :=
    read_ord2 s1 49 hb1 hw1 he1 (by decide) (by decide)
  obtain ⟨s3, h3, hb3, hw3, he3⟩ :=
    read_ord2 s2 46 hb2 hw2 he2 (by decide) (by decide)
  obtain ⟨s4, h4, hb4, hw4, he4⟩ :=
    read_ord2 s3 57 hb3 hw3 he3 (by decide) (by decide)
  obtain ⟨s5, h5, hb5, hw5, he5⟩ :=
    read_ord2 s4 88 hb4 hw4 he4 (by decide) (by decide)
  obtain ⟨s6, h6, hb6, hw6, he6⟩ :=
    read_ord2 s5 89 hb5 hw5 he5 (by decide) (by decide)
  constructor
  · norm_num [readDouble, readDigitsInt, readDigitsFrac, h1, h2, h3, h4, h5]
  · norm_num [readDouble, readDigitsInt, readDigitsFrac, h1, h2, h3, h4, h5,
      h6]

end ESP8266HttpRead
